import Mathlib

/-!
Verification of the Mesh Tile Format v1 (`MTI1`) codec.

This file gives a shallow embedding, in Lean 4, of the codec implemented by
the TypeScript sources of the `mesh-data-tile` repository:

* `src/crc32.ts`      — table-driven IEEE CRC-32;
* `src/tile-id.ts`    — XYZ (zoom, x, y) ↔ u64 tile-id packing;
* `src/payload.ts`    — dtype registry, per-scalar validation, bulk
  sample (de)serialization;
* `src/tile-format.ts` — the 58-byte fixed header, the no-data field codec,
  and the `encodeTile` / `inspectTile` / `decodeTile` pipelines;
* `src/compression.ts` — adapter around the runtime `CompressionStream`;
  the DEFLATE codec itself is an external runtime capability and is
  modelled as an abstract `Runtime` parameter.

Modelling conventions:

* A byte buffer (JS `Uint8Array`) is a `List Nat` whose entries are `< 256`
  (`WFBytes`); production and consumption sites preserve this invariant.
* A JS `number` (IEEE-754 binary64) is modelled by `JSNum`: either a finite
  rational value, `NaN`, or a signed infinity.  JS compares, validates and
  range-checks numbers by exact value, so these operations transport
  faithfully to `ℚ`.  `-0` is conflated with `0`, matching JS `===`.
  `DataView.setFloat32`/`setFloat64` are modelled by an executable
  IEEE-754 round-to-nearest-even conversion to bit patterns.
* JS `bigint` is modelled by `Int` (or `Nat` once known non-negative).
* A thrown `TileFormatError` is modelled by `Except.error` carrying the
  error `code` together with an `ErrSite` tag; distinct tags correspond to
  the distinct `createError` message strings in the source, which make
  same-code errors observably different.
* Integer arithmetic that JS performs on doubles is modelled exactly; the
  only divergence is sample-count arithmetic within rounding distance of
  `2^53`, which no theorem below depends on.
-/

namespace MeshDataTile

/-! ### Byte-buffer primitives -/

/-- Wellformedness of a modelled `Uint8Array`: every entry is a byte. -/
def WFBytes (bs : List Nat) : Prop := ∀ b ∈ bs, b < 256

instance : DecidablePred WFBytes := fun bs =>
  inferInstanceAs (Decidable (∀ b ∈ bs, b < 256))

/-- Little-endian byte serialization of `n` on `w` bytes (DataView write). -/
def natToBytesLE : Nat → Nat → List Nat
  | 0, _ => []
  | w + 1, n => n % 256 :: natToBytesLE w (n / 256)

/-- Little-endian byte deserialization (DataView read). -/
def bytesToNatLE : List Nat → Nat
  | [] => 0
  | b :: rest => b + 256 * bytesToNatLE rest

/-- Contiguous slice `bs[off .. off+len)` of a buffer. -/
def readBytes (bs : List Nat) (off len : Nat) : List Nat :=
  (bs.drop off).take len

/-- Single byte read `bs[off]` (in-bounds at every use site). -/
def readU8 (bs : List Nat) (off : Nat) : Nat := bs.getD off 0

/-- DataView `getUint32(off, true)`. -/
def readU32LE (bs : List Nat) (off : Nat) : Nat := bytesToNatLE (readBytes bs off 4)

/-- DataView `getBigUint64(off, true)`. -/
def readU64LE (bs : List Nat) (off : Nat) : Nat := bytesToNatLE (readBytes bs off 8)

/-! ### Error model (src/errors.ts)

Every failure of the codec is a `TileFormatError` carrying a `code` from a
closed set and a distinguishing message; `ErrSite` enumerates the distinct
`createError` call sites (message strings) of the core sources. -/

inductive TileErrorCode where
  | INVALID_MAGIC
  | UNSUPPORTED_VERSION
  | INVALID_HEADER_LENGTH
  | INVALID_FIELD_VALUE
  | MISSING_REQUIRED_FIELD
  | HEADER_CHECKSUM_MISMATCH
  | INVALID_PAYLOAD_LENGTH
  | UNSUPPORTED_COMPRESSION
  | COMPRESSION_FAILED
  | DECOMPRESSION_FAILED
  | PAYLOAD_CHECKSUM_MISMATCH
  | INTERNAL_FAILURE
deriving DecidableEq, Repr

inductive ErrSite where
  /-- "tile_id must be an integer." (tile-format.ts normalizeTileId) -/
  | tileIdNumberNotInteger
  /-- "tile_id string must be unsigned integer digits." (normalizeTileId) -/
  | tileIdStringNotDigits
  /-- "tile_id must fit u64: …" (normalizeTileId) -/
  | tileIdNotU64
  /-- "tile_id must fit u64: …" (tile-id.ts normalizeUnsignedU64, bigint arm) -/
  | u64BigIntOutOfRange
  /-- "tile_id number must be a non-negative safe integer." (normalizeUnsignedU64) -/
  | u64NumberNotSafeInteger
  /-- "tile_id string must be unsigned integer digits." (normalizeUnsignedU64) -/
  | u64StringNotDigits
  /-- "tile_id must fit u64: …" (normalizeUnsignedU64, string arm) -/
  | u64StringOutOfRange
  /-- "zoom must be an integer in [0, 29]." (tile-id.ts normalizeZoom) -/
  | zoomOutOfRange
  /-- "x/y must be an integer in [0, …] for zoom …" (normalizeCoordinate) -/
  | coordinateOutOfRange (label : String)
  /-- "xyz tile_id zoom must be <= 29; got …" (decodeXyzTileId) -/
  | xyzZoomTooLarge
  /-- "xyz tile_id has non-zero quadkey bits above the zoom length." (decodeXyzTileId) -/
  | xyzQuadkeyBitsAboveZoom
  /-- "rows/cols must be a positive integer." (tile-format.ts normalizeDimension) -/
  | dimensionNotPositive (field : String)
  /-- "rows/cols must fit u32." (normalizeDimension) -/
  | dimensionTooLarge (field : String)
  /-- "bands must be a positive integer." (normalizeBands) -/
  | bandsNotPositive
  /-- "bands must fit u8." (normalizeBands) -/
  | bandsTooLarge
  /-- "Invalid dimensions resulting in non-safe sample count." (totalSamples) -/
  | sampleCountNotSafe
  /-- "Unsupported dtype …" (packDTypeEndian; unreachable for typed input) -/
  | unsupportedDType
  /-- "Unsupported packed dtype code …" (unpackDTypeEndian) -/
  | invalidDTypeCode
  /-- "Header checksum mismatch. …" (verifyHeaderChecksum) -/
  | headerChecksumMismatch
  /-- "Invalid mesh_kind code …" (parseEnum) -/
  | invalidMeshKindCode
  /-- "Invalid compression code …" (parseEnum) -/
  | invalidCompressionCode
  /-- "no_data must be finite number or null." (validateNoData) -/
  | noDataNotFiniteInput
  /-- "no_data field must be exactly 8 bytes." (decodeNoDataField) -/
  | noDataFieldNot8Bytes
  /-- "no_data_value must be zero when no_data_kind=0." (decodeNoDataField) -/
  | noDataValueNotZeroKind0
  /-- "Unsupported no_data kind …" (decodeNoDataField) -/
  | unsupportedNoDataKind
  /-- "no_data_value must pad most significant bytes with 0." (decodeNoDataField) -/
  | noDataPaddingNonzero
  /-- "no_data numeric value must be finite." (decodeNoDataField) -/
  | noDataDecodedNotFinite
  /-- "rows, cols, and bands must be > 0." (inspectTile) -/
  | dimsMustBePositive
  /-- "Unsupported compression …" (normalizeCompression; unreachable for typed input) -/
  | unsupportedCompressionEnum
  /-- "Compression mode … is not supported in this runtime." (normalizeCompression / decodeTile / compression.ts convert) -/
  | compressionNotSupportedRuntime
  /-- "Could not compress payload using …" (compression.ts convert) -/
  | compressFailed
  /-- "Could not decompress payload using …" (compression.ts convert) -/
  | decompressFailed
  /-- "mesh_kind is required and must be enum value." (encodeTile) -/
  | meshKindRequired
  /-- "dtype is required and must be enum value." (encodeTile) -/
  | dtypeRequired
  /-- "endianness is required and must be little or big." (encodeTile) -/
  | endiannessRequired
  /-- "Expected … values for dtype …, got …" (payload.ts encodeValues) -/
  | valuesCountMismatch
  /-- "Non-finite value at index …" (encodeValues) -/
  | nonFiniteValue
  /-- "Non-integer value at index …" (encodeValues) -/
  | nonIntegerValue
  /-- "Out-of-range value at index …" (encodeValues) -/
  | outOfRangeValue
  /-- "Payload byte length … is not divisible by …" (payload.ts decodeValues) -/
  | payloadNotDivisible
  /-- "Payload byte length mismatch. …" (encodeTile) -/
  | rawPayloadLengthMismatch
  /-- "File shorter than fixed header." (inspectTile) -/
  | fileShorterThanHeader
  /-- "Invalid file magic." (inspectTile) -/
  | invalidMagic
  /-- "Unsupported major version …" (inspectTile) -/
  | unsupportedVersion
  /-- "… exceeds safe integer bounds." (u64ToSafeNumber) -/
  | lengthExceedsSafeBounds
  /-- "File shorter than declared compressed payload length." (inspectTile) -/
  | fileShorterThanPayload
  /-- "Payload length does not match fixed header metadata." (decodeTile) -/
  | payloadSliceLengthMismatch
  /-- "Uncompressed payload length mismatch. …" (decodeTile) -/
  | uncompressedLengthMismatch
  /-- "Payload checksum does not match header." (decodeTile) -/
  | payloadChecksumMismatch
  /-- "Decoded payload length mismatch. …" (decodeTile) -/
  | decodedLengthMismatch
deriving DecidableEq, Repr

/-- Model of a thrown `TileFormatError`. -/
structure TileError where
  code : TileErrorCode
  site : ErrSite
deriving DecidableEq, Repr

instance instDecEqExcept {ε α : Type} [DecidableEq ε] [DecidableEq α] :
    DecidableEq (Except ε α) := fun a b =>
  match a, b with
  | .ok x, .ok y =>
    if h : x = y then .isTrue (by rw [h]) else .isFalse (fun hc => h (Except.ok.inj hc))
  | .error x, .error y =>
    if h : x = y then .isTrue (by rw [h]) else .isFalse (fun hc => h (Except.error.inj hc))
  | .ok _, .error _ => .isFalse (fun hc => Except.noConfusion hc)
  | .error _, .ok _ => .isFalse (fun hc => Except.noConfusion hc)

/-! ### CRC-32 (src/crc32.ts)

IEEE-802.3 CRC-32, reflected, polynomial `0xEDB88320`, table-driven.  In the
source the single `>>> 0` coercions are no-ops because the operands are
already `< 2^32`. -/

/-- One bit-iteration of the table construction. -/
def crcTableStep (c : Nat) : Nat :=
  if c % 2 = 1 then (c >>> 1) ^^^ 0xedb88320 else c >>> 1

/-- Entry `byte` of the 256-entry CRC table (`createCrc32Table`). -/
def crcTableEntry (byte : Nat) : Nat :=
  crcTableStep (crcTableStep (crcTableStep (crcTableStep
    (crcTableStep (crcTableStep (crcTableStep (crcTableStep byte)))))))

/-- One byte-absorption step of `crc32`. -/
def crcStep (crc b : Nat) : Nat :=
  (crc >>> 8) ^^^ crcTableEntry ((crc ^^^ b) &&& 0xff)

/-- CRC-32 of a byte sequence (`crc32`). -/
def crc32 (bytes : List Nat) : Nat :=
  (bytes.foldl crcStep 0xffffffff) ^^^ 0xffffffff

/-! ### JS numbers -/

/-- Model of a JS `number`: a finite (rational-valued) double, `NaN`, or a
signed infinity.  `-0` is identified with `0`. -/
inductive JSNum where
  | finite (q : ℚ)
  | nan
  | inf (neg : Bool)
deriving DecidableEq, Repr

namespace JSNum

/-- `Number.isFinite`. -/
def isFinite : JSNum → Bool
  | finite _ => true
  | _ => false

/-- `Number.isNaN`. -/
def isNaN : JSNum → Bool
  | nan => true
  | _ => false

/-- `Number.isInteger`. -/
def isInteger : JSNum → Bool
  | finite q => q.den == 1
  | _ => false

/-- `Number.isSafeInteger`. -/
def isSafeInteger : JSNum → Bool
  | finite q => q.den == 1 && decide (q.num.natAbs ≤ 2 ^ 53 - 1)
  | _ => false

/-- JS `<` (false whenever an operand is `NaN`). -/
def jsLt : JSNum → JSNum → Bool
  | nan, _ => false
  | _, nan => false
  | finite a, finite b => decide (a < b)
  | finite _, inf neg => !neg
  | inf neg, finite _ => neg
  | inf n1, inf n2 => n1 && !n2

/-- JS `>`. -/
def jsGt (a b : JSNum) : Bool := jsLt b a

/-- The integer value of an integral JS number (meaningful when
`isInteger`). -/
def intValue : JSNum → Int
  | finite q => q.num
  | _ => 0

end JSNum

/-! ### Tile-identity codec (src/tile-id.ts) -/

def U64_BITS : Nat := 64
def ZOOM_BITS : Nat := 6
def QUADKEY_BITS : Nat := U64_BITS - ZOOM_BITS
def ZOOM_SHIFT : Nat := QUADKEY_BITS
def QUADKEY_MASK : Nat := (1 <<< QUADKEY_BITS) - 1
def MAX_U64 : Nat := (1 <<< U64_BITS) - 1
def MAX_ZOOM : Nat := QUADKEY_BITS / 2

/-- A tile id as accepted at the API boundary: `bigint | number | string`. -/
inductive TileIdValue where
  | big (i : Int)
  | num (v : JSNum)
  | str (s : String)
deriving DecidableEq, Repr

/-- Decimal value of a digit string (JS `BigInt(value)` on `/^\d+$/`). -/
def digitsToNat (s : String) : Nat :=
  s.data.foldl (fun acc c => acc * 10 + (c.toNat - '0'.toNat)) 0

/-- Test for the regex `^\d+$`. -/
def isDigitString (s : String) : Bool :=
  !s.isEmpty && s.data.all Char.isDigit

/-- Model of `normalizeUnsignedU64` (tile-id.ts).  The `number` arm requires
a non-negative safe integer; `bigint` and digit strings go up to `2^64-1`. -/
def normalizeUnsignedU64 (value : TileIdValue) : Except TileError Nat :=
  match value with
  | .big i =>
    if i < 0 ∨ i > (MAX_U64 : Int) then
      .error ⟨.INVALID_FIELD_VALUE, .u64BigIntOutOfRange⟩
    else .ok i.toNat
  | .num v =>
    if !v.isSafeInteger || v.jsLt (.finite 0) then
      .error ⟨.INVALID_FIELD_VALUE, .u64NumberNotSafeInteger⟩
    else .ok v.intValue.toNat
  | .str s =>
    if !isDigitString s then
      .error ⟨.INVALID_FIELD_VALUE, .u64StringNotDigits⟩
    else if digitsToNat s > MAX_U64 then
      .error ⟨.INVALID_FIELD_VALUE, .u64StringOutOfRange⟩
    else .ok (digitsToNat s)

/-- Model of `normalizeZoom`; JS inputs are numbers, integrality is carried
by the `Int` type here. -/
def normalizeZoom (zoom : Int) : Except TileError Int :=
  if zoom < 0 ∨ zoom > (MAX_ZOOM : Int) then
    .error ⟨.INVALID_FIELD_VALUE, .zoomOutOfRange⟩
  else .ok zoom

/-- Model of `normalizeCoordinate`. -/
def normalizeCoordinate (value : Int) (label : String) (zoom : Nat) : Except TileError Nat :=
  if value < 0 ∨ value ≥ (2 ^ zoom : Int) then
    .error ⟨.INVALID_FIELD_VALUE, .coordinateOutOfRange label⟩
  else .ok value.toNat

/-- The 2-bit quadkey digit at bit position `b` of `(x, y)`. -/
def xyDigit (x y b : Nat) : Nat :=
  ((x >>> b) &&& 1) ||| (((y >>> b) &&& 1) <<< 1)

/-- The quadkey-accumulation loop of `encodeXyzTileId`, iterating the bit
position downward. -/
def encLoop (x y : Nat) : Nat → Nat → Nat
  | acc, 0 => acc
  | acc, b + 1 => encLoop x y ((acc <<< 2) ||| xyDigit x y b) b

/-- Model of `encodeXyzTileId`. -/
def encodeXyzTileId (zoom x y : Int) : Except TileError Nat := do
  let z ← normalizeZoom zoom
  let xn ← normalizeCoordinate x "x" z.toNat
  let yn ← normalizeCoordinate y "y" z.toNat
  pure ((z.toNat <<< ZOOM_SHIFT) ||| encLoop xn yn 0 z.toNat)

/-- The digit-consuming loop of `decodeXyzTileId`; `r` counts the levels
still to process, so the shift for the next digit is `2*(r-1)`. -/
def decLoop (q : Nat) : Nat → Nat × Nat → Nat × Nat
  | 0, p => p
  | r + 1, (x, y) =>
    decLoop q r
      ((x <<< 1) ||| (((q >>> (2 * r)) &&& 3) &&& 1),
       (y <<< 1) ||| ((((q >>> (2 * r)) &&& 3) &&& 2) >>> 1))

/-- Result of `decodeXyzTileId`. -/
structure DecodedXyzTileId where
  zoom : Nat
  x : Nat
  y : Nat
  quadkey_integer : Nat
deriving DecidableEq, Repr

/-- Model of `decodeXyzTileId`. -/
def decodeXyzTileId (tileId : TileIdValue) : Except TileError DecodedXyzTileId := do
  let n ← normalizeUnsignedU64 tileId
  let zoom := n >>> ZOOM_SHIFT
  if zoom > MAX_ZOOM then
    Except.error ⟨.INVALID_FIELD_VALUE, .xyzZoomTooLarge⟩
  else
    let q := n &&& QUADKEY_MASK
    if 2 * zoom < QUADKEY_BITS ∧ q >>> (2 * zoom) ≠ 0 then
      Except.error ⟨.INVALID_FIELD_VALUE, .xyzQuadkeyBitsAboveZoom⟩
    else
      let p := decLoop q zoom (0, 0)
      Except.ok ⟨zoom, p.1, p.2, q⟩

/-- Model of `assertValidXyzTileId`. -/
def assertValidXyzTileId (tileId : TileIdValue) : Except TileError Nat := do
  let n ← normalizeUnsignedU64 tileId
  let _ ← decodeXyzTileId (.big n)
  pure n

/-- Model of `normalizeTileId` (tile-format.ts): any integer `number`, digit
string, or `bigint`; a single `u64` range check at the end. -/
def normalizeTileId (tileId : TileIdValue) : Except TileError Nat := do
  let parsed : Int ←
    match tileId with
    | .big i => pure i
    | .num v =>
      if !v.isInteger then
        Except.error ⟨.INVALID_FIELD_VALUE, .tileIdNumberNotInteger⟩
      else pure v.intValue
    | .str s =>
      if !isDigitString s then
        Except.error ⟨.INVALID_FIELD_VALUE, .tileIdStringNotDigits⟩
      else pure (digitsToNat s : Int)
  if parsed < 0 ∨ parsed > (MAX_U64 : Int) then
    Except.error ⟨.INVALID_FIELD_VALUE, .tileIdNotU64⟩
  else pure parsed.toNat

/-- The x-bit of position `b`, as read by `encodeXyzTileId`. -/
def xBit (x b : Nat) : Nat := (x >>> b) &&& 1

/-- Closed form of the quadkey integer: the partial digit sum below bit `b`. -/
def quadSum (x y : Nat) : Nat → Nat
  | 0 => 0
  | b + 1 => xyDigit x y b * 4 ^ b + quadSum x y b

/-- Closed form of the x-coordinate reconstruction loop of `decodeXyzTileId`. -/
def xRec (q : Nat) : Nat → Nat
  | 0 => 0
  | r + 1 => (((q >>> (2 * r)) &&& 3) &&& 1) * 2 ^ r + xRec q r

/-- Closed form of the y-coordinate reconstruction loop of `decodeXyzTileId`. -/
def yRec (q : Nat) : Nat → Nat
  | 0 => 0
  | r + 1 => ((((q >>> (2 * r)) &&& 3) &&& 2) >>> 1) * 2 ^ r + yRec q r

/-! ### DType registry and payload codec (src/payload.ts)

The eight sample dtypes, their byte widths, and the `DTYPE_MIN_MAX`
validation table.  The float32 bounds are the exact values of the doubles
denoted by the literals `±3.4e38` in the source (which are strictly smaller
in magnitude than the largest finite float32). -/

inductive DType where
  | uint8 | int8 | uint16 | int16 | uint32 | int32 | float32 | float64
deriving DecidableEq, Repr

/-- Byte width of each dtype (`byteSize` in `DTYPE_SPECS`). -/
def byteLengthForDType : DType → Nat
  | .uint8 => 1
  | .int8 => 1
  | .uint16 => 2
  | .int16 => 2
  | .uint32 => 4
  | .int32 => 4
  | .float32 => 4
  | .float64 => 8

/-- One row of `DTYPE_MIN_MAX`. -/
structure DTypeLimits where
  min : JSNum
  max : JSNum
  integer : Bool

/-- The `DTYPE_MIN_MAX` table. -/
def DTYPE_MIN_MAX : DType → DTypeLimits
  | .uint8 => ⟨.finite 0, .finite 0xff, true⟩
  | .int8 => ⟨.finite (-128), .finite 127, true⟩
  | .uint16 => ⟨.finite 0, .finite 0xffff, true⟩
  | .int16 => ⟨.finite (-32768), .finite 32767, true⟩
  | .uint32 => ⟨.finite 0, .finite 0xffffffff, true⟩
  | .int32 => ⟨.finite (-2147483648), .finite 2147483647, true⟩
  | .float32 => ⟨.finite (-339999999999999996123846586046231871488),
                 .finite 339999999999999996123846586046231871488, false⟩
  | .float64 => ⟨.inf true, .inf false, false⟩

/-! IEEE-754 bit-level semantics of `DataView.setFloat32/64` and
`getFloat32/64`.  `prec` is the precision (24 or 53), `expBits` the exponent
field width (8 or 11).  Magnitude bit patterns use the continuous encoding
`E * 2^(prec-1) + f`, which makes binade carries automatic. -/

/-- Round a non-negative rational to the nearest integer, ties to even. -/
def roundHalfEven (x : ℚ) : Nat :=
  let n := x.floor.toNat
  let r := x - x.floor
  if r < 1 / 2 then n
  else if 1 / 2 < r then n + 1
  else if n % 2 = 0 then n else n + 1

/-- Magnitude bits (exponent plus mantissa fields) of the IEEE-754
round-to-nearest-even representation of a non-negative rational. -/
def floatMagBits (prec expBits : Nat) (a : ℚ) : Nat :=
  let emax : Int := 2 ^ (expBits - 1) - 1
  let emin : Int := 1 - emax
  let infBits : Nat := (2 ^ expBits - 1) * 2 ^ (prec - 1)
  let s : ℚ := a * (2 : ℚ) ^ ((prec : Int) - 1 - emin)
  if s < (2 : ℚ) ^ (prec - 1) then
    roundHalfEven s
  else
    let t : Nat := (a * (2 : ℚ) ^ (-emin)).floor.toNat
    let e : Int := Nat.log2 t + emin
    let n : Nat := roundHalfEven (a * (2 : ℚ) ^ ((prec : Int) - 1 - e))
    min ((e - emin).toNat * 2 ^ (prec - 1) + n) infBits

/-- Bit pattern written by `DataView.setFloat32/64` for a JS number
(round-to-nearest-even; JS engines store the canonical quiet NaN). -/
def jsNumToBits (prec expBits : Nat) (v : JSNum) : Nat :=
  let signShift := expBits + prec - 1
  let infBits : Nat := (2 ^ expBits - 1) * 2 ^ (prec - 1)
  match v with
  | .nan => infBits + 2 ^ (prec - 2)
  | .inf neg => (if neg then 2 ^ signShift else 0) + infBits
  | .finite q =>
    if q < 0 then 2 ^ signShift + floatMagBits prec expBits (-q)
    else floatMagBits prec expBits q

/-- Value read by `DataView.getFloat32/64` from a bit pattern. -/
def bitsToJSNum (prec expBits : Nat) (bits : Nat) : JSNum :=
  let signShift := expBits + prec - 1
  let sign := bits >>> signShift
  let E := (bits >>> (prec - 1)) &&& (2 ^ expBits - 1)
  let f := bits &&& (2 ^ (prec - 1) - 1)
  let emax : Int := 2 ^ (expBits - 1) - 1
  if E = 2 ^ expBits - 1 then
    if f = 0 then .inf (sign = 1) else .nan
  else
    let mant : Nat := if E = 0 then f else 2 ^ (prec - 1) + f
    let e : Int := if E = 0 then 1 - emax else E - emax
    let mag : ℚ := mant * (2 : ℚ) ^ (e - ((prec : Int) - 1))
    .finite (if sign = 1 then -mag else mag)

/-- Two's-complement `w8`-bit pattern of an integer scalar (what
`DataView.setIntN/setUintN` stores once validation has established
integrality and range). -/
def intToBits (w8 : Nat) (i : Int) : Nat := (i % (2 ^ w8 : Int)).toNat

/-- Signed interpretation of a `w8`-bit pattern (`DataView.getIntN`). -/
def bitsToIntSigned (w8 : Nat) (bits : Nat) : Int :=
  if bits < 2 ^ (w8 - 1) then bits else (bits : Int) - 2 ^ w8

/-- Bit pattern stored for one validated scalar of dtype `d`. -/
def scalarToBits (d : DType) (v : JSNum) : Nat :=
  match d with
  | .float32 => jsNumToBits 24 8 v
  | .float64 => jsNumToBits 53 11 v
  | _ => intToBits (8 * byteLengthForDType d) v.intValue

/-- Scalar read back from a bit pattern of dtype `d`. -/
def scalarOfBits (d : DType) (bits : Nat) : JSNum :=
  match d with
  | .float32 => bitsToJSNum 24 8 bits
  | .float64 => bitsToJSNum 53 11 bits
  | .uint8 | .uint16 | .uint32 => .finite (bits : ℚ)
  | .int8 | .int16 | .int32 =>
    .finite ((bitsToIntSigned (8 * byteLengthForDType d) bits : Int) : ℚ)

/-- Per-scalar validation performed by the `encodeValues` loop, in source
order (non-finite, non-integer, out-of-range); `none` means accepted. -/
def validateScalar (d : DType) (v : JSNum) : Option TileError :=
  let limits := DTYPE_MIN_MAX d
  let allowFloatNaN := d == DType.float32 || d == DType.float64
  if !v.isFinite && !(allowFloatNaN && v.isNaN) then
    some ⟨.INVALID_FIELD_VALUE, .nonFiniteValue⟩
  else if limits.integer && !v.isInteger then
    some ⟨.INVALID_FIELD_VALUE, .nonIntegerValue⟩
  else if v.jsLt limits.min || v.jsGt limits.max then
    some ⟨.INVALID_FIELD_VALUE, .outOfRangeValue⟩
  else none

/-- Bytes stored by `DTYPE_SPECS[d].write` for one validated scalar
(big-endian writes reverse the little-endian byte order). -/
def writeScalarBytes (d : DType) (v : JSNum) (littleEndian : Bool) : List Nat :=
  let bs := natToBytesLE (byteLengthForDType d) (scalarToBits d v)
  if littleEndian then bs else bs.reverse

/-- Scalar read by `DTYPE_SPECS[d].read` from a `byteLengthForDType d`-byte
chunk. -/
def readScalarBytes (d : DType) (chunk : List Nat) (littleEndian : Bool) : JSNum :=
  scalarOfBits d (bytesToNatLE (if littleEndian then chunk else chunk.reverse))

/-- The per-element loop of `encodeValues`: validate, then write, in index
order; the first invalid value raises. -/
def encodeValuesLoop (d : DType) (littleEndian : Bool) :
    List JSNum → Except TileError (List Nat)
  | [] => .ok []
  | v :: rest =>
    match validateScalar d v with
    | some e => .error e
    | none =>
      match encodeValuesLoop d littleEndian rest with
      | .error e => .error e
      | .ok tail => .ok (writeScalarBytes d v littleEndian ++ tail)

/-- Model of `encodeValues` (payload.ts). -/
def encodeValues (d : DType) (values : List JSNum) (elementCount : Nat)
    (littleEndian : Bool) : Except TileError (List Nat) :=
  if values.length ≠ elementCount then
    .error ⟨.INVALID_FIELD_VALUE, .valuesCountMismatch⟩
  else encodeValuesLoop d littleEndian values

/-- The read loop of `decodeValues`, reading `count` scalars sequentially. -/
def decodeValuesLoop (d : DType) (littleEndian : Bool) :
    Nat → List Nat → List JSNum
  | 0, _ => []
  | count + 1, bs =>
    readScalarBytes d (bs.take (byteLengthForDType d)) littleEndian ::
      decodeValuesLoop d littleEndian count (bs.drop (byteLengthForDType d))

/-- Model of `decodeValues` (payload.ts); the trailing `toTypedArray` copy
is the identity on values produced by the dtype readers. -/
def decodeValues (d : DType) (bytes : List Nat) (littleEndian : Bool) :
    Except TileError (List JSNum) :=
  if bytes.length % byteLengthForDType d ≠ 0 then
    .error ⟨.INVALID_FIELD_VALUE, .payloadNotDivisible⟩
  else .ok (decodeValuesLoop d littleEndian (bytes.length / byteLengthForDType d) bytes)

/-! ### No-data field codec (src/tile-format.ts) -/

/-- Model of `validateNoData`: `undefined`/`null` normalize to `none`; a
present value must be finite. -/
def validateNoData (noData : Option JSNum) : Except TileError (Option JSNum) :=
  match noData with
  | none => .ok none
  | some v =>
    if !v.isFinite then .error ⟨.INVALID_FIELD_VALUE, .noDataNotFiniteInput⟩
    else .ok (some v)

/-- Model of `encodeNoDataField`: the kind byte together with 8 value bytes;
the scalar's encoded bytes are placed at the start (little-endian) or the
end (big-endian) of the zero-filled slot. -/
def encodeNoDataField (value : Option JSNum) (d : DType) (littleEndian : Bool) :
    Except TileError (Nat × List Nat) :=
  match value with
  | none => .ok (0, List.replicate 8 0)
  | some v =>
    match encodeValues d [v] 1 littleEndian with
    | .error e => .error e
    | .ok enc =>
      if littleEndian then .ok (1, enc ++ List.replicate (8 - enc.length) 0)
      else .ok (1, List.replicate (8 - enc.length) 0 ++ enc)

/-- Model of `decodeNoDataField`. -/
def decodeNoDataField (kind : Nat) (bytes : List Nat) (d : DType)
    (littleEndian : Bool) : Except TileError (Option JSNum) :=
  if bytes.length ≠ 8 then
    .error ⟨.INTERNAL_FAILURE, .noDataFieldNot8Bytes⟩
  else if kind = 0 then
    if bytes.any (· ≠ 0) then .error ⟨.INVALID_FIELD_VALUE, .noDataValueNotZeroKind0⟩
    else .ok none
  else if kind ≠ 1 then
    .error ⟨.INVALID_FIELD_VALUE, .unsupportedNoDataKind⟩
  else
    let w := byteLengthForDType d
    let pad := if littleEndian then bytes.drop w else bytes.take (8 - w)
    if pad.any (· ≠ 0) then
      .error ⟨.INVALID_FIELD_VALUE, .noDataPaddingNonzero⟩
    else
      let valueBytes := if littleEndian then bytes.take w else bytes.drop (8 - w)
      match decodeValues d valueBytes littleEndian with
      | .error e => .error e
      | .ok decoded =>
        let parsed := decoded.getD 0 .nan
        if !parsed.isFinite then
          .error ⟨.INVALID_FIELD_VALUE, .noDataDecodedNotFinite⟩
        else .ok (some parsed)

/-! ### Header codec and pipelines (src/tile-format.ts) -/

inductive MeshKind where
  | jisX0410 | xyz
deriving DecidableEq, Repr

inductive Endianness where
  | little | big
deriving DecidableEq, Repr

inductive CompressionMode where
  | none | deflateRaw
deriving DecidableEq, Repr

def MAGIC : List Nat := [0x4d, 0x54, 0x49, 0x31]

def VERSION_MAJOR : Nat := 1

def FIXED_HEADER_LENGTH : Nat := 58

def HEADER_CHECKSUM_OFFSET : Nat := 54

def HEADER_CHECKSUM_INPUT_LENGTH : Nat := HEADER_CHECKSUM_OFFSET

def DTYPE_TO_CODE : DType → Nat
  | .uint8 => 0
  | .int8 => 1
  | .uint16 => 2
  | .int16 => 3
  | .uint32 => 4
  | .int32 => 5
  | .float32 => 6
  | .float64 => 7

def CODE_TO_DTYPE : Nat → Option DType
  | 0 => some .uint8
  | 1 => some .int8
  | 2 => some .uint16
  | 3 => some .int16
  | 4 => some .uint32
  | 5 => some .int32
  | 6 => some .float32
  | 7 => some .float64
  | _ => none

def MESH_KIND_TO_CODE : MeshKind → Nat
  | .jisX0410 => 1
  | .xyz => 2

def CODE_TO_MESH_KIND : Nat → Option MeshKind
  | 1 => some .jisX0410
  | 2 => some .xyz
  | _ => none

def COMPRESSION_TO_CODE : CompressionMode → Nat
  | .none => 0
  | .deflateRaw => 1

def CODE_TO_COMPRESSION : Nat → Option CompressionMode
  | 0 => some .none
  | 1 => some .deflateRaw
  | _ => none

/-- Model of `packDTypeEndian` (the dtype-code lookup cannot fail for typed
input). -/
def packDTypeEndian (d : DType) (e : Endianness) : Nat :=
  (if e = .big then 0x80 else 0x00) ||| DTYPE_TO_CODE d

/-- Model of `unpackDTypeEndian`. -/
def unpackDTypeEndian (packed : Nat) : Except TileError (DType × Endianness) :=
  match CODE_TO_DTYPE (packed &&& 0x7f) with
  | none => .error ⟨.INVALID_FIELD_VALUE, .invalidDTypeCode⟩
  | some d => .ok (d, if packed &&& 0x80 ≠ 0 then Endianness.big else Endianness.little)

/-- `parseEnum` instantiated at the mesh-kind table. -/
def parseMeshKind (code : Nat) : Except TileError MeshKind :=
  match CODE_TO_MESH_KIND code with
  | none => .error ⟨.INVALID_FIELD_VALUE, .invalidMeshKindCode⟩
  | some k => .ok k

/-- `parseEnum` instantiated at the compression table. -/
def parseCompression (code : Nat) : Except TileError CompressionMode :=
  match CODE_TO_COMPRESSION code with
  | none => .error ⟨.INVALID_FIELD_VALUE, .invalidCompressionCode⟩
  | some c => .ok c

def MAX_SAFE_INTEGER : Nat := 2 ^ 53 - 1

/-- Model of `u64ToSafeNumber` (the `< 0` half of the check is vacuous for
unsigned input). -/
def u64ToSafeNumber (value : Nat) : Except TileError Nat :=
  if value > MAX_SAFE_INTEGER then
    .error ⟨.INVALID_HEADER_LENGTH, .lengthExceedsSafeBounds⟩
  else .ok value

structure TileDimensions where
  rows : Nat
  cols : Nat
  bands : Nat
deriving DecidableEq, Repr

structure TilePayloadInfo where
  compressed_bytes : Nat
  uncompressed_bytes : Nat
deriving DecidableEq, Repr

/-- Checksums; the lowercase-hex formatting of the source round-trips `u32`
values exactly, so they are modelled numerically. -/
structure TileChecksum where
  payload_crc32 : Nat
  header_crc32 : Nat
deriving DecidableEq, Repr

structure TileHeader where
  format_major : Nat
  tile_id : Nat
  mesh_kind : MeshKind
  dtype : DType
  endianness : Endianness
  compression : CompressionMode
  dimensions : TileDimensions
  no_data : Option JSNum
  payload : TilePayloadInfo
  checksum : TileChecksum
deriving DecidableEq, Repr

structure InspectTileResult where
  header : TileHeader
  header_length : Nat
  payload_offset : Nat
  payload_length : Nat
  header_crc32 : Nat
deriving DecidableEq, Repr

structure DecodedTile where
  header : TileHeader
  data : List JSNum
  payload : List Nat
deriving DecidableEq, Repr

structure EncodeResult where
  bytes : List Nat
  header : TileHeader
deriving DecidableEq, Repr

/-- Model of `TileEncodeInput`; `rows`/`cols`/`bands` are JS numbers whose
integrality is carried by `Int`, `data` is the value sequence. -/
structure TileEncodeInput where
  tile_id : TileIdValue
  mesh_kind : MeshKind
  rows : Int
  cols : Int
  bands : Int
  dtype : DType
  endianness : Endianness
  compression : Option CompressionMode
  no_data : Option JSNum
  data : List JSNum

/-- Model of `normalizeDimension`. -/
def normalizeDimension (value : Int) (field : String) : Except TileError Nat :=
  if value ≤ 0 then .error ⟨.INVALID_FIELD_VALUE, .dimensionNotPositive field⟩
  else if value > 0xffffffff then .error ⟨.INVALID_FIELD_VALUE, .dimensionTooLarge field⟩
  else .ok value.toNat

/-- Model of `normalizeBands`. -/
def normalizeBands (value : Int) : Except TileError Nat :=
  if value ≤ 0 then .error ⟨.INVALID_FIELD_VALUE, .bandsNotPositive⟩
  else if value > 0xff then .error ⟨.INVALID_FIELD_VALUE, .bandsTooLarge⟩
  else .ok value.toNat

/-- Model of `totalSamples` (the JS double product is exact in every range a
theorem below touches). -/
def totalSamples (dims : TileDimensions) : Except TileError Nat :=
  let count := dims.rows * dims.cols * dims.bands
  if count > MAX_SAFE_INTEGER ∨ count ≤ 0 then
    .error ⟨.INVALID_FIELD_VALUE, .sampleCountNotSafe⟩
  else .ok count

/-- Abstraction of the runtime DEFLATE capability (`CompressionStream` /
`DecompressionStream` in src/compression.ts); `inflate` may reject
malformed input. -/
structure Runtime where
  supportsDeflate : Bool
  deflate : List Nat → List Nat
  inflate : List Nat → Option (List Nat)

/-- Model of `isCompressionModeSupported`. -/
def isCompressionModeSupported (rt : Runtime) : CompressionMode → Bool
  | .none => true
  | .deflateRaw => rt.supportsDeflate

/-- Model of `compressPayload`. -/
def compressPayload (rt : Runtime) (mode : CompressionMode) (payload : List Nat) :
    Except TileError (List Nat) :=
  match mode with
  | .none => .ok payload
  | .deflateRaw =>
    if !rt.supportsDeflate then
      .error ⟨.UNSUPPORTED_COMPRESSION, .compressionNotSupportedRuntime⟩
    else .ok (rt.deflate payload)

/-- Model of `decompressPayload`. -/
def decompressPayload (rt : Runtime) (mode : CompressionMode) (payload : List Nat) :
    Except TileError (List Nat) :=
  match mode with
  | .none => .ok payload
  | .deflateRaw =>
    if !rt.supportsDeflate then
      .error ⟨.UNSUPPORTED_COMPRESSION, .compressionNotSupportedRuntime⟩
    else
      match rt.inflate payload with
      | none => .error ⟨.DECOMPRESSION_FAILED, .decompressFailed⟩
      | some out => .ok out

/-- Model of `normalizeCompression`: a missing mode defaults to `none`; a
deflate request the runtime cannot satisfy is rejected (the
enum-membership check of the source always passes for typed input). -/
def normalizeCompression (rt : Runtime) (compression : Option CompressionMode) :
    Except TileError CompressionMode :=
  let mode := compression.getD .none
  if mode ≠ .none ∧ !(isCompressionModeSupported rt mode) then
    .error ⟨.UNSUPPORTED_COMPRESSION, .compressionNotSupportedRuntime⟩
  else .ok mode

/-- Model of `validateTileIdForMeshKind`. -/
def validateTileIdForMeshKind (tileId : Nat) (meshKind : MeshKind) :
    Except TileError Nat :=
  match meshKind with
  | .xyz => assertValidXyzTileId (.big tileId)
  | .jisX0410 => .ok tileId

/-- The first 54 bytes of the fixed header (checksum slot excluded), laid
out per `encodeFixedHeader`. -/
def headerBase54 (tileId : Nat) (meshKind : MeshKind) (d : DType) (e : Endianness)
    (c : CompressionMode) (rows cols bands : Nat) (ndKind : Nat) (ndBytes : List Nat)
    (uncompressedLen compressedLen payloadCrc : Nat) : List Nat :=
  MAGIC ++ [VERSION_MAJOR] ++ natToBytesLE 8 tileId ++ [MESH_KIND_TO_CODE meshKind] ++
    [packDTypeEndian d e] ++ [COMPRESSION_TO_CODE c] ++ natToBytesLE 4 rows ++
    natToBytesLE 4 cols ++ [bands] ++ [ndKind] ++ ndBytes ++
    natToBytesLE 8 uncompressedLen ++ natToBytesLE 8 compressedLen ++
    natToBytesLE 4 payloadCrc

/-- Model of `encodeFixedHeader`: assemble the 54 header bytes and append
the header CRC over them (the source zeroes the checksum slot, computes the
CRC over bytes `[0..54)` — which exclude the slot — and then overwrites the
slot, which nets to this). -/
def encodeFixedHeader (tileId : Nat) (meshKind : MeshKind) (d : DType) (e : Endianness)
    (c : CompressionMode) (rows cols bands : Nat) (noData : Option JSNum)
    (uncompressedLen compressedLen payloadCrc : Nat) : Except TileError (List Nat) :=
  match encodeNoDataField noData d (e = .little) with
  | .error err => .error err
  | .ok nd =>
    let base := headerBase54 tileId meshKind d e c rows cols bands nd.1 nd.2
      uncompressedLen compressedLen payloadCrc
    .ok (base ++ natToBytesLE 4 (crc32 base))

/-- Model of `encodeTile`.  The enum-membership checks on `mesh_kind`,
`dtype` and `endianness` always pass for typed input and are omitted. -/
def encodeTile (rt : Runtime) (input : TileEncodeInput) : Except TileError EncodeResult := do
  let tileId ← normalizeTileId input.tile_id
  let _ ← validateTileIdForMeshKind tileId input.mesh_kind
  let rows ← normalizeDimension input.rows "rows"
  let cols ← normalizeDimension input.cols "cols"
  let bands ← normalizeBands input.bands
  let compression ← normalizeCompression rt input.compression
  let noData ← validateNoData input.no_data
  let elementCount ← totalSamples ⟨rows, cols, bands⟩
  let rawPayload ← encodeValues input.dtype input.data elementCount
    (input.endianness = Endianness.little)
  if rawPayload.length ≠ elementCount * byteLengthForDType input.dtype then
    Except.error ⟨.INVALID_PAYLOAD_LENGTH, .rawPayloadLengthMismatch⟩
  else do
    let compressedPayload ← compressPayload rt compression rawPayload
    let headerBytes ← encodeFixedHeader tileId input.mesh_kind input.dtype
      input.endianness compression rows cols bands noData
      rawPayload.length compressedPayload.length (crc32 rawPayload)
    Except.ok {
      bytes := headerBytes ++ compressedPayload
      header := {
        format_major := VERSION_MAJOR
        tile_id := tileId
        mesh_kind := input.mesh_kind
        dtype := input.dtype
        endianness := input.endianness
        compression := compression
        dimensions := ⟨rows, cols, bands⟩
        no_data := noData
        payload := ⟨compressedPayload.length, rawPayload.length⟩
        checksum := ⟨crc32 rawPayload, readU32LE headerBytes HEADER_CHECKSUM_OFFSET⟩ } }

/-- Model of `inspectTile`. -/
def inspectTile (bytes : List Nat) : Except TileError InspectTileResult :=
  if bytes.length < FIXED_HEADER_LENGTH then
    .error ⟨.INVALID_HEADER_LENGTH, .fileShorterThanHeader⟩
  else if ¬(readU8 bytes 0 = 0x4d ∧ readU8 bytes 1 = 0x54 ∧
      readU8 bytes 2 = 0x49 ∧ readU8 bytes 3 = 0x31) then
    .error ⟨.INVALID_MAGIC, .invalidMagic⟩
  else if readU8 bytes 4 ≠ VERSION_MAJOR then
    .error ⟨.UNSUPPORTED_VERSION, .unsupportedVersion⟩
  else if crc32 (readBytes bytes 0 HEADER_CHECKSUM_INPUT_LENGTH) ≠
      readU32LE bytes HEADER_CHECKSUM_OFFSET then
    .error ⟨.HEADER_CHECKSUM_MISMATCH, .headerChecksumMismatch⟩
  else do
    let meshKind ← parseMeshKind (readU8 bytes 13)
    let _ ← validateTileIdForMeshKind (readU64LE bytes 5) meshKind
    let de ← unpackDTypeEndian (readU8 bytes 14)
    let compression ← parseCompression (readU8 bytes 15)
    if readU32LE bytes 16 = 0 ∨ readU32LE bytes 20 = 0 ∨ readU8 bytes 24 = 0 then
      Except.error ⟨.INVALID_FIELD_VALUE, .dimsMustBePositive⟩
    else do
      let noData ← decodeNoDataField (readU8 bytes 25) (readBytes bytes 26 8) de.1
        (de.2 = Endianness.little)
      let compressedPayloadLength ← u64ToSafeNumber (readU64LE bytes 42)
      let uncompressedPayloadLength ← u64ToSafeNumber (readU64LE bytes 34)
      if bytes.length < FIXED_HEADER_LENGTH + compressedPayloadLength then
        Except.error ⟨.INVALID_PAYLOAD_LENGTH, .fileShorterThanPayload⟩
      else
        Except.ok {
          header := {
            format_major := readU8 bytes 4
            tile_id := readU64LE bytes 5
            mesh_kind := meshKind
            dtype := de.1
            endianness := de.2
            compression := compression
            dimensions := ⟨readU32LE bytes 16, readU32LE bytes 20, readU8 bytes 24⟩
            no_data := noData
            payload := ⟨compressedPayloadLength, uncompressedPayloadLength⟩
            checksum := ⟨readU32LE bytes 50, readU32LE bytes 54⟩ }
          header_length := FIXED_HEADER_LENGTH
          payload_offset := FIXED_HEADER_LENGTH
          payload_length := compressedPayloadLength
          header_crc32 := readU32LE bytes 54 }

/-- Model of `decodeTile`. -/
def decodeTile (rt : Runtime) (bytes : List Nat) : Except TileError DecodedTile := do
  let info ← inspectTile bytes
  if info.header.compression ≠ CompressionMode.none ∧
      !(isCompressionModeSupported rt info.header.compression) then
    Except.error ⟨.UNSUPPORTED_COMPRESSION, .compressionNotSupportedRuntime⟩
  else do
    let payload := readBytes bytes info.payload_offset info.payload_length
    if payload.length ≠ info.payload_length then
      Except.error ⟨.INVALID_PAYLOAD_LENGTH, .payloadSliceLengthMismatch⟩
    else do
      let decompressed ← decompressPayload rt info.header.compression payload
      if decompressed.length ≠ info.header.payload.uncompressed_bytes then
        Except.error ⟨.INVALID_PAYLOAD_LENGTH, .uncompressedLengthMismatch⟩
      else if crc32 decompressed ≠ info.header.checksum.payload_crc32 then
        Except.error ⟨.PAYLOAD_CHECKSUM_MISMATCH, .payloadChecksumMismatch⟩
      else do
        let sampleCount ← totalSamples info.header.dimensions
        if decompressed.length ≠ sampleCount * byteLengthForDType info.header.dtype then
          Except.error ⟨.INVALID_PAYLOAD_LENGTH, .decodedLengthMismatch⟩
        else do
          let data ← decodeValues info.header.dtype decompressed
            (info.header.endianness = Endianness.little)
          Except.ok ⟨info.header, data, decompressed⟩

/-- The S1 sample tile: `tile_id 1001`, JIS X0410, 2×2×1, uint16
little-endian, no compression, data `[1, 2, 3, 4]` (checked below to be the
exact output of `encodeTile`). -/
def sampleTileBytes : List Nat :=
  [77, 84, 73, 49, 1, 233, 3, 0, 0, 0, 0, 0, 0, 1, 2, 0, 2, 0, 0, 0, 2, 0, 0, 0,
   1, 0, 0, 0, 0, 0, 0, 0, 0, 0, 8, 0, 0, 0, 0, 0, 0, 0, 8, 0, 0, 0, 0, 0, 0, 0,
   22, 20, 153, 146, 33, 74, 161, 210, 1, 0, 2, 0, 3, 0, 4, 0]

/-- The `inspectTile` result of `sampleTileBytes`. -/
def sampleInspectResult : InspectTileResult :=
  ⟨⟨1, 1001, .jisX0410, .uint16, .little, .none, ⟨2, 2, 1⟩, none, ⟨8, 8⟩,
    ⟨2459505686, 3533785633⟩⟩, 58, 58, 8, 3533785633⟩

/-- The `decodeTile` result of `sampleTileBytes`. -/
def sampleDecodedTile : DecodedTile :=
  ⟨⟨1, 1001, .jisX0410, .uint16, .little, .none, ⟨2, 2, 1⟩, none, ⟨8, 8⟩,
    ⟨2459505686, 3533785633⟩⟩, [.finite 1, .finite 2, .finite 3, .finite 4],
    [1, 0, 2, 0, 3, 0, 4, 0]⟩

/-- An identity runtime: DEFLATE support present, modelled as the identity
codec (adequate for claims that never inspect compressed bytes). -/
def idRuntime : Runtime := ⟨true, id, some⟩

/-- C1 counterexample input: a 1 x 1 x 1 float32 tile holding the value
33554433 = 2 ^ 25 + 1, which is not representable in float32. -/
def c1Input : TileEncodeInput :=
  ⟨.big 1001, .jisX0410, 1, 1, 1, .float32, .little, none, none,
    [.finite 33554433]⟩

/-- C1 witness input: the S1 sample tile as an encode input. -/
def c1WitnessInput : TileEncodeInput :=
  ⟨.big 1001, .jisX0410, 2, 2, 1, .uint16, .little, none, none,
    [.finite 1, .finite 2, .finite 3, .finite 4]⟩

/-- C1 witness: the `encodeTile` output for `c1WitnessInput`. -/
def c1WitnessResult : EncodeResult := ⟨sampleTileBytes, sampleDecodedTile.header⟩

/-- S5 little-endian sample: 1 x 1 x 1 uint16 tile with no_data 0x1234. -/
def s5InputLE : TileEncodeInput :=
  ⟨.big 1001, .jisX0410, 1, 1, 1, .uint16, .little, none, some (.finite 0x1234),
    [.finite 0]⟩

/-- S5 big-endian sample: the same tile with big-endian byte order. -/
def s5InputBE : TileEncodeInput :=
  ⟨.big 1001, .jisX0410, 1, 1, 1, .uint16, .big, none, some (.finite 0x1234),
    [.finite 0]⟩

/-- Spec-side definition for C4 (amended): the parse checks of `inspectTile`
written as a flat chain in the order the code performs them: magic, version,
header CRC, mesh-kind enum, tile-id validity for the mesh kind,
dtype/endianness enum, compression enum, dimension values, no-data field,
compressed length, uncompressed length, declared payload length versus file
length. -/
def specOrderedInspect (bytes : List Nat) : Except TileError InspectTileResult :=
  if bytes.length < 58 then
    .error ⟨.INVALID_HEADER_LENGTH, .fileShorterThanHeader⟩
  else if ¬(readU8 bytes 0 = 0x4d ∧ readU8 bytes 1 = 0x54 ∧
      readU8 bytes 2 = 0x49 ∧ readU8 bytes 3 = 0x31) then
    .error ⟨.INVALID_MAGIC, .invalidMagic⟩
  else if readU8 bytes 4 ≠ 1 then
    .error ⟨.UNSUPPORTED_VERSION, .unsupportedVersion⟩
  else if crc32 (readBytes bytes 0 54) ≠ readU32LE bytes 54 then
    .error ⟨.HEADER_CHECKSUM_MISMATCH, .headerChecksumMismatch⟩
  else
    match parseMeshKind (readU8 bytes 13) with
    | .error e => .error e
    | .ok meshKind =>
      match validateTileIdForMeshKind (readU64LE bytes 5) meshKind with
      | .error e => .error e
      | .ok _ =>
        match unpackDTypeEndian (readU8 bytes 14) with
        | .error e => .error e
        | .ok de =>
          match parseCompression (readU8 bytes 15) with
          | .error e => .error e
          | .ok compression =>
            if readU32LE bytes 16 = 0 ∨ readU32LE bytes 20 = 0 ∨
                readU8 bytes 24 = 0 then
              .error ⟨.INVALID_FIELD_VALUE, .dimsMustBePositive⟩
            else
              match decodeNoDataField (readU8 bytes 25) (readBytes bytes 26 8)
                de.1 (de.2 = Endianness.little) with
              | .error e => .error e
              | .ok noData =>
                match u64ToSafeNumber (readU64LE bytes 42) with
                | .error e => .error e
                | .ok compressedPayloadLength =>
                  match u64ToSafeNumber (readU64LE bytes 34) with
                  | .error e => .error e
                  | .ok uncompressedPayloadLength =>
                    if bytes.length < 58 + compressedPayloadLength then
                      .error ⟨.INVALID_PAYLOAD_LENGTH, .fileShorterThanPayload⟩
                    else
                      .ok {
                        header := {
                          format_major := readU8 bytes 4
                          tile_id := readU64LE bytes 5
                          mesh_kind := meshKind
                          dtype := de.1
                          endianness := de.2
                          compression := compression
                          dimensions :=
                            ⟨readU32LE bytes 16, readU32LE bytes 20, readU8 bytes 24⟩
                          no_data := noData
                          payload :=
                            ⟨compressedPayloadLength, uncompressedPayloadLength⟩
                          checksum := ⟨readU32LE bytes 50, readU32LE bytes 54⟩ }
                        header_length := 58
                        payload_offset := 58
                        payload_length := compressedPayloadLength
                        header_crc32 := readU32LE bytes 54 }

/-- Spec-side definition for C4 (amended): the decode checks after a
successful inspect, in order: unsupported compression, payload slice length,
decompression, uncompressed size, payload CRC, sample count, decoded sample
byte length. -/
def specOrderedDecode (rt : Runtime) (bytes : List Nat) :
    Except TileError DecodedTile :=
  match specOrderedInspect bytes with
  | .error e => .error e
  | .ok info =>
    if info.header.compression ≠ CompressionMode.none ∧
        !(isCompressionModeSupported rt info.header.compression) then
      .error ⟨.UNSUPPORTED_COMPRESSION, .compressionNotSupportedRuntime⟩
    else
      if (readBytes bytes info.payload_offset info.payload_length).length ≠
          info.payload_length then
        .error ⟨.INVALID_PAYLOAD_LENGTH, .payloadSliceLengthMismatch⟩
      else
        match decompressPayload rt info.header.compression
          (readBytes bytes info.payload_offset info.payload_length) with
        | .error e => .error e
        | .ok decompressed =>
          if decompressed.length ≠ info.header.payload.uncompressed_bytes then
            .error ⟨.INVALID_PAYLOAD_LENGTH, .uncompressedLengthMismatch⟩
          else if crc32 decompressed ≠ info.header.checksum.payload_crc32 then
            .error ⟨.PAYLOAD_CHECKSUM_MISMATCH, .payloadChecksumMismatch⟩
          else
            match totalSamples info.header.dimensions with
            | .error e => .error e
            | .ok sampleCount =>
              if decompressed.length ≠
                  sampleCount * byteLengthForDType info.header.dtype then
                .error ⟨.INVALID_PAYLOAD_LENGTH, .decodedLengthMismatch⟩
              else
                match decodeValues info.header.dtype decompressed
                  (info.header.endianness = Endianness.little) with
                | .error e => .error e
                | .ok data => .ok ⟨info.header, data, decompressed⟩

/-- C4 counterexample buffer: valid magic, version and header CRC, mesh kind
xyz, a tile id whose zoom bits are 63, an invalid dtype code (8), and
rows = 0. -/
def c4base : List Nat :=
  [0x4d, 0x54, 0x49, 0x31, 1] ++ natToBytesLE 8 (63 <<< 58) ++ [2, 8, 0] ++
    natToBytesLE 4 0 ++ natToBytesLE 4 0 ++ [0, 0] ++ List.replicate 8 0 ++
    natToBytesLE 8 0 ++ natToBytesLE 8 0 ++ natToBytesLE 4 0

/-- The C4 counterexample buffer with its header CRC appended. -/
def c4buf : List Nat := c4base ++ natToBytesLE 4 (crc32 c4base)

/-! ### Lemmas about byte serialization -/

theorem length_natToBytesLE (w n : Nat) : (natToBytesLE w n).length = w := by
  induction w generalizing n with
  | zero => rfl
  | succ w ih => simp [natToBytesLE, ih]

theorem wf_natToBytesLE (w n : Nat) : WFBytes (natToBytesLE w n) := by
  induction w generalizing n with
  | zero => intro b hb; simp [natToBytesLE] at hb
  | succ w ih =>
    intro b hb
    simp only [natToBytesLE, List.mem_cons] at hb
    rcases hb with h | h
    · omega
    · exact ih _ _ h

theorem natToBytesLE_head (w n : Nat) : natToBytesLE (w + 1) n = n % 256 :: natToBytesLE w (n / 256) := rfl

theorem bytesToNatLE_natToBytesLE (w n : Nat) :
    bytesToNatLE (natToBytesLE w n) = n % 256 ^ w := by
  induction w generalizing n with
  | zero => simp [natToBytesLE, bytesToNatLE, Nat.mod_one]
  | succ w ih =>
    calc bytesToNatLE (natToBytesLE (w + 1) n)
        = n % 256 + 256 * ((n / 256) % 256 ^ w) := by
          simp [natToBytesLE, bytesToNatLE, ih]
      _ = n % 256 ^ (w + 1) := by
          rw [pow_succ, mul_comm (256 ^ w) 256, Nat.mod_mul]

theorem bytesToNatLE_lt (bs : List Nat) (h : WFBytes bs) :
    bytesToNatLE bs < 256 ^ bs.length := by
  induction bs with
  | nil => simp [bytesToNatLE]
  | cons b rest ih =>
    have hb : b < 256 := h b (List.mem_cons_self _ _)
    have hr : bytesToNatLE rest < 256 ^ rest.length :=
      ih (fun x hx => h x (List.mem_cons_of_mem _ hx))
    have : b + 256 * bytesToNatLE rest < 256 * 256 ^ rest.length := by
      calc b + 256 * bytesToNatLE rest
          ≤ 255 + 256 * bytesToNatLE rest := by omega
        _ < 256 * (bytesToNatLE rest + 1) := by ring_nf; omega
        _ ≤ 256 * 256 ^ rest.length := by
            exact Nat.mul_le_mul_left _ (by omega)
    simpa [bytesToNatLE, List.length_cons, pow_succ, mul_comm] using this

theorem natToBytesLE_of_lt (w n : Nat) (h : n < 256 ^ w) :
    bytesToNatLE (natToBytesLE w n) = n := by
  rw [bytesToNatLE_natToBytesLE]
  exact Nat.mod_eq_of_lt h

/-! ### Arithmetic lemmas about the tile-id codec -/

theorem shiftLeft_lor_eq_add (a k b : Nat) (hb : b < 2 ^ k) :
    (a <<< k) ||| b = a * 2 ^ k + b := by
  apply Nat.eq_of_testBit_eq
  intro i
  rw [Nat.testBit_lor, Nat.testBit_shiftLeft, mul_comm,
    Nat.testBit_mul_pow_two_add a hb i]
  by_cases h : i < k
  · simp [h, Nat.not_le.mpr h]
  · have hge : k ≤ i := Nat.le_of_not_lt h
    have hbf : b.testBit i = false :=
      Nat.testBit_lt_two_pow
        (lt_of_lt_of_le hb (Nat.pow_le_pow_right (by norm_num) hge))
    simp [h, hge, hbf]

theorem and_one_eq_mod (x : Nat) : x &&& 1 = x % 2 := by
  simpa using Nat.and_pow_two_sub_one_eq_mod x 1

theorem and_three_eq_mod (x : Nat) : x &&& 3 = x % 4 := by
  simpa using Nat.and_pow_two_sub_one_eq_mod x 2

theorem xBit_le_one (x b : Nat) : xBit x b ≤ 1 := Nat.and_le_right

theorem xBit_eq (x b : Nat) : xBit x b = (x / 2 ^ b) % 2 := by
  rw [xBit, and_one_eq_mod, Nat.shiftRight_eq_div_pow]

theorem xyDigit_eq (x y b : Nat) : xyDigit x y b = 2 * xBit y b + xBit x b := by
  have h1 : xBit x b < 2 := lt_of_le_of_lt (xBit_le_one x b) (by norm_num)
  rw [xyDigit, Nat.lor_comm]
  calc ((xBit y b) <<< 1) ||| xBit x b
      = xBit y b * 2 ^ 1 + xBit x b := shiftLeft_lor_eq_add _ 1 _ (by simpa using h1)
    _ = 2 * xBit y b + xBit x b := by ring

theorem xyDigit_le_three (x y b : Nat) : xyDigit x y b ≤ 3 := by
  have hx := xBit_le_one x b
  have hy := xBit_le_one y b
  rw [xyDigit_eq]; omega

theorem quadSum_lt (x y b : Nat) : quadSum x y b < 4 ^ b := by
  induction b with
  | zero => simp [quadSum]
  | succ b ih =>
    have hd := xyDigit_le_three x y b
    have h1 : xyDigit x y b * 4 ^ b ≤ 3 * 4 ^ b := Nat.mul_le_mul_right _ hd
    show xyDigit x y b * 4 ^ b + quadSum x y b < 4 ^ (b + 1)
    calc xyDigit x y b * 4 ^ b + quadSum x y b
        < xyDigit x y b * 4 ^ b + 4 ^ b := by omega
      _ ≤ 3 * 4 ^ b + 4 ^ b := by omega
      _ = 4 ^ (b + 1) := by ring

theorem encLoop_eq (x y : Nat) : ∀ (b acc : Nat),
    encLoop x y acc b = acc * 4 ^ b + quadSum x y b := by
  intro b
  induction b with
  | zero => intro acc; simp [encLoop, quadSum]
  | succ b ih =>
    intro acc
    have hlt : xyDigit x y b < 2 ^ 2 := lt_of_le_of_lt (xyDigit_le_three x y b) (by norm_num)
    calc encLoop x y acc (b + 1)
        = encLoop x y ((acc <<< 2) ||| xyDigit x y b) b := rfl
      _ = ((acc <<< 2) ||| xyDigit x y b) * 4 ^ b + quadSum x y b := ih _
      _ = (acc * 4 + xyDigit x y b) * 4 ^ b + quadSum x y b := by
          rw [shiftLeft_lor_eq_add _ 2 _ hlt]; norm_num
      _ = acc * 4 ^ (b + 1) + (xyDigit x y b * 4 ^ b + quadSum x y b) := by ring
      _ = acc * 4 ^ (b + 1) + quadSum x y (b + 1) := rfl

theorem quadSum_digit (x y : Nat) : ∀ (b i : Nat), i < b →
    ((quadSum x y b) >>> (2 * i)) &&& 3 = xyDigit x y i := by
  intro b
  induction b with
  | zero => intro i hi; omega
  | succ b ih =>
    intro i hi
    rw [and_three_eq_mod, Nat.shiftRight_eq_div_pow]
    have hpow : (2 : Nat) ^ (2 * i) = 4 ^ i := by
      rw [pow_mul]; norm_num
    rw [hpow]
    rcases Nat.lt_succ_iff_lt_or_eq.mp hi with hlt | heq
    · have hji : i < b := hlt
      have hsplit : (4 : Nat) ^ b = 4 ^ (b - i - 1) * 4 * 4 ^ i := by
        rw [mul_assoc, ← pow_succ']
        rw [← pow_add]
        congr 1
        omega
      have h4pos : 0 < (4 : Nat) ^ i := Nat.pos_pow_of_pos _ (by norm_num)
      calc (quadSum x y (b + 1)) / 4 ^ i % 4
          = (quadSum x y b + xyDigit x y b * 4 ^ b) / 4 ^ i % 4 := by
            rw [quadSum]; ring_nf
        _ = (quadSum x y b / 4 ^ i + xyDigit x y b * (4 ^ (b - i - 1) * 4)) % 4 := by
            rw [hsplit, show xyDigit x y b * (4 ^ (b - i - 1) * 4 * 4 ^ i)
                  = (xyDigit x y b * (4 ^ (b - i - 1) * 4)) * 4 ^ i by ring,
              Nat.add_mul_div_right _ _ h4pos]
        _ = (quadSum x y b / 4 ^ i + (xyDigit x y b * 4 ^ (b - i - 1)) * 4) % 4 := by
            ring_nf
        _ = quadSum x y b / 4 ^ i % 4 := Nat.add_mul_mod_self_right _ _ _
        _ = xyDigit x y i := by
            have := ih i hji
            rwa [and_three_eq_mod, Nat.shiftRight_eq_div_pow, hpow] at this
    · subst heq
      have hq : quadSum x y i < 4 ^ i := quadSum_lt x y i
      have h4pos : 0 < (4 : Nat) ^ i := Nat.pos_pow_of_pos _ (by norm_num)
      have hd := xyDigit_le_three x y i
      calc (quadSum x y (i + 1)) / 4 ^ i % 4
          = (quadSum x y i + xyDigit x y i * 4 ^ i) / 4 ^ i % 4 := by
            rw [quadSum]; ring_nf
        _ = (quadSum x y i / 4 ^ i + xyDigit x y i) % 4 := by
            rw [Nat.add_mul_div_right _ _ h4pos]
        _ = (0 + xyDigit x y i) % 4 := by rw [Nat.div_eq_of_lt hq]
        _ = xyDigit x y i := by
            rw [Nat.zero_add]; exact Nat.mod_eq_of_lt (by omega)

theorem decLoop_eq (q : Nat) : ∀ (r x0 y0 : Nat),
    decLoop q r (x0, y0) = (x0 * 2 ^ r + xRec q r, y0 * 2 ^ r + yRec q r) := by
  intro r
  induction r with
  | zero => intro x0 y0; simp [decLoop, xRec, yRec]
  | succ r ih =>
    intro x0 y0
    have hbx : ((q >>> (2 * r)) &&& 3) &&& 1 < 2 :=
      lt_of_le_of_lt Nat.and_le_right (by norm_num)
    have hby : (((q >>> (2 * r)) &&& 3) &&& 2) >>> 1 < 2 := by
      have h2 : ((q >>> (2 * r)) &&& 3) &&& 2 ≤ 2 := Nat.and_le_right
      have := Nat.shiftRight_eq_div_pow (((q >>> (2 * r)) &&& 3) &&& 2) 1
      omega
    calc decLoop q (r + 1) (x0, y0)
        = decLoop q r
            ((x0 <<< 1) ||| (((q >>> (2 * r)) &&& 3) &&& 1),
             (y0 <<< 1) ||| ((((q >>> (2 * r)) &&& 3) &&& 2) >>> 1)) := rfl
      _ = (((x0 <<< 1) ||| (((q >>> (2 * r)) &&& 3) &&& 1)) * 2 ^ r + xRec q r,
           ((y0 <<< 1) ||| ((((q >>> (2 * r)) &&& 3) &&& 2) >>> 1)) * 2 ^ r + yRec q r) := ih _ _
      _ = (x0 * 2 ^ (r + 1) + xRec q (r + 1), y0 * 2 ^ (r + 1) + yRec q (r + 1)) := by
          rw [shiftLeft_lor_eq_add _ 1 _ (by simpa using hbx),
            shiftLeft_lor_eq_add _ 1 _ (by simpa using hby)]
          rw [xRec, yRec]
          simp only [Prod.mk.injEq]
          constructor <;> ring

theorem digit_and_one (a b : Nat) (ha : a ≤ 1) (hb : b ≤ 1) :
    (2 * a + b) &&& 1 = b := by
  interval_cases a <;> interval_cases b <;> decide

theorem digit_and_two_shift (a b : Nat) (ha : a ≤ 1) (hb : b ≤ 1) :
    ((2 * a + b) &&& 2) >>> 1 = a := by
  interval_cases a <;> interval_cases b <;> decide

theorem xRec_quadSum (x y : Nat) : ∀ (zoom r : Nat), r ≤ zoom →
    xRec (quadSum x y zoom) r = x % 2 ^ r := by
  intro zoom r
  induction r with
  | zero => intro _; simp [xRec, Nat.mod_one]
  | succ r ih =>
    intro hr
    have hdig := quadSum_digit x y zoom r (by omega)
    rw [xRec, ih (by omega), hdig, xyDigit_eq,
      digit_and_one _ _ (xBit_le_one y r) (xBit_le_one x r), xBit_eq]
    rw [Nat.mod_pow_succ]
    ring

theorem yRec_quadSum (x y : Nat) : ∀ (zoom r : Nat), r ≤ zoom →
    yRec (quadSum x y zoom) r = y % 2 ^ r := by
  intro zoom r
  induction r with
  | zero => intro _; simp [yRec, Nat.mod_one]
  | succ r ih =>
    intro hr
    have hdig := quadSum_digit x y zoom r (by omega)
    rw [yRec, ih (by omega), hdig, xyDigit_eq,
      digit_and_two_shift _ _ (xBit_le_one y r) (xBit_le_one x r), xBit_eq]
    rw [Nat.mod_pow_succ]
    ring

theorem MAX_ZOOM_eq : MAX_ZOOM = 29 := rfl

theorem QUADKEY_BITS_eq : QUADKEY_BITS = 58 := rfl

theorem QUADKEY_MASK_eq : QUADKEY_MASK = 2 ^ 58 - 1 := by
  norm_num [QUADKEY_MASK, QUADKEY_BITS, U64_BITS, ZOOM_BITS, Nat.shiftLeft_eq]

theorem MAX_U64_eq : MAX_U64 = 2 ^ 64 - 1 := by
  norm_num [MAX_U64, U64_BITS, Nat.shiftLeft_eq]

theorem quadSum_lt_two_pow_58 (x y zoom : Nat) (hz : zoom ≤ 29) :
    quadSum x y zoom < 2 ^ 58 := by
  have h1 : quadSum x y zoom < 4 ^ zoom := quadSum_lt x y zoom
  have h2 : (4 : Nat) ^ zoom ≤ 4 ^ 29 := Nat.pow_le_pow_right (by norm_num) hz
  have h3 : (4 : Nat) ^ 29 = 2 ^ 58 := by norm_num
  omega

theorem encodeXyzTileId_ok (zoom x y : Nat) (hz : zoom ≤ 29) (hx : x < 2 ^ zoom)
    (hy : y < 2 ^ zoom) :
    encodeXyzTileId zoom x y = .ok (zoom * 2 ^ 58 + quadSum x y zoom) := by
  have hzc : ¬((zoom : Int) < 0 ∨ (zoom : Int) > (MAX_ZOOM : Int)) := by
    rw [MAX_ZOOM_eq]; push_neg; constructor <;> [positivity; exact_mod_cast hz]
  have htn : (zoom : Int).toNat = zoom := Int.toNat_natCast zoom
  have hxc : ¬((x : Int) < 0 ∨ (x : Int) ≥ (2 ^ zoom : Int)) := by
    push_neg; constructor
    · positivity
    · exact_mod_cast hx
  have hyc : ¬((y : Int) < 0 ∨ (y : Int) ≥ (2 ^ zoom : Int)) := by
    push_neg; constructor
    · positivity
    · exact_mod_cast hy
  have hq58 : quadSum x y zoom < 2 ^ 58 := quadSum_lt_two_pow_58 x y zoom hz
  simp only [encodeXyzTileId, normalizeZoom, normalizeCoordinate, htn, if_neg hzc,
    if_neg hxc, if_neg hyc, Bind.bind, Except.bind, Int.toNat_natCast, pure, Except.pure]
  rw [encLoop_eq, Nat.zero_mul, Nat.zero_add]
  rw [show ZOOM_SHIFT = 58 from rfl, shiftLeft_lor_eq_add _ _ _ hq58]

theorem tid_shiftRight_58 (zoom Q : Nat) (hq : Q < 2 ^ 58) :
    (zoom * 2 ^ 58 + Q) >>> 58 = zoom := by
  rw [Nat.shiftRight_eq_div_pow, Nat.add_comm, Nat.add_mul_div_right _ _ (by positivity),
    Nat.div_eq_of_lt hq, Nat.zero_add]

theorem tid_mask_58 (zoom Q : Nat) (hq : Q < 2 ^ 58) :
    (zoom * 2 ^ 58 + Q) &&& QUADKEY_MASK = Q := by
  rw [QUADKEY_MASK_eq, Nat.and_pow_two_sub_one_eq_mod, Nat.add_comm,
    Nat.add_mul_mod_self_right, Nat.mod_eq_of_lt hq]

theorem decodeXyzTileId_big_ok (zoom Q x y : Nat) (hz : zoom ≤ 29) (hq58 : Q < 2 ^ 58)
    (hhi : Q >>> (2 * zoom) = 0) (hdec : decLoop Q zoom (0, 0) = (x, y)) :
    decodeXyzTileId (.big ((zoom * 2 ^ 58 + Q : Nat) : Int)) = .ok ⟨zoom, x, y, Q⟩ := by
  have hnlt : zoom * 2 ^ 58 + Q < 2 ^ 64 := by
    have : zoom * 2 ^ 58 ≤ 29 * 2 ^ 58 := Nat.mul_le_mul_right _ hz
    have h29 : (29 : Nat) * 2 ^ 58 + 2 ^ 58 ≤ 2 ^ 64 := by norm_num
    omega
  have hnorm : ¬(((zoom * 2 ^ 58 + Q : Nat) : Int) < 0 ∨
      ((zoom * 2 ^ 58 + Q : Nat) : Int) > (MAX_U64 : Int)) := by
    rw [MAX_U64_eq]; push_neg; constructor
    · positivity
    · have h1 : ((zoom * 2 ^ 58 + Q : Nat) : Int) ≤ ((2 ^ 64 - 1 : Nat) : Int) := by
        exact_mod_cast Nat.le_sub_one_of_lt hnlt
      simpa using h1
  have hshift : (zoom * 2 ^ 58 + Q) >>> ZOOM_SHIFT = zoom := by
    rw [show ZOOM_SHIFT = 58 from rfl]; exact tid_shiftRight_58 zoom Q hq58
  have hmask : (zoom * 2 ^ 58 + Q) &&& QUADKEY_MASK = Q := tid_mask_58 zoom Q hq58
  have hzoomle : ¬(zoom > MAX_ZOOM) := by rw [MAX_ZOOM_eq]; omega
  have hguard : ¬(2 * zoom < QUADKEY_BITS ∧ Q >>> (2 * zoom) ≠ 0) := fun h => h.2 hhi
  simp only [decodeXyzTileId, normalizeUnsignedU64, if_neg hnorm, Int.toNat_natCast,
    Bind.bind, Except.bind, hshift, hmask, if_neg hzoomle, if_neg hguard, hdec]

theorem decodeXyzTileId_ok (zoom x y : Nat) (hz : zoom ≤ 29) (hx : x < 2 ^ zoom)
    (hy : y < 2 ^ zoom) :
    decodeXyzTileId (.big ((zoom * 2 ^ 58 + quadSum x y zoom : Nat) : Int)) =
      .ok ⟨zoom, x, y, quadSum x y zoom⟩ := by
  apply decodeXyzTileId_big_ok zoom _ x y hz (quadSum_lt_two_pow_58 x y zoom hz)
  · rw [Nat.shiftRight_eq_div_pow, Nat.div_eq_of_lt]
    calc quadSum x y zoom < 4 ^ zoom := quadSum_lt x y zoom
      _ = 2 ^ (2 * zoom) := by rw [pow_mul]; norm_num
  · rw [decLoop_eq, Nat.zero_mul, Nat.zero_add, Nat.zero_add,
      xRec_quadSum x y zoom zoom le_rfl, yRec_quadSum x y zoom zoom le_rfl,
      Nat.mod_eq_of_lt hx, Nat.mod_eq_of_lt hy]

theorem MAX_U64_int : (MAX_U64 : Int) = 2 ^ 64 - 1 := by
  rw [MAX_U64_eq]; norm_num

theorem safeInt_cond_iff (q : ℚ) :
    (!(JSNum.finite q).isSafeInteger || (JSNum.finite q).jsLt (.finite 0)) = false
      ↔ (q.den = 1 ∧ 0 ≤ q.num ∧ q.num < 2 ^ 53) := by
  simp only [JSNum.isSafeInteger, JSNum.jsLt, Bool.or_eq_false_iff, Bool.not_eq_false',
    Bool.and_eq_true, beq_iff_eq, decide_eq_true_eq, decide_eq_false_iff_not]
  constructor
  · rintro ⟨⟨hden, hle⟩, hlt⟩
    have h0 : 0 ≤ q := not_lt.mp hlt
    have h0n : 0 ≤ q.num := Rat.num_nonneg.mpr h0
    exact ⟨hden, h0n, by omega⟩
  · rintro ⟨hden, h0n, h53⟩
    refine ⟨⟨hden, by omega⟩, ?_⟩
    exact not_lt.mpr (Rat.num_nonneg.mp h0n)

/-! ### Inversion and congruence lemmas for the parse pipelines -/


theorem u64ToSafeNumber_ok {v k : Nat} (h : u64ToSafeNumber v = .ok k) :
    k = v ∧ v ≤ MAX_SAFE_INTEGER := by
  rw [u64ToSafeNumber] at h
  split at h
  · exact Except.noConfusion h
  · cases h
    exact ⟨rfl, by omega⟩

theorem inspectTile_ok_inv {b : List Nat} {r : InspectTileResult}
    (h : inspectTile b = .ok r) :
    ¬(b.length < FIXED_HEADER_LENGTH) ∧
    (readU8 b 0 = 0x4d ∧ readU8 b 1 = 0x54 ∧ readU8 b 2 = 0x49 ∧ readU8 b 3 = 0x31) ∧
    readU8 b 4 = VERSION_MAJOR ∧
    crc32 (readBytes b 0 HEADER_CHECKSUM_INPUT_LENGTH) = readU32LE b HEADER_CHECKSUM_OFFSET ∧
    ∃ mk de comp nd clen ulen,
      parseMeshKind (readU8 b 13) = .ok mk ∧
      (∃ t, validateTileIdForMeshKind (readU64LE b 5) mk = .ok t) ∧
      unpackDTypeEndian (readU8 b 14) = .ok de ∧
      parseCompression (readU8 b 15) = .ok comp ∧
      ¬(readU32LE b 16 = 0 ∨ readU32LE b 20 = 0 ∨ readU8 b 24 = 0) ∧
      decodeNoDataField (readU8 b 25) (readBytes b 26 8) de.1 (de.2 = Endianness.little) = .ok nd ∧
      u64ToSafeNumber (readU64LE b 42) = .ok clen ∧
      u64ToSafeNumber (readU64LE b 34) = .ok ulen ∧
      ¬(b.length < FIXED_HEADER_LENGTH + clen) ∧
      r = ⟨⟨readU8 b 4, readU64LE b 5, mk, de.1, de.2, comp,
            ⟨readU32LE b 16, readU32LE b 20, readU8 b 24⟩, nd, ⟨clen, ulen⟩,
            ⟨readU32LE b 50, readU32LE b 54⟩⟩, FIXED_HEADER_LENGTH,
            FIXED_HEADER_LENGTH, clen, readU32LE b 54⟩ := by
  simp only [inspectTile, Bind.bind, Except.bind] at h
  split at h
  · exact Except.noConfusion h
  rename_i h1
  split at h
  · exact Except.noConfusion h
  rename_i h2
  split at h
  · exact Except.noConfusion h
  rename_i h3
  split at h
  · exact Except.noConfusion h
  rename_i h4
  rw [not_not] at h2
  rw [ne_eq, not_not] at h3
  rw [ne_eq, not_not] at h4
  refine ⟨h1, h2, h3, h4, ?_⟩
  split at h
  · exact Except.noConfusion h
  rename_i mk hmk
  split at h
  · exact Except.noConfusion h
  rename_i t ht
  split at h
  · exact Except.noConfusion h
  rename_i de hde
  split at h
  · exact Except.noConfusion h
  rename_i comp hcomp
  split at h
  · exact Except.noConfusion h
  rename_i hdims
  split at h
  · exact Except.noConfusion h
  rename_i nd hnd
  split at h
  · exact Except.noConfusion h
  rename_i clen hclen
  split at h
  · exact Except.noConfusion h
  rename_i ulen hulen
  split at h
  · exact Except.noConfusion h
  rename_i hfit
  cases h
  exact ⟨mk, de, comp, nd, clen, ulen, hmk, ⟨t, ht⟩, hde, hcomp, hdims, hnd, hclen,
    hulen, hfit, rfl⟩



theorem inspectTile_ok_intro {b : List Nat} (mk : MeshKind) (de : DType × Endianness)
    (comp : CompressionMode) (nd : Option JSNum) (t clen ulen : Nat)
    (h1 : ¬(b.length < FIXED_HEADER_LENGTH))
    (h2 : readU8 b 0 = 0x4d ∧ readU8 b 1 = 0x54 ∧ readU8 b 2 = 0x49 ∧ readU8 b 3 = 0x31)
    (h3 : readU8 b 4 = VERSION_MAJOR)
    (h4 : crc32 (readBytes b 0 HEADER_CHECKSUM_INPUT_LENGTH) = readU32LE b HEADER_CHECKSUM_OFFSET)
    (hmk : parseMeshKind (readU8 b 13) = .ok mk)
    (ht : validateTileIdForMeshKind (readU64LE b 5) mk = .ok t)
    (hde : unpackDTypeEndian (readU8 b 14) = .ok de)
    (hcomp : parseCompression (readU8 b 15) = .ok comp)
    (hdims : ¬(readU32LE b 16 = 0 ∨ readU32LE b 20 = 0 ∨ readU8 b 24 = 0))
    (hnd : decodeNoDataField (readU8 b 25) (readBytes b 26 8) de.1 (de.2 = Endianness.little) = .ok nd)
    (hclen : u64ToSafeNumber (readU64LE b 42) = .ok clen)
    (hulen : u64ToSafeNumber (readU64LE b 34) = .ok ulen)
    (hfit : ¬(b.length < FIXED_HEADER_LENGTH + clen)) :
    inspectTile b = .ok ⟨⟨readU8 b 4, readU64LE b 5, mk, de.1, de.2, comp,
      ⟨readU32LE b 16, readU32LE b 20, readU8 b 24⟩, nd, ⟨clen, ulen⟩,
      ⟨readU32LE b 50, readU32LE b 54⟩⟩, FIXED_HEADER_LENGTH,
      FIXED_HEADER_LENGTH, clen, readU32LE b 54⟩ := by
  simp only [inspectTile, Bind.bind, Except.bind, if_neg h1,
    if_neg (not_not_intro h2), if_neg (not_not_intro h3 : ¬¬(readU8 b 4 = VERSION_MAJOR)),
    hmk, ht, hde, hcomp, if_neg hdims, hnd, hclen, hulen, if_neg hfit]
  rw [if_neg (not_not_intro h4 : ¬¬(crc32 (readBytes b 0 HEADER_CHECKSUM_INPUT_LENGTH) = readU32LE b HEADER_CHECKSUM_OFFSET))]



theorem getD_take_of_lt (l : List Nat) (n o : Nat) (h : o < n) :
    (l.take n).getD o 0 = l.getD o 0 := by
  by_cases ho : o < l.length
  · have h1 : o < (l.take n).length := by
      rw [List.length_take]; omega
    rw [List.getD_eq_getElem _ _ h1, List.getD_eq_getElem _ _ ho, List.getElem_take]
  · have hb1 : (l.take n).length ≤ o := by rw [List.length_take]; omega
    have hb2 : l.length ≤ o := by omega
    rw [List.getD_eq_default _ _ hb1, List.getD_eq_default _ _ hb2]

theorem readU8_take (b : List Nat) (k o : Nat) (h : o < k) :
    readU8 (b.take k) o = readU8 b o :=
  getD_take_of_lt b k o h

theorem readBytes_take (b : List Nat) (k o l : Nat) (h : o + l ≤ k) :
    readBytes (b.take k) o l = readBytes b o l := by
  rw [readBytes, readBytes, List.drop_take, List.take_take]
  congr 1
  omega

theorem readU8_congr58 {b b' : List Nat} (h : b'.take 58 = b.take 58) {o : Nat}
    (ho : o < 58) : readU8 b' o = readU8 b o := by
  rw [← readU8_take b' 58 o ho, h, readU8_take b 58 o ho]

theorem readBytes_congr58 {b b' : List Nat} (h : b'.take 58 = b.take 58) {o l : Nat}
    (hol : o + l ≤ 58) : readBytes b' o l = readBytes b o l := by
  rw [← readBytes_take b' 58 o l hol, h, readBytes_take b 58 o l hol]

theorem readU32LE_congr58 {b b' : List Nat} (h : b'.take 58 = b.take 58) {o : Nat}
    (ho : o + 4 ≤ 58) : readU32LE b' o = readU32LE b o := by
  rw [readU32LE, readU32LE, readBytes_congr58 h ho]

theorem readU64LE_congr58 {b b' : List Nat} (h : b'.take 58 = b.take 58) {o : Nat}
    (ho : o + 8 ≤ 58) : readU64LE b' o = readU64LE b o := by
  rw [readU64LE, readU64LE, readBytes_congr58 h ho]

theorem inspectTile_congr {b b' : List Nat} {r : InspectTileResult}
    (hok : inspectTile b = .ok r) (htake : b'.take 58 = b.take 58)
    (hlen : 58 + r.payload_length ≤ b'.length) : inspectTile b' = .ok r := by
  obtain ⟨h1, h2, h3, h4, mk, de, comp, nd, clen, ulen, hmk, ⟨t, ht⟩, hde, hcomp,
    hdims, hnd, hclen, hulen, hfit, hr⟩ := inspectTile_ok_inv hok
  have e0 := readU8_congr58 htake (show (0:Nat) < 58 by omega)
  have e1 := readU8_congr58 htake (show (1:Nat) < 58 by omega)
  have e2 := readU8_congr58 htake (show (2:Nat) < 58 by omega)
  have e3 := readU8_congr58 htake (show (3:Nat) < 58 by omega)
  have e4 := readU8_congr58 htake (show (4:Nat) < 58 by omega)
  have e13 := readU8_congr58 htake (show (13:Nat) < 58 by omega)
  have e14 := readU8_congr58 htake (show (14:Nat) < 58 by omega)
  have e15 := readU8_congr58 htake (show (15:Nat) < 58 by omega)
  have e24 := readU8_congr58 htake (show (24:Nat) < 58 by omega)
  have e25 := readU8_congr58 htake (show (25:Nat) < 58 by omega)
  have e5 := readU64LE_congr58 htake (show 5 + 8 ≤ 58 by omega)
  have e34 := readU64LE_congr58 htake (show 34 + 8 ≤ 58 by omega)
  have e42 := readU64LE_congr58 htake (show 42 + 8 ≤ 58 by omega)
  have e16 := readU32LE_congr58 htake (show 16 + 4 ≤ 58 by omega)
  have e20 := readU32LE_congr58 htake (show 20 + 4 ≤ 58 by omega)
  have e50 := readU32LE_congr58 htake (show 50 + 4 ≤ 58 by omega)
  have e54 := readU32LE_congr58 htake (show 54 + 4 ≤ 58 by omega)
  have e054 := readBytes_congr58 htake (show 0 + 54 ≤ 58 by omega)
  have e26 := readBytes_congr58 htake (show 26 + 8 ≤ 58 by omega)
  have hclen' := (u64ToSafeNumber_ok hclen).1
  have hrpl : r.payload_length = clen := by rw [hr]
  have hres := inspectTile_ok_intro (b := b') mk de comp nd t clen ulen
    (by rw [show FIXED_HEADER_LENGTH = 58 from rfl]; omega)
    (by rw [e0, e1, e2, e3]; exact h2)
    (by rw [e4]; exact h3)
    (by rw [show HEADER_CHECKSUM_INPUT_LENGTH = 54 from rfl,
        show HEADER_CHECKSUM_OFFSET = 54 from rfl] at h4 ⊢
        rw [e054, e54]; exact h4)
    (by rw [e13]; exact hmk)
    (by rw [e5]; exact ht)
    (by rw [e14]; exact hde)
    (by rw [e15]; exact hcomp)
    (by rw [e16, e20, e24]; exact hdims)
    (by rw [e25, e26]; exact hnd)
    (by rw [e42]; exact hclen)
    (by rw [e34]; exact hulen)
    (by rw [show FIXED_HEADER_LENGTH = 58 from rfl]; omega)
  rw [hres, hr]
  congr 1
  rw [e4, e5, e16, e20, e24, e50, e54]



theorem decodeTile_ok_inv {rt : Runtime} {b : List Nat} {t : DecodedTile}
    (h : decodeTile rt b = .ok t) :
    ∃ info, inspectTile b = .ok info ∧
      ¬(info.header.compression ≠ CompressionMode.none ∧
        (!(isCompressionModeSupported rt info.header.compression)) = true) ∧
      (readBytes b info.payload_offset info.payload_length).length = info.payload_length ∧
      ∃ dec, decompressPayload rt info.header.compression
          (readBytes b info.payload_offset info.payload_length) = .ok dec ∧
        dec.length = info.header.payload.uncompressed_bytes ∧
        crc32 dec = info.header.checksum.payload_crc32 ∧
        ∃ sc, totalSamples info.header.dimensions = .ok sc ∧
          dec.length = sc * byteLengthForDType info.header.dtype ∧
          ∃ data, decodeValues info.header.dtype dec
              (info.header.endianness = Endianness.little) = .ok data ∧
            t = ⟨info.header, data, dec⟩ := by
  simp only [decodeTile, Bind.bind, Except.bind] at h
  split at h
  · exact Except.noConfusion h
  rename_i info hinfo
  split at h
  · exact Except.noConfusion h
  rename_i hsupp
  split at h
  · exact Except.noConfusion h
  rename_i hslice
  split at h
  · exact Except.noConfusion h
  rename_i dec hdec
  split at h
  · exact Except.noConfusion h
  rename_i hulen
  split at h
  · exact Except.noConfusion h
  rename_i hcrc
  split at h
  · exact Except.noConfusion h
  rename_i sc hsc
  split at h
  · exact Except.noConfusion h
  rename_i hsclen
  split at h
  · exact Except.noConfusion h
  rename_i data hdata
  cases h
  exact ⟨info, hinfo, hsupp, by omega, dec, hdec, by omega, by omega, sc, hsc,
    by omega, data, hdata, rfl⟩

theorem decodeTile_ok_intro {rt : Runtime} {b : List Nat} (info : InspectTileResult)
    (dec : List Nat) (sc : Nat) (data : List JSNum)
    (hinfo : inspectTile b = .ok info)
    (hsupp : ¬(info.header.compression ≠ CompressionMode.none ∧
      (!(isCompressionModeSupported rt info.header.compression)) = true))
    (hslice : (readBytes b info.payload_offset info.payload_length).length = info.payload_length)
    (hdec : decompressPayload rt info.header.compression
      (readBytes b info.payload_offset info.payload_length) = .ok dec)
    (hulen : dec.length = info.header.payload.uncompressed_bytes)
    (hcrc : crc32 dec = info.header.checksum.payload_crc32)
    (hsc : totalSamples info.header.dimensions = .ok sc)
    (hsclen : dec.length = sc * byteLengthForDType info.header.dtype)
    (hdata : decodeValues info.header.dtype dec
      (info.header.endianness = Endianness.little) = .ok data) :
    decodeTile rt b = .ok ⟨info.header, data, dec⟩ := by
  simp only [decodeTile, Bind.bind, Except.bind, hinfo, if_neg hsupp,
    if_neg (not_not_intro hslice : ¬¬((readBytes b info.payload_offset info.payload_length).length = info.payload_length)),
    hdec, if_neg (not_not_intro hulen : ¬¬(dec.length = info.header.payload.uncompressed_bytes)),
    if_neg (not_not_intro hcrc : ¬¬(crc32 dec = info.header.checksum.payload_crc32)),
    hsc, if_neg (not_not_intro hsclen : ¬¬(dec.length = sc * byteLengthForDType info.header.dtype)),
    hdata]

theorem readBytes_append_left {xs ys : List Nat} {o l : Nat} (h : o + l ≤ xs.length) :
    readBytes (xs ++ ys) o l = readBytes xs o l := by
  rw [readBytes, readBytes, List.drop_append_of_le_length (by omega)]
  rw [List.take_append_of_le_length]
  rw [List.length_drop]
  omega



theorem decodeTile_append {rt : Runtime} {b : List Nat} {t : DecodedTile}
    (h : decodeTile rt b = .ok t) (extra : List Nat) :
    decodeTile rt (b ++ extra) = .ok t := by
  obtain ⟨info, hinfo, hsupp, hslice, dec, hdec, hulen, hcrc, sc, hsc, hsclen,
    data, hdata, ht⟩ := decodeTile_ok_inv h
  obtain ⟨h1, _, _, _, mk, de, comp, nd, clen, ulen2, _, _, _, _, _, _, hclen, _,
    hfit, hr⟩ := inspectTile_ok_inv hinfo
  have hoff : info.payload_offset = 58 := by rw [hr]; rfl
  have hpl : info.payload_length = clen := by rw [hr]
  have hb58 : 58 ≤ b.length := by
    rw [show FIXED_HEADER_LENGTH = 58 from rfl] at h1; omega
  have hbfit : 58 + info.payload_length ≤ b.length := by
    rw [show FIXED_HEADER_LENGTH = 58 from rfl] at hfit; omega
  have htake : (b ++ extra).take 58 = b.take 58 := List.take_append_of_le_length hb58
  have hlen2 : 58 + info.payload_length ≤ (b ++ extra).length := by
    rw [List.length_append]; omega
  have hinfo2 : inspectTile (b ++ extra) = .ok info := inspectTile_congr hinfo htake hlen2
  have hrb : readBytes (b ++ extra) info.payload_offset info.payload_length =
      readBytes b info.payload_offset info.payload_length := by
    apply readBytes_append_left
    omega
  rw [ht]
  exact decodeTile_ok_intro info dec sc data hinfo2 hsupp (by rw [hrb]; exact hslice)
    (by rw [hrb]; exact hdec) hulen hcrc hsc hsclen hdata

/-- Claim C10: `inspectTile` and `decodeTile` ignore trailing bytes — any
bytes appended after `58 + stored_payload_bytes` leave both operations
succeeding with identical results. -/
theorem trailing_bytes_ignored (rt : Runtime) (b extra : List Nat) :
    (∀ r, inspectTile b = .ok r → inspectTile (b ++ extra) = .ok r) ∧
    (∀ t, decodeTile rt b = .ok t → decodeTile rt (b ++ extra) = .ok t) := by
  constructor
  · intro r h
    obtain ⟨h1, _, _, _, mk, de, comp, nd, clen, ulen2, _, _, _, _, _, _, hclen, _,
      hfit, hr⟩ := inspectTile_ok_inv h
    have hb58 : 58 ≤ b.length := by
      rw [show FIXED_HEADER_LENGTH = 58 from rfl] at h1; omega
    have hpl : r.payload_length = clen := by rw [hr]
    apply inspectTile_congr h (List.take_append_of_le_length hb58)
    rw [show FIXED_HEADER_LENGTH = 58 from rfl] at hfit
    rw [List.length_append]
    omega
  · intro t h
    exact decodeTile_append h extra

/-- Claim C3: an `inspectTile` success reports `header_length = 58`,
`payload_offset = 58`, and `payload_length` equal to the stored payload
byte count declared at header offset 42; and the result does not depend on
the payload bytes at all (no decompression, no payload CRC check): any tail
of sufficient length yields the same success. -/
theorem inspect_result_characterization (b : List Nat) (r : InspectTileResult)
    (h : inspectTile b = .ok r) :
    r.header_length = 58 ∧ r.payload_offset = 58 ∧
    r.payload_length = bytesToNatLE ((b.drop 42).take 8) ∧
    r.header.payload.compressed_bytes = r.payload_length ∧
    ∀ tail : List Nat, r.payload_length ≤ tail.length →
      inspectTile (b.take 58 ++ tail) = .ok r := by
  obtain ⟨h1, _, _, _, mk, de, comp, nd, clen, ulen2, _, _, _, _, _, _, hclen, _,
    hfit, hr⟩ := inspectTile_ok_inv h
  have hb58 : 58 ≤ b.length := by
    rw [show FIXED_HEADER_LENGTH = 58 from rfl] at h1; omega
  have hcv := (u64ToSafeNumber_ok hclen).1
  refine ⟨by rw [hr]; rfl, by rw [hr]; rfl, ?_, by rw [hr], ?_⟩
  · rw [hr]
    exact hcv
  · intro tail htail
    have hlen58 : (b.take 58).length = 58 := by
      rw [List.length_take]; omega
    apply inspectTile_congr h
    · rw [List.take_append_of_le_length (by omega), List.take_take]
      norm_num
    · rw [List.length_append, hlen58]
      omega


/-! ### Claim theorems about the tile-id codec -/

/-- Claim C6: for every `zoom ∈ [0, 29]` and `x, y ∈ [0, 2^zoom)`, decoding
the encoded XYZ tile id returns exactly `{zoom, x, y}` (with the quadkey
integer), and the encoded id satisfies `tile_id >>> 58 = zoom` and
`tile_id &&& ((1 <<< 58) - 1) < 4 ^ zoom`. -/
theorem xyz_encode_decode_roundtrip (zoom x y : Nat) (hz : zoom ≤ 29)
    (hx : x < 2 ^ zoom) (hy : y < 2 ^ zoom) :
    ∃ tid, encodeXyzTileId zoom x y = .ok tid ∧
      decodeXyzTileId (.big (tid : Int)) = .ok ⟨zoom, x, y, tid &&& QUADKEY_MASK⟩ ∧
      tid >>> 58 = zoom ∧ tid &&& ((1 <<< 58) - 1) < 4 ^ zoom := by
  have hq58 := quadSum_lt_two_pow_58 x y zoom hz
  have hmask : (zoom * 2 ^ 58 + quadSum x y zoom) &&& QUADKEY_MASK = quadSum x y zoom :=
    tid_mask_58 _ _ hq58
  refine ⟨zoom * 2 ^ 58 + quadSum x y zoom, encodeXyzTileId_ok zoom x y hz hx hy, ?_, ?_, ?_⟩
  · rw [hmask]
    exact decodeXyzTileId_ok zoom x y hz hx hy
  · exact tid_shiftRight_58 _ _ hq58
  · rw [show ((1 <<< 58 : Nat) - 1) = QUADKEY_MASK from rfl, hmask]
    exact quadSum_lt x y zoom

/-- Witness for C6 at `zoom = 3, x = 5, y = 2` (scenario S2). -/
theorem xyz_encode_decode_roundtrip_witness :
    (3 : Nat) ≤ 29 ∧ (5 : Nat) < 2 ^ 3 ∧ (2 : Nat) < 2 ^ 3 ∧
      (∃ tid, encodeXyzTileId 3 5 2 = .ok tid ∧
        decodeXyzTileId (.big (tid : Int)) = .ok ⟨3, 5, 2, tid &&& QUADKEY_MASK⟩ ∧
        tid >>> 58 = 3 ∧ tid &&& ((1 <<< 58) - 1) < 4 ^ 3) :=
  ⟨by decide, by decide, by decide,
    xyz_encode_decode_roundtrip 3 5 2 (by decide) (by decide) (by decide)⟩

/-- Claim C7: on a `u64` tile id, `decodeXyzTileId` fails exactly when the
zoom bits exceed 29 or a quadkey bit at position `2*zoom` or above is set,
and every failure carries `INVALID_FIELD_VALUE`. -/
theorem decode_xyz_failure_characterization (n : Nat) (h : n < 2 ^ 64) :
    (∀ e, decodeXyzTileId (.big (n : Int)) = .error e → e.code = .INVALID_FIELD_VALUE) ∧
    ((∃ e, decodeXyzTileId (.big (n : Int)) = .error e) ↔
      (29 < n >>> 58 ∨
        (2 * (n >>> 58) < 58 ∧ (n &&& ((1 <<< 58) - 1)) >>> (2 * (n >>> 58)) ≠ 0))) := by
  have hnorm : ¬((n : Int) < 0 ∨ (n : Int) > (MAX_U64 : Int)) := by
    rw [MAX_U64_int]; push_neg
    exact ⟨by positivity, by omega⟩
  have hunfold : decodeXyzTileId (.big (n : Int)) =
      (if n >>> 58 > 29 then
        Except.error ⟨.INVALID_FIELD_VALUE, .xyzZoomTooLarge⟩
      else if 2 * (n >>> 58) < 58 ∧ (n &&& QUADKEY_MASK) >>> (2 * (n >>> 58)) ≠ 0 then
        Except.error ⟨.INVALID_FIELD_VALUE, .xyzQuadkeyBitsAboveZoom⟩
      else
        Except.ok ⟨n >>> 58, (decLoop (n &&& QUADKEY_MASK) (n >>> 58) (0, 0)).1,
          (decLoop (n &&& QUADKEY_MASK) (n >>> 58) (0, 0)).2, n &&& QUADKEY_MASK⟩) := by
    simp only [decodeXyzTileId, normalizeUnsignedU64, if_neg hnorm, Int.toNat_natCast,
      Bind.bind, Except.bind, MAX_ZOOM_eq, show ZOOM_SHIFT = 58 from rfl,
      show QUADKEY_BITS = 58 from rfl]
  rw [hunfold, show ((1 <<< 58 : Nat) - 1) = QUADKEY_MASK from rfl]
  by_cases h1 : 29 < n >>> 58
  · rw [if_pos h1]
    exact ⟨fun e he => by cases he; rfl, ⟨fun _ => Or.inl h1, fun _ => ⟨_, rfl⟩⟩⟩
  · rw [if_neg h1]
    by_cases h2 : 2 * (n >>> 58) < 58 ∧ (n &&& QUADKEY_MASK) >>> (2 * (n >>> 58)) ≠ 0
    · rw [if_pos h2]
      exact ⟨fun e he => by cases he; rfl, ⟨fun _ => Or.inr h2, fun _ => ⟨_, rfl⟩⟩⟩
    · rw [if_neg h2]
      refine ⟨fun e he => Except.noConfusion he, ?_, ?_⟩
      · rintro ⟨e, he⟩
        exact Except.noConfusion he
      · rintro (hc | hc)
        · exact absurd hc h1
        · exact absurd hc h2

/-- Witness for C7 at the scenario-S7 input `(1 <<< 58) ||| 16`. -/
theorem decode_xyz_failure_characterization_witness :
    (1 <<< 58 ||| 16 : Nat) < 2 ^ 64 ∧
      (∃ e, decodeXyzTileId (.big ((1 <<< 58 ||| 16 : Nat) : Int)) = .error e) :=
  ⟨by decide, (decode_xyz_failure_characterization (1 <<< 58 ||| 16) (by decide)).2.mpr
    (by decide)⟩

/-- Claim C9 (amended): `normalizeTileId` accepts any integral number,
digit string or bigint valued in `[0, 2^64)`; the normalization used by the
XYZ helpers (`normalizeUnsignedU64`) additionally restricts `number` inputs
to safe integers, i.e. to `[0, 2^53)`; all rejections carry
`INVALID_FIELD_VALUE`. -/
theorem tile_id_normalization_characterization :
    (∀ v e, normalizeUnsignedU64 v = .error e → e.code = .INVALID_FIELD_VALUE) ∧
    (∀ v e, normalizeTileId v = .error e → e.code = .INVALID_FIELD_VALUE) ∧
    (∀ i : Int, (∃ k, normalizeUnsignedU64 (.big i) = .ok k) ↔ 0 ≤ i ∧ i < 2 ^ 64) ∧
    (∀ q : ℚ, (∃ k, normalizeUnsignedU64 (.num (.finite q)) = .ok k) ↔
      q.den = 1 ∧ 0 ≤ q.num ∧ q.num < 2 ^ 53) ∧
    (∀ s : String, (∃ k, normalizeUnsignedU64 (.str s) = .ok k) ↔
      isDigitString s = true ∧ digitsToNat s < 2 ^ 64) ∧
    (∀ i : Int, (∃ k, normalizeTileId (.big i) = .ok k) ↔ 0 ≤ i ∧ i < 2 ^ 64) ∧
    (∀ q : ℚ, (∃ k, normalizeTileId (.num (.finite q)) = .ok k) ↔
      q.den = 1 ∧ 0 ≤ q.num ∧ q.num < 2 ^ 64) ∧
    (∀ s : String, (∃ k, normalizeTileId (.str s) = .ok k) ↔
      isDigitString s = true ∧ digitsToNat s < 2 ^ 64) := by
  have hint : ∀ i : Int, (¬(i < 0 ∨ i > (MAX_U64 : Int))) ↔ (0 ≤ i ∧ i < 2 ^ 64) := by
    intro i
    rw [MAX_U64_int]
    constructor
    · intro h; push_neg at h; exact ⟨h.1, by omega⟩
    · intro h; push_neg; exact ⟨h.1, by omega⟩
  refine ⟨?_, ?_, ?_, ?_, ?_, ?_, ?_, ?_⟩
  · intro v e h
    cases v with
    | big i =>
      rw [normalizeUnsignedU64] at h
      split at h
      · cases h; rfl
      · exact Except.noConfusion h
    | num v =>
      rw [normalizeUnsignedU64] at h
      split at h
      · cases h; rfl
      · exact Except.noConfusion h
    | str s =>
      rw [normalizeUnsignedU64] at h
      split at h
      · cases h; rfl
      · split at h
        · cases h; rfl
        · exact Except.noConfusion h
  · intro v e h
    cases v with
    | big i =>
      simp only [normalizeTileId, Bind.bind, Except.bind, pure, Except.pure] at h
      split at h
      · cases h; rfl
      · exact Except.noConfusion h
    | num v =>
      simp only [normalizeTileId, Bind.bind, Except.bind, pure, Except.pure] at h
      split at h
      · cases h; rfl
      · split at h
        · cases h; rfl
        · exact Except.noConfusion h
    | str s =>
      simp only [normalizeTileId, Bind.bind, Except.bind, pure, Except.pure] at h
      split at h
      · cases h; rfl
      · split at h
        · cases h; rfl
        · exact Except.noConfusion h
  · intro i
    rw [normalizeUnsignedU64]
    by_cases hc : i < 0 ∨ i > (MAX_U64 : Int)
    · rw [if_pos hc]
      constructor
      · rintro ⟨k, hk⟩; exact Except.noConfusion hk
      · intro h; exact absurd hc ((hint i).mpr h)
    · rw [if_neg hc]
      exact ⟨fun _ => (hint i).mp hc, fun _ => ⟨_, rfl⟩⟩
  · intro q
    rw [normalizeUnsignedU64]
    by_cases hc : (!(JSNum.finite q).isSafeInteger || (JSNum.finite q).jsLt (.finite 0)) = true
    · rw [if_pos hc]
      constructor
      · rintro ⟨k, hk⟩; exact Except.noConfusion hk
      · intro hgood
        rw [(safeInt_cond_iff q).mpr hgood] at hc
        exact Bool.noConfusion hc
    · rw [if_neg hc]
      rw [Bool.not_eq_true] at hc
      exact ⟨fun _ => (safeInt_cond_iff q).mp hc, fun _ => ⟨_, rfl⟩⟩
  · intro s
    rw [normalizeUnsignedU64]
    by_cases hc : (!isDigitString s) = true
    · rw [if_pos hc]
      simp only [Bool.not_eq_true'] at hc
      constructor
      · rintro ⟨k, hk⟩; exact Except.noConfusion hk
      · rintro ⟨hd, _⟩; rw [hc] at hd; exact Bool.noConfusion hd
    · rw [if_neg hc]
      simp only [Bool.not_eq_true', Bool.not_eq_false] at hc
      by_cases h2 : digitsToNat s > MAX_U64
      · rw [if_pos h2]
        rw [MAX_U64_eq] at h2
        constructor
        · rintro ⟨k, hk⟩; exact Except.noConfusion hk
        · rintro ⟨_, hlt⟩; omega
      · rw [if_neg h2]
        rw [MAX_U64_eq] at h2
        exact ⟨fun _ => ⟨hc, by omega⟩, fun _ => ⟨_, rfl⟩⟩
  · intro i
    simp only [normalizeTileId, Bind.bind, Except.bind, pure, Except.pure]
    by_cases hc : i < 0 ∨ i > (MAX_U64 : Int)
    · rw [if_pos hc]
      constructor
      · rintro ⟨k, hk⟩; exact Except.noConfusion hk
      · intro h; exact absurd hc ((hint i).mpr h)
    · rw [if_neg hc]
      exact ⟨fun _ => (hint i).mp hc, fun _ => ⟨_, rfl⟩⟩
  · intro q
    simp only [normalizeTileId, Bind.bind, Except.bind, pure, Except.pure]
    by_cases hden : ((JSNum.finite q).isInteger : Bool) = true
    · simp only [JSNum.isInteger, beq_iff_eq] at hden
      rw [if_neg (by simp [JSNum.isInteger, hden])]
      by_cases hc : (q.num : Int) < 0 ∨ (q.num : Int) > (MAX_U64 : Int)
      · rw [show (JSNum.finite q).intValue = q.num from rfl, if_pos hc]
        constructor
        · rintro ⟨k, hk⟩; exact Except.noConfusion hk
        · rintro ⟨_, h0, h64⟩
          exact absurd hc ((hint q.num).mpr ⟨h0, h64⟩)
      · rw [show (JSNum.finite q).intValue = q.num from rfl, if_neg hc]
        exact ⟨fun _ => ⟨hden, ((hint q.num).mp hc).1, ((hint q.num).mp hc).2⟩,
          fun _ => ⟨_, rfl⟩⟩
    · rw [if_pos (by simpa using hden)]
      simp only [JSNum.isInteger, beq_iff_eq] at hden
      constructor
      · rintro ⟨k, hk⟩; exact Except.noConfusion hk
      · rintro ⟨hd, _⟩; exact absurd hd hden
  · intro s
    simp only [normalizeTileId, Bind.bind, Except.bind, pure, Except.pure]
    by_cases hc : (!isDigitString s) = true
    · rw [if_pos hc]
      simp only [Bool.not_eq_true'] at hc
      constructor
      · rintro ⟨k, hk⟩; exact Except.noConfusion hk
      · rintro ⟨hd, _⟩; rw [hc] at hd; exact Bool.noConfusion hd
    · rw [if_neg hc]
      simp only [Bool.not_eq_true', Bool.not_eq_false] at hc
      by_cases h2 : (digitsToNat s : Int) < 0 ∨ (digitsToNat s : Int) > (MAX_U64 : Int)
      · rw [if_pos h2]
        constructor
        · rintro ⟨k, hk⟩; exact Except.noConfusion hk
        · rintro ⟨_, hlt⟩
          refine absurd h2 ((hint _).mpr ⟨Int.natCast_nonneg _, ?_⟩)
          exact_mod_cast hlt
      · rw [if_neg h2]
        refine ⟨fun _ => ⟨hc, ?_⟩, fun _ => ⟨_, rfl⟩⟩
        have h3 := (hint (digitsToNat s)).mp h2
        exact_mod_cast h3.2

/-- Witness for C3: inspecting the S1 tile with its payload replaced by
eight `9` bytes (whose CRC does not match the declared payload CRC) still
succeeds with the same result. -/
theorem inspect_result_characterization_witness :
    inspectTile (sampleTileBytes.take 58 ++ List.replicate 8 9) = .ok sampleInspectResult :=
  (inspect_result_characterization sampleTileBytes sampleInspectResult
    (by set_option maxRecDepth 10000 in decide)).2.2.2.2
    (List.replicate 8 9) (by decide)

/-- Witness for C10: appending three trailing bytes to the S1 tile leaves
inspect and decode results unchanged. -/
theorem trailing_bytes_ignored_witness :
    inspectTile (sampleTileBytes ++ [7, 7, 7]) = .ok sampleInspectResult ∧
      decodeTile idRuntime (sampleTileBytes ++ [7, 7, 7]) = .ok sampleDecodedTile :=
  ⟨(trailing_bytes_ignored idRuntime sampleTileBytes [7, 7, 7]).1 sampleInspectResult
      (by set_option maxRecDepth 10000 in decide),
    (trailing_bytes_ignored idRuntime sampleTileBytes [7, 7, 7]).2 sampleDecodedTile
      (by set_option maxRecDepth 10000 in decide)⟩

/-- Witness for C9: the digit string "1001" is accepted by both normalizers
and a rejection of `NaN` carries `INVALID_FIELD_VALUE`. -/
theorem tile_id_normalization_characterization_witness :
    (∃ k, normalizeUnsignedU64 (.str "1001") = .ok k) ∧
      (∃ k, normalizeTileId (.big 1001) = .ok k) ∧
      (∀ e, normalizeUnsignedU64 (.num .nan) = .error e → e.code = .INVALID_FIELD_VALUE) :=
  ⟨(tile_id_normalization_characterization.2.2.2.2.1 "1001").mpr (by decide),
    (tile_id_normalization_characterization.2.2.2.2.2.1 1001).mpr (by norm_num),
    fun e he => tile_id_normalization_characterization.1 (.num .nan) e he⟩

/-! ### Claim theorems about per-scalar validation -/

theorem validateScalar_int_iff (d : DType) (lo hi : ℚ)
    (hl : (DTYPE_MIN_MAX d).min = .finite lo) (hm : (DTYPE_MIN_MAX d).max = .finite hi)
    (hint : (DTYPE_MIN_MAX d).integer = true)
    (hnf : (d == DType.float32 || d == DType.float64) = false) :
    ∀ v, validateScalar d v = none ↔ ∃ q, v = .finite q ∧ q.den = 1 ∧ lo ≤ q ∧ q ≤ hi := by
  intro v
  cases v with
  | nan =>
    simp [validateScalar, hnf, JSNum.isFinite, JSNum.isNaN]
  | inf b =>
    simp [validateScalar, hnf, JSNum.isFinite, JSNum.isNaN]
  | finite q =>
    simp only [validateScalar, hnf, hl, hm, hint, JSNum.isFinite, JSNum.isNaN,
      JSNum.isInteger, JSNum.jsLt, JSNum.jsGt, Bool.not_true, Bool.false_and,
      Bool.and_false, Bool.not_false, Bool.true_and, Bool.false_or,
      Bool.false_eq_true, if_false]
    by_cases hden : q.den = 1
    · by_cases hr : q < lo ∨ hi < q
      · have hc1 : ¬((!(q.den == 1)) = true) := by simp [hden]
        have hc2 : (decide (q < lo) || decide (hi < q)) = true := by
          rcases hr with h | h <;> simp [h]
        rw [if_neg hc1, if_pos hc2]
        constructor
        · intro h; exact Option.noConfusion h
        · rintro ⟨q', hq', _, h1, h2⟩
          cases hq'
          rcases hr with h | h
          · exact absurd h1 (not_le.mpr h)
          · exact absurd h2 (not_le.mpr h)
      · have hc1 : ¬((!(q.den == 1)) = true) := by simp [hden]
        push_neg at hr
        have hc2 : ¬((decide (q < lo) || decide (hi < q)) = true) := by
          simp [not_lt.mpr hr.1, not_lt.mpr hr.2]
        rw [if_neg hc1, if_neg hc2]
        simp only [true_iff]
        exact ⟨q, rfl, hden, hr.1, hr.2⟩
    · have hc1 : ((!(q.den == 1)) = true) := by simp [hden]
      rw [if_pos hc1]
      constructor
      · intro h; exact Option.noConfusion h
      · rintro ⟨q', hq', hden', _, _⟩
        cases hq'
        exact absurd hden' hden

/-- Claim C8 (amended): per-scalar validation accepts NaN for float dtypes,
any finite value for float64, finite values within the exact bounds of the
literal `±3.4e38` for float32 (strictly below `FLT_MAX`), and integral
values within the dtype range for integer dtypes; everything else is
rejected with `INVALID_FIELD_VALUE`. -/
theorem validate_scalar_characterization :
    (∀ d v e, validateScalar d v = some e → e.code = .INVALID_FIELD_VALUE) ∧
    (∀ v, validateScalar .float64 v = none ↔ (v = .nan ∨ ∃ q, v = .finite q)) ∧
    (∀ v, validateScalar .float32 v = none ↔ (v = .nan ∨ ∃ q, v = .finite q ∧
        -(339999999999999996123846586046231871488 : ℚ) ≤ q ∧
        q ≤ 339999999999999996123846586046231871488)) ∧
    (∀ v, validateScalar .uint8 v = none ↔
      ∃ q, v = .finite q ∧ q.den = 1 ∧ 0 ≤ q ∧ q ≤ 255) ∧
    (∀ v, validateScalar .int8 v = none ↔
      ∃ q, v = .finite q ∧ q.den = 1 ∧ -128 ≤ q ∧ q ≤ 127) ∧
    (∀ v, validateScalar .uint16 v = none ↔
      ∃ q, v = .finite q ∧ q.den = 1 ∧ 0 ≤ q ∧ q ≤ 65535) ∧
    (∀ v, validateScalar .int16 v = none ↔
      ∃ q, v = .finite q ∧ q.den = 1 ∧ -32768 ≤ q ∧ q ≤ 32767) ∧
    (∀ v, validateScalar .uint32 v = none ↔
      ∃ q, v = .finite q ∧ q.den = 1 ∧ 0 ≤ q ∧ q ≤ 4294967295) ∧
    (∀ v, validateScalar .int32 v = none ↔
      ∃ q, v = .finite q ∧ q.den = 1 ∧ -2147483648 ≤ q ∧ q ≤ 2147483647) := by
  refine ⟨?_, ?_, ?_, ?_, ?_, ?_, ?_, ?_, ?_⟩
  · intro d v e h
    simp only [validateScalar] at h
    split at h
    · cases h; rfl
    · split at h
      · cases h; rfl
      · split at h
        · cases h; rfl
        · exact Option.noConfusion h
  · intro v
    cases v with
    | nan => simp [validateScalar, DTYPE_MIN_MAX, JSNum.isFinite, JSNum.isNaN, JSNum.jsLt,
        JSNum.jsGt]
    | inf b => simp [validateScalar, DTYPE_MIN_MAX, JSNum.isFinite, JSNum.isNaN]
    | finite q => simp [validateScalar, DTYPE_MIN_MAX, JSNum.isFinite, JSNum.isNaN,
        JSNum.isInteger, JSNum.jsLt, JSNum.jsGt]
  · intro v
    cases v with
    | nan => simp [validateScalar, DTYPE_MIN_MAX, JSNum.isFinite, JSNum.isNaN, JSNum.jsLt,
        JSNum.jsGt]
    | inf b => simp [validateScalar, DTYPE_MIN_MAX, JSNum.isFinite, JSNum.isNaN]
    | finite q =>
      simp only [validateScalar, DTYPE_MIN_MAX, JSNum.isFinite, JSNum.isNaN,
        JSNum.isInteger, JSNum.jsLt, JSNum.jsGt, Bool.not_true, Bool.false_and,
        Bool.and_false, Bool.not_false, Bool.true_and, Bool.false_or, Bool.false_eq_true,
        if_false, Bool.or_eq_true, decide_eq_true_eq]
      by_cases hr : q < -(339999999999999996123846586046231871488 : ℚ) ∨
          (339999999999999996123846586046231871488 : ℚ) < q
      · rw [if_pos (by rcases hr with h | h <;> simp [h])]
        simp only [reduceCtorEq, false_iff, not_or, not_exists]
        refine ⟨by simp, ?_⟩
        rintro q' ⟨hq', h1, h2⟩
        cases hq'
        rcases hr with h | h
        · exact absurd h1 (not_le.mpr h)
        · exact absurd h2 (not_le.mpr h)
      · rw [if_neg (by push_neg at hr; simp [not_lt.mpr hr.1, not_lt.mpr hr.2])]
        push_neg at hr
        simp only [true_iff]
        exact Or.inr ⟨q, rfl, hr.1, hr.2⟩
  · exact validateScalar_int_iff .uint8 0 255 rfl rfl rfl rfl
  · exact validateScalar_int_iff .int8 (-128) 127 rfl rfl rfl rfl
  · exact validateScalar_int_iff .uint16 0 65535 rfl rfl rfl rfl
  · exact validateScalar_int_iff .int16 (-32768) 32767 rfl rfl rfl rfl
  · exact validateScalar_int_iff .uint32 0 4294967295 rfl rfl rfl rfl
  · exact validateScalar_int_iff .int32 (-2147483648) 2147483647 rfl rfl rfl rfl

/-- Witness for C8: the float32 value 1.5 is accepted, and the rejection of
a non-finite value carries `INVALID_FIELD_VALUE`. -/
theorem validate_scalar_characterization_witness :
    validateScalar .float32 (.finite (3 / 2)) = none ∧
      (∀ e, validateScalar .uint8 (.inf false) = some e → e.code = .INVALID_FIELD_VALUE) :=
  ⟨(validate_scalar_characterization.2.2.1 (.finite (3 / 2))).mpr
      (Or.inr ⟨3 / 2, rfl, by norm_num, by norm_num⟩),
    fun e he => validate_scalar_characterization.1 .uint8 (.inf false) e he⟩

/-- Counterexample for C8 as frozen: `FLT_MAX` (the largest finite float32,
`(2^24 - 1) * 2^104`) is finite and within `±FLT_MAX`, yet float32
validation rejects it, because the table bound is the double `3.4e38`,
which is strictly smaller than `FLT_MAX`. -/
theorem float32_flt_max_rejected :
    (340282346638528859811704183484516925440 : ℚ) = ((2 ^ 24 - 1) * 2 ^ 104 : ℚ) ∧
      (JSNum.finite (340282346638528859811704183484516925440 : ℚ)).isFinite = true ∧
      (339999999999999996123846586046231871488 : ℚ) <
        340282346638528859811704183484516925440 ∧
      validateScalar .float32 (.finite (340282346638528859811704183484516925440 : ℚ)) =
        some ⟨.INVALID_FIELD_VALUE, .outOfRangeValue⟩ :=
  ⟨by norm_num, by decide, by norm_num, by decide⟩

/-- Counterexample for C9 as frozen: the integer number `2^53` lies in
`[0, 2^64)` yet the normalization used by the XYZ tile-id helpers rejects it
with `INVALID_FIELD_VALUE`. -/
theorem tile_id_number_2pow53_rejected :
    (JSNum.finite (9007199254740992 : ℚ)).isInteger = true ∧
      (0 : ℚ) ≤ 9007199254740992 ∧ (9007199254740992 : ℚ) < 2 ^ 64 ∧
      normalizeUnsignedU64 (.num (.finite (9007199254740992 : ℚ))) =
        .error ⟨.INVALID_FIELD_VALUE, .u64NumberNotSafeInteger⟩ ∧
      decodeXyzTileId (.num (.finite (9007199254740992 : ℚ))) =
        .error ⟨.INVALID_FIELD_VALUE, .u64NumberNotSafeInteger⟩ ∧
      assertValidXyzTileId (.num (.finite (9007199254740992 : ℚ))) =
        .error ⟨.INVALID_FIELD_VALUE, .u64NumberNotSafeInteger⟩ :=
  ⟨by decide, by norm_num, by norm_num, by decide, by decide, by decide⟩

end MeshDataTile

namespace MeshDataTile

set_option maxRecDepth 100000 in
theorem crcTableEntry_lt : ∀ b < 256, crcTableEntry b < 2 ^ 32 := by decide

theorem and_ff_lt (x : Nat) : x &&& 0xff < 256 :=
  lt_of_le_of_lt Nat.and_le_right (by norm_num)

theorem crcStep_lt {crc : Nat} (b : Nat) (h : crc < 2 ^ 32) : crcStep crc b < 2 ^ 32 := by
  apply Nat.xor_lt_two_pow
  · rw [Nat.shiftRight_eq_div_pow]
    exact lt_of_le_of_lt (Nat.div_le_self _ _) h
  · exact crcTableEntry_lt _ (and_ff_lt _)

set_option maxRecDepth 100000 in
theorem crcTable_nodup : ((List.range 256).map crcTableEntry).Nodup := by decide

set_option maxRecDepth 100000 in
theorem crcTableTop_nodup :
    ((List.range 256).map (fun b => crcTableEntry b >>> 24)).Nodup := by decide

theorem crcTableEntry_inj {i j : Nat} (hi : i < 256) (hj : j < 256) (hne : i ≠ j) :
    crcTableEntry i ≠ crcTableEntry j := by
  intro heq
  apply hne
  have h1 : i < ((List.range 256).map crcTableEntry).length := by simp [hi]
  have h2 : j < ((List.range 256).map crcTableEntry).length := by simp [hj]
  have hget : ((List.range 256).map crcTableEntry).get ⟨i, h1⟩ =
      ((List.range 256).map crcTableEntry).get ⟨j, h2⟩ := by
    simp [List.get_eq_getElem, List.getElem_map, List.getElem_range, heq]
  have := (List.Nodup.get_inj_iff crcTable_nodup).mp hget
  simpa using this

theorem crcTableEntryTop_inj {i j : Nat} (hi : i < 256) (hj : j < 256) (hne : i ≠ j) :
    crcTableEntry i >>> 24 ≠ crcTableEntry j >>> 24 := by
  intro heq
  apply hne
  have h1 : i < ((List.range 256).map (fun b => crcTableEntry b >>> 24)).length := by simp [hi]
  have h2 : j < ((List.range 256).map (fun b => crcTableEntry b >>> 24)).length := by simp [hj]
  have hget : ((List.range 256).map (fun b => crcTableEntry b >>> 24)).get ⟨i, h1⟩ =
      ((List.range 256).map (fun b => crcTableEntry b >>> 24)).get ⟨j, h2⟩ := by
    simp [List.get_eq_getElem, List.getElem_map, List.getElem_range, heq]
  have := (List.Nodup.get_inj_iff crcTableTop_nodup).mp hget
  simpa using this

theorem xor_left_cancel_nat {a x y : Nat} (h : a ^^^ x = a ^^^ y) : x = y := by
  have := congrArg (fun z => a ^^^ z) h
  simpa [← Nat.xor_assoc, Nat.xor_self] using this

theorem xor_right_cancel_nat {a x y : Nat} (h : x ^^^ a = y ^^^ a) : x = y := by
  have := congrArg (fun z => z ^^^ a) h
  simpa [Nat.xor_assoc, Nat.xor_self] using this

theorem and_ff_eq (x : Nat) : x &&& 0xff = x % 256 := by
  simpa using Nat.and_pow_two_sub_one_eq_mod x 8

theorem crc_index_eq (crc b : Nat) : (crc ^^^ b) &&& 0xff = (crc &&& 0xff) ^^^ (b &&& 0xff) :=
  Nat.and_xor_distrib_right

theorem crcStep_byte_inj (crc : Nat) {b1 b2 : Nat} (h1 : b1 < 256) (h2 : b2 < 256)
    (hne : b1 ≠ b2) : crcStep crc b1 ≠ crcStep crc b2 := by
  intro heq
  rw [crcStep, crcStep] at heq
  have htab := xor_left_cancel_nat heq
  have hidx : (crc ^^^ b1) &&& 0xff ≠ (crc ^^^ b2) &&& 0xff := by
    rw [crc_index_eq, crc_index_eq, and_ff_eq b1, and_ff_eq b2,
      Nat.mod_eq_of_lt h1, Nat.mod_eq_of_lt h2]
    intro hx
    exact hne (xor_left_cancel_nat hx)
  exact crcTableEntry_inj (and_ff_lt _) (and_ff_lt _) hidx htab

theorem xor_shiftRight_distrib (x y k : Nat) : (x ^^^ y) >>> k = (x >>> k) ^^^ (y >>> k) := by
  apply Nat.eq_of_testBit_eq
  intro i
  simp [Nat.testBit_shiftRight, Nat.testBit_xor]

theorem crcStep_state_inj {c1 c2 : Nat} (hb1 : c1 < 2 ^ 32) (hb2 : c2 < 2 ^ 32)
    (b : Nat) (hne : c1 ≠ c2) : crcStep c1 b ≠ crcStep c2 b := by
  intro heq
  by_cases hidx : (c1 ^^^ b) &&& 0xff = (c2 ^^^ b) &&& 0xff
  · apply hne
    rw [crcStep, crcStep, hidx] at heq
    have hhigh : c1 >>> 8 = c2 >>> 8 := xor_right_cancel_nat heq
    have hlow : c1 &&& 0xff = c2 &&& 0xff := by
      rw [crc_index_eq, crc_index_eq] at hidx
      exact xor_right_cancel_nat hidx
    rw [Nat.shiftRight_eq_div_pow] at hhigh
    rw [and_ff_eq, and_ff_eq] at hlow
    omega
  · have htop : crcStep c1 b >>> 24 = crcStep c2 b >>> 24 := by rw [heq]
    rw [crcStep, crcStep, xor_shiftRight_distrib, xor_shiftRight_distrib] at htop
    have hz1 : c1 >>> 8 >>> 24 = 0 := by
      rw [Nat.shiftRight_eq_div_pow, Nat.shiftRight_eq_div_pow, Nat.div_div_eq_div_mul]
      exact Nat.div_eq_of_lt (by norm_num at hb1 ⊢; omega)
    have hz2 : c2 >>> 8 >>> 24 = 0 := by
      rw [Nat.shiftRight_eq_div_pow, Nat.shiftRight_eq_div_pow, Nat.div_div_eq_div_mul]
      exact Nat.div_eq_of_lt (by norm_num at hb2 ⊢; omega)
    rw [hz1, hz2, Nat.zero_xor, Nat.zero_xor] at htop
    exact crcTableEntryTop_inj (and_ff_lt _) (and_ff_lt _) hidx htop

theorem foldl_crcStep_lt (s : List Nat) : ∀ {c : Nat}, c < 2 ^ 32 →
    s.foldl crcStep c < 2 ^ 32 := by
  induction s with
  | nil => intro c h; exact h
  | cons b rest ih => intro c h; exact ih (crcStep_lt b h)

theorem foldl_crcStep_inj (s : List Nat) : ∀ {c1 c2 : Nat}, c1 < 2 ^ 32 → c2 < 2 ^ 32 →
    c1 ≠ c2 → s.foldl crcStep c1 ≠ s.foldl crcStep c2 := by
  induction s with
  | nil => intro c1 c2 _ _ hne; exact hne
  | cons b rest ih =>
    intro c1 c2 h1 h2 hne
    exact ih (crcStep_lt b h1) (crcStep_lt b h2) (crcStep_state_inj h1 h2 b hne)

theorem crc32_single_byte_ne (p s : List Nat) {a b : Nat} (ha : a < 256) (hb : b < 256)
    (hne : a ≠ b) : crc32 (p ++ a :: s) ≠ crc32 (p ++ b :: s) := by
  rw [crc32, crc32]
  intro heq
  have hf := xor_right_cancel_nat heq
  rw [List.foldl_append, List.foldl_append, List.foldl_cons, List.foldl_cons] at hf
  have hc : p.foldl crcStep 0xffffffff < 2 ^ 32 := foldl_crcStep_lt p (by norm_num)
  exact foldl_crcStep_inj s (crcStep_lt a hc) (crcStep_lt b hc)
    (crcStep_byte_inj _ ha hb hne) hf

theorem crc32_set_ne (l : List Nat) (i c : Nat) (hi : i < l.length)
    (hwf : WFBytes l) (hc : c < 256) (hne : c ≠ l.getD i 0) :
    crc32 (l.set i c) ≠ crc32 l := by
  have hdec : l = l.take i ++ l[i] :: l.drop (i + 1) := by
    rw [← List.drop_eq_getElem_cons hi, List.take_append_drop]
  have hset : l.set i c = l.take i ++ c :: l.drop (i + 1) := by
    rw [List.set_eq_take_append_cons_drop, if_pos hi]
  rw [hset]
  nth_rewrite 3 [hdec]
  apply crc32_single_byte_ne _ _ hc (hwf _ (List.getElem_mem hi))
  rw [List.getD_eq_getElem _ _ hi] at hne
  exact hne

end MeshDataTile

namespace MeshDataTile

theorem take_set_of_lt (l : List Nat) (i c n : Nat) (_h : i < n) :
    (l.set i c).take n = (l.take n).set i c := by
  apply List.ext_getElem
  · simp [List.length_take, List.length_set]
  · intro k h1 h2
    simp only [List.getElem_take, List.getElem_set]

theorem take_set_of_le (l : List Nat) (i c n : Nat) (_h : n ≤ i) :
    (l.set i c).take n = l.take n := by
  apply List.ext_getElem
  · simp [List.length_take, List.length_set]
  · intro k h1 h2
    have hk : k < n := by
      have := h1
      rw [List.length_take, List.length_set] at this
      omega
    rw [List.getElem_take, List.getElem_set, if_neg (by omega), List.getElem_take]

theorem getD_set_self (l : List Nat) (i c : Nat) (h : i < l.length) :
    (l.set i c).getD i 0 = c := by
  rw [List.getD_eq_getElem _ _ (by rw [List.length_set]; exact h), List.getElem_set,
    if_pos rfl]

theorem getD_set_ne (l : List Nat) (i c k : Nat) (hik : i ≠ k) :
    (l.set i c).getD k 0 = l.getD k 0 := by
  by_cases hk : k < l.length
  · rw [List.getD_eq_getElem _ _ (by rw [List.length_set]; exact hk),
      List.getD_eq_getElem _ _ hk, List.getElem_set, if_neg hik]
  · rw [List.getD_eq_default _ _ (by rw [List.length_set]; omega),
      List.getD_eq_default _ _ (by omega)]

theorem getD_drop (l : List Nat) (n k : Nat) (h : n + k < l.length) :
    (l.drop n).getD k 0 = l.getD (n + k) 0 := by
  rw [List.getD_eq_getElem _ _ (by rw [List.length_drop]; omega),
    List.getD_eq_getElem _ _ h, List.getElem_drop]

theorem WFBytes_take {l : List Nat} (h : WFBytes l) (n : Nat) : WFBytes (l.take n) :=
  fun x hx => h x (List.mem_of_mem_take hx)

theorem WFBytes_drop {l : List Nat} (h : WFBytes l) (n : Nat) : WFBytes (l.drop n) :=
  fun x hx => h x (List.mem_of_mem_drop hx)

theorem readBytes_set_of_lt (l : List Nat) (i c o len : Nat) (h : i < o) :
    readBytes (l.set i c) o len = readBytes l o len := by
  rw [readBytes, readBytes, List.drop_set, if_pos h]

theorem inspectTile_magic_error {b : List Nat}
    (hlen : ¬(b.length < FIXED_HEADER_LENGTH))
    (hmag : ¬(readU8 b 0 = 0x4d ∧ readU8 b 1 = 0x54 ∧ readU8 b 2 = 0x49 ∧
      readU8 b 3 = 0x31)) :
    inspectTile b = .error ⟨.INVALID_MAGIC, .invalidMagic⟩ := by
  rw [inspectTile, if_neg hlen, if_pos hmag]

theorem inspectTile_version_error {b : List Nat}
    (hlen : ¬(b.length < FIXED_HEADER_LENGTH))
    (hmag : readU8 b 0 = 0x4d ∧ readU8 b 1 = 0x54 ∧ readU8 b 2 = 0x49 ∧
      readU8 b 3 = 0x31)
    (hver : readU8 b 4 ≠ VERSION_MAJOR) :
    inspectTile b = .error ⟨.UNSUPPORTED_VERSION, .unsupportedVersion⟩ := by
  rw [inspectTile, if_neg hlen, if_neg (not_not_intro hmag), if_pos hver]

theorem inspectTile_crc_error {b : List Nat}
    (hlen : ¬(b.length < FIXED_HEADER_LENGTH))
    (hmag : readU8 b 0 = 0x4d ∧ readU8 b 1 = 0x54 ∧ readU8 b 2 = 0x49 ∧
      readU8 b 3 = 0x31)
    (hver : readU8 b 4 = VERSION_MAJOR)
    (hcrc : crc32 (readBytes b 0 HEADER_CHECKSUM_INPUT_LENGTH) ≠
      readU32LE b HEADER_CHECKSUM_OFFSET) :
    inspectTile b = .error ⟨.HEADER_CHECKSUM_MISMATCH, .headerChecksumMismatch⟩ := by
  rw [inspectTile, if_neg hlen, if_neg (not_not_intro hmag),
    if_neg (not_not_intro hver : ¬(readU8 b 4 ≠ VERSION_MAJOR)), if_pos hcrc]

theorem decodeTile_inspect_error {rt : Runtime} {b : List Nat} {e : TileError}
    (h : inspectTile b = .error e) : decodeTile rt b = .error e := by
  simp only [decodeTile, Bind.bind, Except.bind, h]

theorem decodeTile_payload_crc_error {rt : Runtime} {b : List Nat}
    (info : InspectTileResult) (dec : List Nat)
    (hinfo : inspectTile b = .ok info)
    (hsupp : ¬(info.header.compression ≠ CompressionMode.none ∧
      (!(isCompressionModeSupported rt info.header.compression)) = true))
    (hslice : (readBytes b info.payload_offset info.payload_length).length =
      info.payload_length)
    (hdec : decompressPayload rt info.header.compression
      (readBytes b info.payload_offset info.payload_length) = .ok dec)
    (hulen : dec.length = info.header.payload.uncompressed_bytes)
    (hcrc : crc32 dec ≠ info.header.checksum.payload_crc32) :
    decodeTile rt b = .error ⟨.PAYLOAD_CHECKSUM_MISMATCH, .payloadChecksumMismatch⟩ := by
  simp only [decodeTile, Bind.bind, Except.bind, hinfo, if_neg hsupp,
    if_neg (not_not_intro hslice :
      ¬¬((readBytes b info.payload_offset info.payload_length).length =
        info.payload_length)),
    hdec,
    if_neg (not_not_intro hulen : ¬¬(dec.length = info.header.payload.uncompressed_bytes)),
    if_pos hcrc]

/-- Claim C2: every single-byte change of a decodable tile at an offset in
`[0, 54)` makes decoding fail with `HEADER_CHECKSUM_MISMATCH` or an earlier
structural error (`INVALID_MAGIC`, `UNSUPPORTED_VERSION`); with
`compression = none`, every single-byte change of the stored payload makes
decoding fail with `PAYLOAD_CHECKSUM_MISMATCH`. -/
theorem single_byte_tamper_detected (rt : Runtime) (b : List Nat) (t : DecodedTile)
    (hwf : WFBytes b) (hok : decodeTile rt b = .ok t) :
    (∀ i, i < 54 → ∀ c, c < 256 → c ≠ b.getD i 0 →
      ∃ e, decodeTile rt (b.set i c) = .error e ∧
        (e.code = .INVALID_MAGIC ∨ e.code = .UNSUPPORTED_VERSION ∨
          e.code = .HEADER_CHECKSUM_MISMATCH)) ∧
    (t.header.compression = CompressionMode.none →
      ∀ j, 58 ≤ j → j < 58 + t.header.payload.compressed_bytes →
        ∀ c, c < 256 → c ≠ b.getD j 0 →
          decodeTile rt (b.set j c) =
            .error ⟨.PAYLOAD_CHECKSUM_MISMATCH, .payloadChecksumMismatch⟩) := by
  obtain ⟨info, hinfo, hsupp, hslice, dec, hdec, hulen, hcrc, sc, hsc, hsclen,
    data, hdata, ht⟩ := decodeTile_ok_inv hok
  obtain ⟨h1, hmag, hver, hcrch, mk, de, comp, nd, clen, ulen2, hmk, hvt, hde,
    hcomp, hdims, hnd, hclen, hulen2, hfit, hr⟩ := inspectTile_ok_inv hinfo
  have hb58 : 58 ≤ b.length := by
    rw [show FIXED_HEADER_LENGTH = 58 from rfl] at h1; omega
  have hfit58 : ¬(b.length < 58 + clen) := by
    rw [show FIXED_HEADER_LENGTH = 58 from rfl] at hfit; exact hfit
  constructor
  · intro i hi c hc hcne
    have hlen' : ¬((b.set i c).length < FIXED_HEADER_LENGTH) := by
      rw [List.length_set]; exact h1
    by_cases hi4 : i < 4
    · refine ⟨⟨.INVALID_MAGIC, .invalidMagic⟩, ?_, Or.inl rfl⟩
      apply decodeTile_inspect_error
      apply inspectTile_magic_error hlen'
      obtain ⟨m0, m1, m2, m3⟩ := hmag
      have hset : readU8 (b.set i c) i = c := getD_set_self b i c (by omega)
      have hgd : readU8 b i = b.getD i 0 := rfl
      intro hconj
      obtain ⟨n0, n1, n2, n3⟩ := hconj
      interval_cases i
      · exact hcne (by rw [← hset, n0, ← hgd, m0])
      · exact hcne (by rw [← hset, n1, ← hgd, m1])
      · exact hcne (by rw [← hset, n2, ← hgd, m2])
      · exact hcne (by rw [← hset, n3, ← hgd, m3])
    · by_cases hi5 : i = 4
      · subst hi5
        refine ⟨⟨.UNSUPPORTED_VERSION, .unsupportedVersion⟩, ?_, Or.inr (Or.inl rfl)⟩
        apply decodeTile_inspect_error
        apply inspectTile_version_error hlen'
        · refine ⟨?_, ?_, ?_, ?_⟩
          · rw [show readU8 (b.set 4 c) 0 = (b.set 4 c).getD 0 0 from rfl,
              getD_set_ne b 4 c 0 (by omega)]
            exact hmag.1
          · rw [show readU8 (b.set 4 c) 1 = (b.set 4 c).getD 1 0 from rfl,
              getD_set_ne b 4 c 1 (by omega)]
            exact hmag.2.1
          · rw [show readU8 (b.set 4 c) 2 = (b.set 4 c).getD 2 0 from rfl,
              getD_set_ne b 4 c 2 (by omega)]
            exact hmag.2.2.1
          · rw [show readU8 (b.set 4 c) 3 = (b.set 4 c).getD 3 0 from rfl,
              getD_set_ne b 4 c 3 (by omega)]
            exact hmag.2.2.2
        · rw [show readU8 (b.set 4 c) 4 = (b.set 4 c).getD 4 0 from rfl,
            getD_set_self b 4 c (by omega)]
          intro hc1
          exact hcne (by rw [hc1, ← hver]; rfl)
      · have hi54 : 5 ≤ i ∧ i < 54 := ⟨by omega, hi⟩
        refine ⟨⟨.HEADER_CHECKSUM_MISMATCH, .headerChecksumMismatch⟩, ?_, Or.inr (Or.inr rfl)⟩
        apply decodeTile_inspect_error
        apply inspectTile_crc_error hlen'
        · refine ⟨?_, ?_, ?_, ?_⟩
          · rw [show readU8 (b.set i c) 0 = (b.set i c).getD 0 0 from rfl,
              getD_set_ne b i c 0 (by omega)]
            exact hmag.1
          · rw [show readU8 (b.set i c) 1 = (b.set i c).getD 1 0 from rfl,
              getD_set_ne b i c 1 (by omega)]
            exact hmag.2.1
          · rw [show readU8 (b.set i c) 2 = (b.set i c).getD 2 0 from rfl,
              getD_set_ne b i c 2 (by omega)]
            exact hmag.2.2.1
          · rw [show readU8 (b.set i c) 3 = (b.set i c).getD 3 0 from rfl,
              getD_set_ne b i c 3 (by omega)]
            exact hmag.2.2.2
        · rw [show readU8 (b.set i c) 4 = (b.set i c).getD 4 0 from rfl,
            getD_set_ne b i c 4 (by omega)]
          exact hver
        · have hread54 : readU32LE (b.set i c) HEADER_CHECKSUM_OFFSET =
              readU32LE b HEADER_CHECKSUM_OFFSET := by
            rw [readU32LE, readU32LE, show HEADER_CHECKSUM_OFFSET = 54 from rfl,
              readBytes_set_of_lt b i c 54 4 (by omega)]
          have hbody : readBytes (b.set i c) 0 HEADER_CHECKSUM_INPUT_LENGTH =
              (readBytes b 0 HEADER_CHECKSUM_INPUT_LENGTH).set i c := by
            rw [readBytes, readBytes, List.drop_zero, List.drop_zero]
            exact take_set_of_lt b i c 54 (by omega)
          rw [hread54, hbody, ← hcrch]
          apply crc32_set_ne
          · rw [readBytes, List.drop_zero, List.length_take]
            rw [show HEADER_CHECKSUM_INPUT_LENGTH = 54 from rfl]
            omega
          · exact WFBytes_take (by rw [readBytes, List.drop_zero] at *; exact hwf) 54
          · exact hc
          · rw [readBytes, List.drop_zero, show HEADER_CHECKSUM_INPUT_LENGTH = 54 from rfl,
              getD_take_of_lt b 54 i (by omega)]
            exact hcne
  · intro hcompnone j hj58 hjlt c hc hcne
    have hth : t.header = info.header := by rw [ht]
    have hcompn : info.header.compression = CompressionMode.none := by
      rw [← hth]; exact hcompnone
    have hclen_eq : info.header.payload.compressed_bytes = clen := by rw [hr]
    have hjclen : j < 58 + clen := by
      rw [hth, hclen_eq] at hjlt; exact hjlt
    have hoff : info.payload_offset = 58 := by rw [hr]; rfl
    have hpl : info.payload_length = clen := by rw [hr]
    have hjb : j < b.length := by omega
    have hdec_id : dec = readBytes b info.payload_offset info.payload_length := by
      rw [hcompn] at hdec
      exact (Except.ok.inj hdec).symm
    have htake58 : (b.set j c).take 58 = b.take 58 := take_set_of_le b j c 58 (by omega)
    have hinfo' : inspectTile (b.set j c) = .ok info := by
      apply inspectTile_congr hinfo htake58
      rw [List.length_set, hpl]
      omega
    have hslice' : readBytes (b.set j c) 58 clen = (readBytes b 58 clen).set (j - 58) c := by
      rw [readBytes, readBytes, List.drop_set, if_neg (by omega : ¬(j < 58)),
        take_set_of_lt _ _ _ _ (by omega : j - 58 < clen)]
    have hslicelen : (readBytes b 58 clen).length = clen := by
      rw [← hoff, ← hpl] at *
      rw [hoff, hpl] at hslice ⊢
      exact hslice
    apply decodeTile_payload_crc_error info ((readBytes b 58 clen).set (j - 58) c) hinfo'
      hsupp
    · rw [hoff, hpl, hslice', List.length_set]
      exact hslicelen
    · rw [hcompn, hoff, hpl, hslice']
      rfl
    · rw [List.length_set, hslicelen, ← hulen, hdec_id, hoff, hpl]
      exact hslicelen.symm ▸ rfl
    · rw [← hcrc, hdec_id, hoff, hpl]
      apply crc32_set_ne
      · rw [hslicelen]; omega
      · exact WFBytes_take (WFBytes_drop hwf 58) clen
      · exact hc
      · rw [readBytes, getD_take_of_lt _ clen _ (by omega), getD_drop b 58 (j - 58) (by omega)]
        rw [show 58 + (j - 58) = j by omega]
        exact hcne

/-- Witness for C2: the S1 sample tile decodes successfully, and the tamper
theorem applies to it with both hypotheses discharged by evaluation. -/
theorem single_byte_tamper_detected_witness :
    (∀ i, i < 54 → ∀ c, c < 256 → c ≠ sampleTileBytes.getD i 0 →
      ∃ e, decodeTile idRuntime (sampleTileBytes.set i c) = .error e ∧
        (e.code = .INVALID_MAGIC ∨ e.code = .UNSUPPORTED_VERSION ∨
          e.code = .HEADER_CHECKSUM_MISMATCH)) ∧
    (sampleDecodedTile.header.compression = CompressionMode.none →
      ∀ j, 58 ≤ j → j < 58 + sampleDecodedTile.header.payload.compressed_bytes →
        ∀ c, c < 256 → c ≠ sampleTileBytes.getD j 0 →
          decodeTile idRuntime (sampleTileBytes.set j c) =
            .error ⟨.PAYLOAD_CHECKSUM_MISMATCH, .payloadChecksumMismatch⟩) :=
  single_byte_tamper_detected idRuntime sampleTileBytes sampleDecodedTile
    (by decide) (by set_option maxRecDepth 10000 in decide)

theorem length_writeScalarBytes (d : DType) (v : JSNum) (le : Bool) :
    (writeScalarBytes d v le).length = byteLengthForDType d := by
  rw [writeScalarBytes]
  cases le <;> simp [length_natToBytesLE]

theorem encodeNoDataField_present_ok (d : DType) (v : JSNum) (le : Bool)
    (kind : Nat) (bytes : List Nat)
    (henc : encodeNoDataField (some v) d le = .ok (kind, bytes)) :
    kind = 1 ∧
      bytes = (if le then writeScalarBytes d v le ++
          List.replicate (8 - byteLengthForDType d) 0
        else List.replicate (8 - byteLengthForDType d) 0 ++ writeScalarBytes d v le) := by
  simp only [encodeNoDataField, encodeValues, encodeValuesLoop] at henc
  rw [if_neg (by simp)] at henc
  split at henc
  · exact Except.noConfusion henc
  · rename_i enc hok
    split at hok
    · exact Except.noConfusion hok
    · have henceq : enc = writeScalarBytes d v le ++ [] := (Except.ok.inj hok).symm
      rw [List.append_nil] at henceq
      subst henceq
      split at henc <;> rename_i hle <;>
        obtain ⟨hk, hb⟩ := Prod.mk.injEq .. ▸ Except.ok.inj henc
      · rw [if_pos hle]
        rw [show (writeScalarBytes d v le).length = byteLengthForDType d from
          length_writeScalarBytes d v le] at hb
        exact ⟨hk.symm, hb.symm⟩
      · rw [if_neg hle]
        rw [show (writeScalarBytes d v le).length = byteLengthForDType d from
          length_writeScalarBytes d v le] at hb
        exact ⟨hk.symm, hb.symm⟩

/-- Claim C5: a present no-data field is a kind byte 1 followed by 8 value
bytes with the scalar's `w` encoded bytes at the start (little-endian) or at
the end (big-endian) and zero padding elsewhere; on read, any nonzero padding
byte fails with `INVALID_FIELD_VALUE`; a little-endian uint16 no_data 0x1234
gives header byte 25 = 0x01 and bytes 26..34 = 34 12 00 00 00 00 00 00, and
big-endian gives 00 00 00 00 00 00 12 34. -/
theorem no_data_field_layout :
    (∀ (d : DType) (v : JSNum) (le : Bool) (kind : Nat) (bytes : List Nat),
      encodeNoDataField (some v) d le = .ok (kind, bytes) →
      kind = 1 ∧ bytes.length = 8 ∧
        (writeScalarBytes d v le).length = byteLengthForDType d ∧
        bytes = (if le then writeScalarBytes d v le ++
            List.replicate (8 - byteLengthForDType d) 0
          else List.replicate (8 - byteLengthForDType d) 0 ++
            writeScalarBytes d v le)) ∧
    (∀ (d : DType) (le : Bool) (bytes : List Nat), bytes.length = 8 →
      ((if le then bytes.drop (byteLengthForDType d)
        else bytes.take (8 - byteLengthForDType d)).any (· ≠ 0)) = true →
      decodeNoDataField 1 bytes d le =
        .error ⟨.INVALID_FIELD_VALUE, .noDataPaddingNonzero⟩) ∧
    (Except.map (fun r => (r.bytes.getD 25 0, readBytes r.bytes 26 8))
        (encodeTile idRuntime s5InputLE) =
      .ok (1, [0x34, 0x12, 0, 0, 0, 0, 0, 0])) ∧
    (Except.map (fun r => (r.bytes.getD 25 0, readBytes r.bytes 26 8))
        (encodeTile idRuntime s5InputBE) =
      .ok (1, [0, 0, 0, 0, 0, 0, 0x12, 0x34])) := by
  refine ⟨?_, ?_, ?_, ?_⟩
  · intro d v le kind bytes henc
    obtain ⟨hk, hb⟩ := encodeNoDataField_present_ok d v le kind bytes henc
    refine ⟨hk, ?_, length_writeScalarBytes d v le, hb⟩
    have hw : byteLengthForDType d ≤ 8 := by cases d <;> decide
    rw [hb]
    cases le <;>
      simp [List.length_append, List.length_replicate, length_writeScalarBytes] <;>
      omega
  · intro d le bytes hlen hpad
    simp only [decodeNoDataField]
    rw [if_neg (not_not_intro hlen), if_neg (by norm_num : ¬(1 = 0)),
      if_neg (by norm_num : ¬((1 : Nat) ≠ 1)), if_pos hpad]
  · set_option maxRecDepth 40000 in decide
  · set_option maxRecDepth 40000 in decide

/-- Witness for C5: the uint16 no-data 0x1234 little-endian field layout and
a nonzero-padding rejection, via the layout theorem at concrete inputs. -/
theorem no_data_field_layout_witness :
    (1 = 1 ∧ ([52, 18, 0, 0, 0, 0, 0, 0] : List Nat).length = 8 ∧
      (writeScalarBytes .uint16 (.finite 0x1234) true).length =
        byteLengthForDType .uint16 ∧
      ([52, 18, 0, 0, 0, 0, 0, 0] : List Nat) =
        (if true then writeScalarBytes .uint16 (.finite 0x1234) true ++
            List.replicate (8 - byteLengthForDType .uint16) 0
          else List.replicate (8 - byteLengthForDType .uint16) 0 ++
            writeScalarBytes .uint16 (.finite 0x1234) true)) ∧
    decodeNoDataField 1 [52, 18, 0, 0, 0, 0, 0, 1] .uint16 true =
      .error ⟨.INVALID_FIELD_VALUE, .noDataPaddingNonzero⟩ :=
  ⟨no_data_field_layout.1 .uint16 (.finite 0x1234) true 1 [52, 18, 0, 0, 0, 0, 0, 0]
      (by decide),
    no_data_field_layout.2.1 .uint16 true [52, 18, 0, 0, 0, 0, 0, 1] (by decide)
      (by decide)⟩

/-- Claim C4 (amended, refinement): `inspectTile` and `decodeTile` equal the
flat spec-side chains whose check order is magic, version, header CRC,
mesh-kind enum, tile-id validity, dtype/endianness enum, compression enum,
dimension values, no-data field, length fields, payload length versus file
length, then (decode only) unsupported compression, slice length,
decompression, uncompressed size, payload CRC, sample count, decoded sample
byte length. -/
theorem parse_error_order_refinement :
    (∀ bytes, inspectTile bytes = specOrderedInspect bytes) ∧
    (∀ rt bytes, decodeTile rt bytes = specOrderedDecode rt bytes) := by
  have hins : ∀ bytes, inspectTile bytes = specOrderedInspect bytes := by
    intro bytes
    simp only [inspectTile, specOrderedInspect, Bind.bind, Except.bind,
      show FIXED_HEADER_LENGTH = 58 from rfl,
      show HEADER_CHECKSUM_INPUT_LENGTH = 54 from rfl,
      show HEADER_CHECKSUM_OFFSET = 54 from rfl,
      show VERSION_MAJOR = 1 from rfl]
    repeat' (first
      | rfl
      | (split <;> rename_i h <;> try simp only [h]))
  refine ⟨hins, ?_⟩
  intro rt bytes
  simp only [decodeTile, specOrderedDecode, Bind.bind, Except.bind, hins]
  repeat' (first
    | rfl
    | (split <;> rename_i h <;> try simp only [h]))

set_option maxRecDepth 10000 in
/-- Counterexample to C4 as stated: in `c4buf` the dtype enum code (8) is
invalid and rows = 0, yet inspect and decode report the tile-id zoom error,
so tile-id validity is checked before the enum and dimension checks. -/
theorem enum_before_tile_id_refuted :
    inspectTile c4buf = .error ⟨.INVALID_FIELD_VALUE, .xyzZoomTooLarge⟩ ∧
      decodeTile idRuntime c4buf = .error ⟨.INVALID_FIELD_VALUE, .xyzZoomTooLarge⟩ ∧
      unpackDTypeEndian (readU8 c4buf 14) =
        .error ⟨.INVALID_FIELD_VALUE, .invalidDTypeCode⟩ ∧
      readU32LE c4buf 16 = 0 := by decide

end MeshDataTile

namespace MeshDataTile

theorem roundHalfEven_le (x : ℚ) (m : Nat) (hx : 0 ≤ x) (h : x < m) :
    roundHalfEven x ≤ m := by
  have hfl : x.floor < (m : Int) := by
    exact_mod_cast lt_of_le_of_lt (Int.floor_le x) h
  have hfl0 : (0 : Int) ≤ x.floor := Int.floor_nonneg.mpr hx
  simp only [roundHalfEven]
  split
  · omega
  · split
    · omega
    · split <;> omega

theorem two_le_two_pow {n : Nat} (h : 1 ≤ n) : 2 ≤ 2 ^ n := by
  calc 2 = 2 ^ 1 := (pow_one 2).symm
    _ ≤ 2 ^ n := Nat.pow_le_pow_right (by norm_num) h

theorem floatMagBits_le (prec expBits : Nat) (a : ℚ) (ha : 0 ≤ a)
    (he : 1 ≤ expBits) :
    floatMagBits prec expBits a ≤ (2 ^ expBits - 1) * 2 ^ (prec - 1) := by
  simp only [floatMagBits]
  split
  · rename_i hs
    have hb : roundHalfEven (a * (2 : ℚ) ^
        ((prec : Int) - 1 - (1 - (2 ^ (expBits - 1) - 1)))) ≤ 2 ^ (prec - 1) := by
      apply roundHalfEven_le _ _ (by positivity)
      push_cast
      exact hs
    refine hb.trans (Nat.le_mul_of_pos_left _ ?_)
    have := two_le_two_pow he
    omega
  · exact Nat.min_le_right _ _

theorem jsNumToBits_lt (prec expBits : Nat) (hp : 2 ≤ prec) (he : 1 ≤ expBits)
    (v : JSNum) : jsNumToBits prec expBits v < 2 ^ (expBits + prec) := by
  have hA : (2 ^ expBits - 1) * 2 ^ (prec - 1) < 2 ^ (expBits + prec - 1) := by
    have h1 : (2 ^ expBits - 1) * 2 ^ (prec - 1) < 2 ^ expBits * 2 ^ (prec - 1) := by
      apply Nat.mul_lt_mul_of_lt_of_le
      · have := two_le_two_pow he
        omega
      · exact le_refl _
      · exact Nat.pos_pow_of_pos _ (by norm_num)
    calc (2 ^ expBits - 1) * 2 ^ (prec - 1) < 2 ^ expBits * 2 ^ (prec - 1) := h1
      _ = 2 ^ (expBits + (prec - 1)) := (pow_add 2 expBits (prec - 1)).symm
      _ = 2 ^ (expBits + prec - 1) := by congr 1; omega
  have hB : 2 ^ (expBits + prec) = 2 * 2 ^ (expBits + prec - 1) := by
    rw [← pow_succ']
    congr 1
    omega
  cases v with
  | nan =>
    simp only [jsNumToBits]
    have h2 : 2 ^ (prec - 2) < 2 ^ (expBits + prec - 1) :=
      Nat.pow_lt_pow_right (by norm_num) (by omega)
    generalize hIB : (2 ^ expBits - 1) * 2 ^ (prec - 1) = IB at hA ⊢
    omega
  | inf neg =>
    simp only [jsNumToBits]
    generalize hIB : (2 ^ expBits - 1) * 2 ^ (prec - 1) = IB at hA ⊢
    cases neg <;> simp only [if_true, if_false, Bool.false_eq_true] <;> omega
  | finite q =>
    simp only [jsNumToBits]
    split
    · rename_i hq
      have hmag := floatMagBits_le prec expBits (-q) (by linarith) he
      generalize hIB : (2 ^ expBits - 1) * 2 ^ (prec - 1) = IB at hA hmag ⊢
      omega
    · rename_i hq
      have hmag := floatMagBits_le prec expBits q (by linarith) he
      generalize hIB : (2 ^ expBits - 1) * 2 ^ (prec - 1) = IB at hA hmag ⊢
      omega

theorem intToBits_lt (w8 : Nat) (i : Int) : intToBits w8 i < 2 ^ w8 := by
  rw [intToBits]
  have h1 : (0 : Int) ≤ i % (2 ^ w8 : Int) := Int.emod_nonneg i (by positivity)
  have h2 : i % (2 ^ w8 : Int) < (2 : Int) ^ w8 := Int.emod_lt_of_pos i (by positivity)
  have h3 : ((2 ^ w8 : Nat) : Int) = (2 : Int) ^ w8 := by push_cast; ring
  omega

theorem scalarToBits_lt (d : DType) (v : JSNum) :
    scalarToBits d v < 256 ^ byteLengthForDType d := by
  cases d <;> simp only [scalarToBits, byteLengthForDType]
  · simpa using intToBits_lt 8 v.intValue
  · simpa using intToBits_lt 8 v.intValue
  · simpa using intToBits_lt 16 v.intValue
  · simpa using intToBits_lt 16 v.intValue
  · simpa using intToBits_lt 32 v.intValue
  · simpa using intToBits_lt 32 v.intValue
  · simpa using jsNumToBits_lt 24 8 (by norm_num) (by norm_num) v
  · simpa using jsNumToBits_lt 53 11 (by norm_num) (by norm_num) v

theorem readScalarBytes_writeScalarBytes (d : DType) (v : JSNum) (le : Bool) :
    readScalarBytes d (writeScalarBytes d v le) le =
      scalarOfBits d (scalarToBits d v) := by
  rw [readScalarBytes, writeScalarBytes]
  have hmod : scalarToBits d v % 256 ^ byteLengthForDType d = scalarToBits d v :=
    Nat.mod_eq_of_lt (scalarToBits_lt d v)
  cases le <;>
    simp [List.reverse_reverse, bytesToNatLE_natToBytesLE, hmod]

end MeshDataTile

namespace MeshDataTile

theorem encodeValuesLoop_roundtrip (d : DType) (le : Bool) :
    ∀ (vs : List JSNum) (bs : List Nat),
      encodeValuesLoop d le vs = .ok bs →
      (∀ v ∈ vs, scalarOfBits d (scalarToBits d v) = v) →
      decodeValuesLoop d le vs.length bs = vs ∧
        bs.length = vs.length * byteLengthForDType d := by
  intro vs
  induction vs with
  | nil =>
    intro bs h _
    simp only [encodeValuesLoop] at h
    have hb : bs = [] := (Except.ok.inj h).symm
    subst hb
    simp [decodeValuesLoop]
  | cons v rest ih =>
    intro bs h hrepr
    simp only [encodeValuesLoop] at h
    split at h
    · exact Except.noConfusion h
    · split at h
      · exact Except.noConfusion h
      · rename_i tail htail
        have hb : bs = writeScalarBytes d v le ++ tail := (Except.ok.inj h).symm
        subst hb
        obtain ⟨hdec, hlen⟩ := ih tail htail (fun w hw => hrepr w (List.mem_cons_of_mem v hw))
        have hwlen : (writeScalarBytes d v le).length = byteLengthForDType d :=
          length_writeScalarBytes d v le
        constructor
        · simp only [List.length_cons, decodeValuesLoop, ← hwlen, List.take_left,
            List.drop_left]
          rw [readScalarBytes_writeScalarBytes, hrepr v (List.mem_cons_self v rest), hdec]
        · simp only [List.length_append, List.length_cons, hwlen, hlen]
          ring

theorem decodeValues_encodeValues (d : DType) (le : Bool) (vs : List JSNum)
    (bs : List Nat) (n : Nat)
    (henc : encodeValues d vs n le = .ok bs)
    (hrepr : ∀ v ∈ vs, scalarOfBits d (scalarToBits d v) = v) :
    decodeValues d bs le = .ok vs ∧ vs.length = n ∧
      bs.length = n * byteLengthForDType d := by
  rw [encodeValues] at henc
  split at henc
  · exact Except.noConfusion henc
  · rename_i hn
    rw [not_ne_iff] at hn
    obtain ⟨hdec, hlen⟩ := encodeValuesLoop_roundtrip d le vs bs henc hrepr
    have hw : 0 < byteLengthForDType d := by cases d <;> decide
    have hdiv : bs.length / byteLengthForDType d = vs.length := by
      rw [hlen, Nat.mul_div_cancel _ hw]
    have hmod : bs.length % byteLengthForDType d = 0 := by
      rw [hlen, Nat.mul_mod_left]
    refine ⟨?_, hn, by rw [hlen, hn]⟩
    rw [decodeValues, if_neg (not_not_intro hmod : ¬(bs.length % byteLengthForDType d ≠ 0)),
      hdiv, hdec]

theorem decodeValues_writeScalarBytes (d : DType) (le : Bool) (v : JSNum)
    (hvb : scalarOfBits d (scalarToBits d v) = v) :
    decodeValues d (writeScalarBytes d v le) le = .ok [v] := by
  have hwlen : (writeScalarBytes d v le).length = byteLengthForDType d :=
    length_writeScalarBytes d v le
  have hw0 : 0 < byteLengthForDType d := by cases d <;> decide
  rw [decodeValues, if_neg (by rw [hwlen]; simp [Nat.mod_self]), hwlen,
    Nat.div_self hw0]
  simp only [decodeValuesLoop]
  rw [← hwlen, List.take_length, readScalarBytes_writeScalarBytes, hvb]

theorem decodeNoDataField_encodeNoDataField (d : DType) (le : Bool)
    (value : Option JSNum) (kind : Nat) (bytes : List Nat)
    (henc : encodeNoDataField value d le = .ok (kind, bytes))
    (hfin : ∀ v, value = some v → v.isFinite = true)
    (hrepr : ∀ v, value = some v → scalarOfBits d (scalarToBits d v) = v) :
    decodeNoDataField kind bytes d le = .ok value := by
  match value with
  | none =>
    simp only [encodeNoDataField] at henc
    obtain ⟨hk, hb⟩ := Prod.mk.injEq .. ▸ Except.ok.inj henc
    rw [← hk, ← hb, decodeNoDataField]
    norm_num
  | some v =>
    obtain ⟨hk, hb⟩ := encodeNoDataField_present_ok d v le kind bytes henc
    subst hk
    have hwlen : (writeScalarBytes d v le).length = byteLengthForDType d :=
      length_writeScalarBytes d v le
    have hw8 : byteLengthForDType d ≤ 8 := by cases d <;> decide
    have hlen8 : bytes.length = 8 := by
      rw [hb]
      cases le <;> simp [hwlen] <;> omega
    have hvb : scalarOfBits d (scalarToBits d v) = v := hrepr v rfl
    have hvfin : v.isFinite = true := hfin v rfl
    have hpad : (List.replicate (8 - byteLengthForDType d) (0 : Nat)).any
        (fun x => decide (x ≠ 0)) = false := by
      rw [List.any_eq_false]
      intro x hx
      simp [List.eq_of_mem_replicate hx]
    cases le with
    | true =>
      rw [if_pos rfl] at hb
      have hdrop : bytes.drop (byteLengthForDType d) =
          List.replicate (8 - byteLengthForDType d) 0 := by
        rw [hb]
        exact List.drop_left' hwlen
      have htake : bytes.take (byteLengthForDType d) = writeScalarBytes d v true := by
        rw [hb]
        exact List.take_left' hwlen
      simp [decodeNoDataField, hlen8, hdrop, htake, hpad,
        decodeValues_writeScalarBytes d true v hvb, hvfin]
    | false =>
      rw [if_neg (by simp)] at hb
      have hreplen : (List.replicate (8 - byteLengthForDType d) (0 : Nat)).length =
          8 - byteLengthForDType d := List.length_replicate _ _
      have htake : bytes.take (8 - byteLengthForDType d) =
          List.replicate (8 - byteLengthForDType d) 0 := by
        rw [hb]
        exact List.take_left' hreplen
      have hdrop : bytes.drop (8 - byteLengthForDType d) =
          writeScalarBytes d v false := by
        rw [hb]
        exact List.drop_left' hreplen
      simp [decodeNoDataField, hlen8, hdrop, htake, hpad,
        decodeValues_writeScalarBytes d false v hvb, hvfin]

end MeshDataTile

namespace MeshDataTile

theorem natToBytesLE_eight (n : Nat) : natToBytesLE 8 n =
    [n % 256, n / 256 % 256, n / 256 ^ 2 % 256, n / 256 ^ 3 % 256,
     n / 256 ^ 4 % 256, n / 256 ^ 5 % 256, n / 256 ^ 6 % 256, n / 256 ^ 7 % 256] := by
  simp [natToBytesLE, Nat.div_div_eq_div_mul]

theorem natToBytesLE_four (n : Nat) : natToBytesLE 4 n =
    [n % 256, n / 256 % 256, n / 256 ^ 2 % 256, n / 256 ^ 3 % 256] := by
  simp [natToBytesLE, Nat.div_div_eq_div_mul]

theorem readBytes_append_right_exact (a b : List Nat) (len : Nat) :
    readBytes (a ++ b) a.length len = readBytes b 0 len := by
  rw [readBytes, readBytes, List.drop_left, List.drop_zero]

theorem readU8_append_left (a b : List Nat) (k : Nat) (h : k < a.length) :
    readU8 (a ++ b) k = readU8 a k :=
  List.getD_append _ _ _ _ h

end MeshDataTile

namespace MeshDataTile

section HeaderExtract

variable (tid : Nat) (mk : MeshKind) (d : DType) (e : Endianness)
  (c : CompressionMode) (rows cols bands ndK : Nat) (ndB : List Nat)
  (ul cl pcrc : Nat)

theorem headerBase54_spread :
    headerBase54 tid mk d e c rows cols bands ndK ndB ul cl pcrc =
      0x4d :: 0x54 :: 0x49 :: 0x31 :: VERSION_MAJOR ::
      (tid % 256) :: (tid / 256 % 256) :: (tid / 256 ^ 2 % 256) ::
      (tid / 256 ^ 3 % 256) :: (tid / 256 ^ 4 % 256) :: (tid / 256 ^ 5 % 256) ::
      (tid / 256 ^ 6 % 256) :: (tid / 256 ^ 7 % 256) ::
      MESH_KIND_TO_CODE mk :: packDTypeEndian d e :: COMPRESSION_TO_CODE c ::
      (rows % 256) :: (rows / 256 % 256) :: (rows / 256 ^ 2 % 256) ::
      (rows / 256 ^ 3 % 256) ::
      (cols % 256) :: (cols / 256 % 256) :: (cols / 256 ^ 2 % 256) ::
      (cols / 256 ^ 3 % 256) ::
      bands :: ndK ::
      (ndB ++ (natToBytesLE 8 ul ++ (natToBytesLE 8 cl ++ natToBytesLE 4 pcrc))) := by
  simp [headerBase54, MAGIC, natToBytesLE_eight, natToBytesLE_four]

theorem length_headerBase54 (hnd : ndB.length = 8) :
    (headerBase54 tid mk d e c rows cols bands ndK ndB ul cl pcrc).length = 54 := by
  simp [headerBase54, MAGIC, length_natToBytesLE, hnd]

theorem headerBase54_read_tid :
    readBytes (headerBase54 tid mk d e c rows cols bands ndK ndB ul cl pcrc) 5 8 =
      natToBytesLE 8 tid := by
  rw [headerBase54_spread, natToBytesLE_eight tid]
  rfl

theorem headerBase54_read_rows :
    readBytes (headerBase54 tid mk d e c rows cols bands ndK ndB ul cl pcrc) 16 4 =
      natToBytesLE 4 rows := by
  rw [headerBase54_spread, natToBytesLE_four rows]
  rfl

theorem headerBase54_read_cols :
    readBytes (headerBase54 tid mk d e c rows cols bands ndK ndB ul cl pcrc) 20 4 =
      natToBytesLE 4 cols := by
  rw [headerBase54_spread, natToBytesLE_four cols]
  rfl

theorem headerBase54_read_nd (hnd : ndB.length = 8) :
    readBytes (headerBase54 tid mk d e c rows cols bands ndK ndB ul cl pcrc) 26 8 =
      ndB := by
  have h1 : readBytes (headerBase54 tid mk d e c rows cols bands ndK ndB ul cl pcrc)
      26 8 = ((ndB ++ (natToBytesLE 8 ul ++ (natToBytesLE 8 cl ++
        natToBytesLE 4 pcrc))).take 8) := by
    rw [headerBase54_spread]
    rfl
  rw [h1, List.take_left' hnd]

theorem headerBase54_read_ul (hnd : ndB.length = 8) :
    readBytes (headerBase54 tid mk d e c rows cols bands ndK ndB ul cl pcrc) 34 8 =
      natToBytesLE 8 ul := by
  have h1 : readBytes (headerBase54 tid mk d e c rows cols bands ndK ndB ul cl pcrc)
      34 8 = ((ndB ++ (natToBytesLE 8 ul ++ (natToBytesLE 8 cl ++
        natToBytesLE 4 pcrc))).drop 8).take 8 := by
    rw [headerBase54_spread]
    rfl
  rw [h1, List.drop_left' hnd, List.take_left' (length_natToBytesLE 8 ul)]

theorem headerBase54_read_cl (hnd : ndB.length = 8) :
    readBytes (headerBase54 tid mk d e c rows cols bands ndK ndB ul cl pcrc) 42 8 =
      natToBytesLE 8 cl := by
  have h1 : readBytes (headerBase54 tid mk d e c rows cols bands ndK ndB ul cl pcrc)
      42 8 = ((ndB ++ (natToBytesLE 8 ul ++ (natToBytesLE 8 cl ++
        natToBytesLE 4 pcrc))).drop 16).take 8 := by
    rw [headerBase54_spread]
    rfl
  rw [h1, show (16 : Nat) = 8 + 8 from rfl, ← List.drop_drop, List.drop_left' hnd,
    List.drop_left' (length_natToBytesLE 8 ul),
    List.take_left' (length_natToBytesLE 8 cl)]

theorem headerBase54_read_pcrc (hnd : ndB.length = 8) :
    readBytes (headerBase54 tid mk d e c rows cols bands ndK ndB ul cl pcrc) 50 4 =
      natToBytesLE 4 pcrc := by
  have h1 : readBytes (headerBase54 tid mk d e c rows cols bands ndK ndB ul cl pcrc)
      50 4 = ((ndB ++ (natToBytesLE 8 ul ++ (natToBytesLE 8 cl ++
        natToBytesLE 4 pcrc))).drop 24).take 4 := by
    rw [headerBase54_spread]
    rfl
  rw [h1, show (24 : Nat) = 8 + (8 + 8) from rfl, ← List.drop_drop, ← List.drop_drop,
    List.drop_left' hnd, List.drop_left' (length_natToBytesLE 8 ul),
    List.drop_left' (length_natToBytesLE 8 cl),
    List.take_of_length_le (by rw [length_natToBytesLE])]

theorem headerBase54_read_all (hnd : ndB.length = 8) :
    readBytes (headerBase54 tid mk d e c rows cols bands ndK ndB ul cl pcrc) 0 54 =
      headerBase54 tid mk d e c rows cols bands ndK ndB ul cl pcrc := by
  rw [readBytes, List.drop_zero,
    List.take_of_length_le (by rw [length_headerBase54 _ _ _ _ _ _ _ _ _ _ _ _ _ hnd])]

end HeaderExtract

end MeshDataTile

namespace MeshDataTile

theorem parseMeshKind_code (mk : MeshKind) :
    parseMeshKind (MESH_KIND_TO_CODE mk) = .ok mk := by
  cases mk <;> rfl

theorem unpackDTypeEndian_pack (d : DType) (e : Endianness) :
    unpackDTypeEndian (packDTypeEndian d e) = .ok (d, e) := by
  cases d <;> cases e <;> rfl

theorem parseCompression_code (c : CompressionMode) :
    parseCompression (COMPRESSION_TO_CODE c) = .ok c := by
  cases c <;> rfl

theorem normalizeTileId_lt {x : TileIdValue} {t : Nat}
    (h : normalizeTileId x = .ok t) : t < 2 ^ 64 := by
  have hmax : (MAX_U64 : Int) = 2 ^ 64 - 1 := by
    rw [show MAX_U64 = 2 ^ 64 - 1 from rfl]
    push_cast
  cases x with
  | big i =>
    simp only [normalizeTileId, Bind.bind, Except.bind, Pure.pure, Except.pure] at h
    split at h
    · exact Except.noConfusion h
    · rename_i hrange
      have ht : t = i.toNat := (Except.ok.inj h).symm
      rw [not_or, not_lt, not_lt, hmax] at hrange
      omega
  | num v =>
    simp only [normalizeTileId, Bind.bind, Except.bind, Pure.pure, Except.pure] at h
    split at h
    · exact Except.noConfusion h
    · split at h
      · exact Except.noConfusion h
      · rename_i hrange
        have ht : t = v.intValue.toNat := (Except.ok.inj h).symm
        rw [not_or, not_lt, not_lt, hmax] at hrange
        omega
  | str sv =>
    simp only [normalizeTileId, Bind.bind, Except.bind, Pure.pure, Except.pure] at h
    split at h
    · exact Except.noConfusion h
    · split at h
      · exact Except.noConfusion h
      · rename_i hrange
        have ht : t = (digitsToNat sv : Int).toNat := (Except.ok.inj h).symm
        rw [not_or, not_lt, not_lt, hmax] at hrange
        omega

theorem normalizeDimension_ok {v : Int} {f : String} {r : Nat}
    (h : normalizeDimension v f = .ok r) : 0 < r ∧ r ≤ 0xffffffff := by
  rw [normalizeDimension] at h
  split at h
  · exact Except.noConfusion h
  · split at h
    · exact Except.noConfusion h
    · rename_i h1 h2
      have hr : r = v.toNat := (Except.ok.inj h).symm
      rw [not_le] at h1
      rw [not_lt] at h2
      omega

theorem normalizeBands_ok {v : Int} {r : Nat}
    (h : normalizeBands v = .ok r) : 0 < r ∧ r ≤ 0xff := by
  rw [normalizeBands] at h
  split at h
  · exact Except.noConfusion h
  · split at h
    · exact Except.noConfusion h
    · rename_i h1 h2
      have hr : r = v.toNat := (Except.ok.inj h).symm
      rw [not_le] at h1
      rw [not_lt] at h2
      omega

theorem normalizeCompression_ok {rt : Runtime} {c : Option CompressionMode}
    {mode : CompressionMode} (h : normalizeCompression rt c = .ok mode) :
    mode = c.getD .none ∧
      ¬(mode ≠ .none ∧ (!(isCompressionModeSupported rt mode)) = true) := by
  rw [normalizeCompression] at h
  split at h
  · exact Except.noConfusion h
  · rename_i hcond
    have hm : mode = c.getD .none := (Except.ok.inj h).symm
    subst hm
    exact ⟨rfl, hcond⟩

theorem validateNoData_ok {nd r : Option JSNum}
    (h : validateNoData nd = .ok r) :
    r = nd ∧ ∀ v, nd = some v → v.isFinite = true := by
  match nd with
  | none =>
    refine ⟨(Except.ok.inj h).symm, fun v hv => Option.noConfusion hv⟩
  | some v =>
    rw [validateNoData] at h
    split at h
    · exact Except.noConfusion h
    · rename_i hfin
      refine ⟨(Except.ok.inj h).symm, fun w hw => ?_⟩
      have hw' : w = v := (Option.some.inj hw).symm
      subst hw'
      simpa using hfin

theorem u64ToSafeNumber_intro {n : Nat} (h : n ≤ MAX_SAFE_INTEGER) :
    u64ToSafeNumber n = .ok n := by
  rw [u64ToSafeNumber, if_neg (by omega)]

end MeshDataTile

namespace MeshDataTile

theorem encodeNoDataField_length {value : Option JSNum} {d : DType} {le : Bool}
    {kind : Nat} {bytes : List Nat}
    (h : encodeNoDataField value d le = .ok (kind, bytes)) : bytes.length = 8 := by
  match value with
  | none =>
    simp only [encodeNoDataField] at h
    obtain ⟨hk, hb⟩ := Prod.mk.injEq .. ▸ Except.ok.inj h
    rw [← hb]
    simp
  | some v =>
    obtain ⟨hk, hb⟩ := encodeNoDataField_present_ok d v le kind bytes h
    have hwlen : (writeScalarBytes d v le).length = byteLengthForDType d :=
      length_writeScalarBytes d v le
    have hw8 : byteLengthForDType d ≤ 8 := by cases d <;> decide
    rw [hb]
    cases le <;> simp [hwlen] <;> omega

theorem encodeFixedHeader_ok_inv {tid : Nat} {mk : MeshKind} {d : DType}
    {e : Endianness} {c : CompressionMode} {rows cols bands : Nat}
    {noData : Option JSNum} {ul cl pcrc : Nat} {hb : List Nat}
    (h : encodeFixedHeader tid mk d e c rows cols bands noData ul cl pcrc = .ok hb) :
    ∃ ndK ndB, encodeNoDataField noData d (e = .little) = .ok (ndK, ndB) ∧
      hb = headerBase54 tid mk d e c rows cols bands ndK ndB ul cl pcrc ++
        natToBytesLE 4
          (crc32 (headerBase54 tid mk d e c rows cols bands ndK ndB ul cl pcrc)) := by
  rw [encodeFixedHeader] at h
  split at h
  · exact Except.noConfusion h
  · rename_i nd hnd
    exact ⟨nd.1, nd.2, by simpa using hnd, (Except.ok.inj h).symm⟩

theorem encodeTile_ok_inv {rt : Runtime} {input : TileEncodeInput}
    {result : EncodeResult} (h : encodeTile rt input = .ok result) :
    ∃ tileId t rows cols bands compression noData elementCount rawPayload
      compressedPayload headerBytes,
      normalizeTileId input.tile_id = .ok tileId ∧
      validateTileIdForMeshKind tileId input.mesh_kind = .ok t ∧
      normalizeDimension input.rows "rows" = .ok rows ∧
      normalizeDimension input.cols "cols" = .ok cols ∧
      normalizeBands input.bands = .ok bands ∧
      normalizeCompression rt input.compression = .ok compression ∧
      validateNoData input.no_data = .ok noData ∧
      totalSamples ⟨rows, cols, bands⟩ = .ok elementCount ∧
      encodeValues input.dtype input.data elementCount
        (input.endianness = Endianness.little) = .ok rawPayload ∧
      rawPayload.length = elementCount * byteLengthForDType input.dtype ∧
      compressPayload rt compression rawPayload = .ok compressedPayload ∧
      encodeFixedHeader tileId input.mesh_kind input.dtype input.endianness
        compression rows cols bands noData rawPayload.length
        compressedPayload.length (crc32 rawPayload) = .ok headerBytes ∧
      result = ⟨headerBytes ++ compressedPayload,
        ⟨VERSION_MAJOR, tileId, input.mesh_kind, input.dtype, input.endianness,
          compression, ⟨rows, cols, bands⟩, noData,
          ⟨compressedPayload.length, rawPayload.length⟩,
          ⟨crc32 rawPayload, readU32LE headerBytes HEADER_CHECKSUM_OFFSET⟩⟩⟩ := by
  simp only [encodeTile, Bind.bind, Except.bind] at h
  split at h
  · exact Except.noConfusion h
  · rename_i tileId hTid
    split at h
    · exact Except.noConfusion h
    · rename_i t hT
      split at h
      · exact Except.noConfusion h
      · rename_i rows hRows
        split at h
        · exact Except.noConfusion h
        · rename_i cols hCols
          split at h
          · exact Except.noConfusion h
          · rename_i bands hBands
            split at h
            · exact Except.noConfusion h
            · rename_i compression hComp
              split at h
              · exact Except.noConfusion h
              · rename_i noData hNd
                split at h
                · exact Except.noConfusion h
                · rename_i elementCount hCount
                  split at h
                  · exact Except.noConfusion h
                  · rename_i rawPayload hRaw
                    split at h
                    · exact Except.noConfusion h
                    · rename_i hLenOk
                      split at h
                      · exact Except.noConfusion h
                      · rename_i compressedPayload hCompP
                        split at h
                        · exact Except.noConfusion h
                        · rename_i headerBytes hHdr
                          refine ⟨tileId, t, rows, cols, bands, compression,
                            noData, elementCount, rawPayload, compressedPayload,
                            headerBytes, hTid, hT, hRows, hCols, hBands, hComp,
                            hNd, hCount, hRaw, not_ne_iff.mp hLenOk, hCompP,
                            hHdr, (Except.ok.inj h).symm⟩

end MeshDataTile

namespace MeshDataTile

section HeaderBytes

variable (tid : Nat) (mk : MeshKind) (d : DType) (e : Endianness)
  (c : CompressionMode) (rows cols bands ndK : Nat) (ndB : List Nat)
  (ul cl pcrc : Nat)

theorem headerBase54_byte0 :
    readU8 (headerBase54 tid mk d e c rows cols bands ndK ndB ul cl pcrc) 0 = 0x4d := by
  rw [headerBase54_spread]
  rfl

theorem headerBase54_byte1 :
    readU8 (headerBase54 tid mk d e c rows cols bands ndK ndB ul cl pcrc) 1 = 0x54 := by
  rw [headerBase54_spread]
  rfl

theorem headerBase54_byte2 :
    readU8 (headerBase54 tid mk d e c rows cols bands ndK ndB ul cl pcrc) 2 = 0x49 := by
  rw [headerBase54_spread]
  rfl

theorem headerBase54_byte3 :
    readU8 (headerBase54 tid mk d e c rows cols bands ndK ndB ul cl pcrc) 3 = 0x31 := by
  rw [headerBase54_spread]
  rfl

theorem headerBase54_byte4 :
    readU8 (headerBase54 tid mk d e c rows cols bands ndK ndB ul cl pcrc) 4 =
      VERSION_MAJOR := by
  rw [headerBase54_spread]
  rfl

theorem headerBase54_byte13 :
    readU8 (headerBase54 tid mk d e c rows cols bands ndK ndB ul cl pcrc) 13 =
      MESH_KIND_TO_CODE mk := by
  rw [headerBase54_spread]
  rfl

theorem headerBase54_byte14 :
    readU8 (headerBase54 tid mk d e c rows cols bands ndK ndB ul cl pcrc) 14 =
      packDTypeEndian d e := by
  rw [headerBase54_spread]
  rfl

theorem headerBase54_byte15 :
    readU8 (headerBase54 tid mk d e c rows cols bands ndK ndB ul cl pcrc) 15 =
      COMPRESSION_TO_CODE c := by
  rw [headerBase54_spread]
  rfl

theorem headerBase54_byte24 :
    readU8 (headerBase54 tid mk d e c rows cols bands ndK ndB ul cl pcrc) 24 =
      bands := by
  rw [headerBase54_spread]
  rfl

theorem headerBase54_byte25 :
    readU8 (headerBase54 tid mk d e c rows cols bands ndK ndB ul cl pcrc) 25 =
      ndK := by
  rw [headerBase54_spread]
  rfl

end HeaderBytes

theorem crc32_lt (l : List Nat) : crc32 l < 2 ^ 32 := by
  rw [crc32]
  exact Nat.xor_lt_two_pow (foldl_crcStep_lt l (by norm_num)) (by norm_num)

end MeshDataTile

namespace MeshDataTile

theorem decodeTile_encodeTile {rt : Runtime} {input : TileEncodeInput}
    {result : EncodeResult}
    (henc : encodeTile rt input = .ok result)
    (hinfl : ∀ xs, rt.inflate (rt.deflate xs) = some xs)
    (hrepr : ∀ v ∈ input.data, scalarOfBits input.dtype (scalarToBits input.dtype v) = v)
    (hreprnd : ∀ v, input.no_data = some v →
      scalarOfBits input.dtype (scalarToBits input.dtype v) = v)
    (hclen : result.header.payload.compressed_bytes ≤ MAX_SAFE_INTEGER)
    (hulen : result.header.payload.uncompressed_bytes ≤ MAX_SAFE_INTEGER) :
    ∃ raw, decodeTile rt result.bytes = .ok ⟨result.header, input.data, raw⟩ ∧
      raw.length = result.header.payload.uncompressed_bytes := by
  obtain ⟨tileId, t, rows, cols, bands, compression, noData, elementCount,
    rawPayload, compressedPayload, headerBytes, hTid, hT, hRows, hCols, hBands,
    hComp, hNd, hCount, hRaw, hLen, hCompP, hHdr, hres⟩ := encodeTile_ok_inv henc
  obtain ⟨ndK, ndB, hNdEnc, hhb⟩ := encodeFixedHeader_ok_inv hHdr
  have hndB : ndB.length = 8 := encodeNoDataField_length hNdEnc
  obtain ⟨hrows_pos, hrows_le⟩ := normalizeDimension_ok hRows
  obtain ⟨hcols_pos, hcols_le⟩ := normalizeDimension_ok hCols
  obtain ⟨hbands_pos, hbands_le⟩ := normalizeBands_ok hBands
  obtain ⟨hnd_eq, hnd_fin⟩ := validateNoData_ok hNd
  obtain ⟨hcomp_eq, hcomp_supp⟩ := normalizeCompression_ok hComp
  have htid_lt : tileId < 2 ^ 64 := normalizeTileId_lt hTid
  have hcl_msi : compressedPayload.length ≤ MAX_SAFE_INTEGER := by
    rw [hres] at hclen
    exact hclen
  have hul_msi : rawPayload.length ≤ MAX_SAFE_INTEGER := by
    rw [hres] at hulen
    exact hulen
  set B := headerBase54 tileId input.mesh_kind input.dtype input.endianness
    compression rows cols bands ndK ndB rawPayload.length compressedPayload.length
    (crc32 rawPayload) with hB
  set C := natToBytesLE 4 (crc32 B) with hC
  have hbaseLen : B.length = 54 := by
    rw [hB]
    exact length_headerBase54 _ _ _ _ _ _ _ _ _ _ _ _ _ hndB
  have hCLen : C.length = 4 := by
    rw [hC]
    exact length_natToBytesLE _ _
  have hbytes : result.bytes = (B ++ C) ++ compressedPayload := by
    rw [hres, hhb]
  have hblen : result.bytes.length = 58 + compressedPayload.length := by
    rw [hbytes]
    simp [hbaseLen, hCLen]
    omega
  have hreadB : ∀ off len, off + len ≤ 54 →
      readBytes result.bytes off len = readBytes B off len := by
    intro off len h
    rw [hbytes,
      readBytes_append_left (by rw [List.length_append, hbaseLen, hCLen]; omega),
      readBytes_append_left (by rw [hbaseLen]; omega)]
  have hreadU8 : ∀ k, k < 54 → readU8 result.bytes k = readU8 B k := by
    intro k hk
    rw [hbytes,
      readU8_append_left _ _ _ (by rw [List.length_append, hbaseLen, hCLen]; omega),
      readU8_append_left _ _ _ (by rw [hbaseLen]; omega)]
  have h0 : readU8 result.bytes 0 = 0x4d := by
    rw [hreadU8 0 (by omega), hB, headerBase54_byte0]
  have h1 : readU8 result.bytes 1 = 0x54 := by
    rw [hreadU8 1 (by omega), hB, headerBase54_byte1]
  have h2 : readU8 result.bytes 2 = 0x49 := by
    rw [hreadU8 2 (by omega), hB, headerBase54_byte2]
  have h3 : readU8 result.bytes 3 = 0x31 := by
    rw [hreadU8 3 (by omega), hB, headerBase54_byte3]
  have h4 : readU8 result.bytes 4 = VERSION_MAJOR := by
    rw [hreadU8 4 (by omega), hB, headerBase54_byte4]
  have h13 : readU8 result.bytes 13 = MESH_KIND_TO_CODE input.mesh_kind := by
    rw [hreadU8 13 (by omega), hB, headerBase54_byte13]
  have h14 : readU8 result.bytes 14 = packDTypeEndian input.dtype input.endianness := by
    rw [hreadU8 14 (by omega), hB, headerBase54_byte14]
  have h15 : readU8 result.bytes 15 = COMPRESSION_TO_CODE compression := by
    rw [hreadU8 15 (by omega), hB, headerBase54_byte15]
  have h24 : readU8 result.bytes 24 = bands := by
    rw [hreadU8 24 (by omega), hB, headerBase54_byte24]
  have h25 : readU8 result.bytes 25 = ndK := by
    rw [hreadU8 25 (by omega), hB, headerBase54_byte25]
  have hpow64 : (256 : Nat) ^ 8 = 2 ^ 64 := by norm_num
  have hpow32 : (256 : Nat) ^ 4 = 2 ^ 32 := by norm_num
  have hmsi_lt : MAX_SAFE_INTEGER < 2 ^ 64 := by
    rw [show MAX_SAFE_INTEGER = 2 ^ 53 - 1 from rfl]
    norm_num
  have h5 : readU64LE result.bytes 5 = tileId := by
    rw [readU64LE, hreadB 5 8 (by omega), hB, headerBase54_read_tid,
      bytesToNatLE_natToBytesLE]
    rw [hpow64]
    exact Nat.mod_eq_of_lt htid_lt
  have h16 : readU32LE result.bytes 16 = rows := by
    rw [readU32LE, hreadB 16 4 (by omega), hB, headerBase54_read_rows,
      bytesToNatLE_natToBytesLE]
    rw [hpow32]
    exact Nat.mod_eq_of_lt (by norm_num at hrows_le ⊢; omega)
  have h20 : readU32LE result.bytes 20 = cols := by
    rw [readU32LE, hreadB 20 4 (by omega), hB, headerBase54_read_cols,
      bytesToNatLE_natToBytesLE]
    rw [hpow32]
    exact Nat.mod_eq_of_lt (by norm_num at hcols_le ⊢; omega)
  have h26 : readBytes result.bytes 26 8 = ndB := by
    rw [hreadB 26 8 (by omega), hB]
    exact headerBase54_read_nd _ _ _ _ _ _ _ _ _ _ _ _ _ hndB
  have h34 : readU64LE result.bytes 34 = rawPayload.length := by
    rw [readU64LE, hreadB 34 8 (by omega), hB,
      headerBase54_read_ul _ _ _ _ _ _ _ _ _ _ _ _ _ hndB,
      bytesToNatLE_natToBytesLE]
    rw [hpow64]
    exact Nat.mod_eq_of_lt (by omega)
  have h42 : readU64LE result.bytes 42 = compressedPayload.length := by
    rw [readU64LE, hreadB 42 8 (by omega), hB,
      headerBase54_read_cl _ _ _ _ _ _ _ _ _ _ _ _ _ hndB,
      bytesToNatLE_natToBytesLE]
    rw [hpow64]
    exact Nat.mod_eq_of_lt (by omega)
  have h50 : readU32LE result.bytes 50 = crc32 rawPayload := by
    rw [readU32LE, hreadB 50 4 (by omega), hB,
      headerBase54_read_pcrc _ _ _ _ _ _ _ _ _ _ _ _ _ hndB,
      bytesToNatLE_natToBytesLE]
    rw [hpow32]
    exact Nat.mod_eq_of_lt (crc32_lt rawPayload)
  have h054 : readBytes result.bytes 0 54 = B := by
    rw [hreadB 0 54 (by omega), hB]
    exact headerBase54_read_all _ _ _ _ _ _ _ _ _ _ _ _ _ hndB
  have hBC54 : readU32LE (B ++ C) 54 = crc32 B := by
    rw [readU32LE, show (54 : Nat) = B.length from hbaseLen.symm,
      readBytes_append_right_exact, readBytes, List.drop_zero,
      List.take_of_length_le (by rw [hCLen]), hC, bytesToNatLE_natToBytesLE]
    rw [hpow32]
    exact Nat.mod_eq_of_lt (crc32_lt B)
  have h54 : readU32LE result.bytes 54 = crc32 B := by
    rw [readU32LE, hbytes,
      readBytes_append_left (by rw [List.length_append, hbaseLen, hCLen]),
      ← readU32LE, hBC54]
  have hH54 : readU32LE headerBytes 54 = crc32 B := by
    rw [hhb, hBC54]
  have hres_hdr : result.header = ⟨VERSION_MAJOR, tileId, input.mesh_kind,
      input.dtype, input.endianness, compression, ⟨rows, cols, bands⟩, noData,
      ⟨compressedPayload.length, rawPayload.length⟩,
      ⟨crc32 rawPayload, crc32 B⟩⟩ := by
    simp only [hres, show HEADER_CHECKSUM_OFFSET = 54 from rfl, hH54]
  have hinspect := inspectTile_ok_intro (b := result.bytes) input.mesh_kind
    (input.dtype, input.endianness) compression noData t compressedPayload.length
    rawPayload.length
    (by rw [show FIXED_HEADER_LENGTH = 58 from rfl]; omega)
    ⟨h0, h1, h2, h3⟩
    h4
    (by rw [show HEADER_CHECKSUM_INPUT_LENGTH = 54 from rfl,
        show HEADER_CHECKSUM_OFFSET = 54 from rfl, h054, h54])
    (by rw [h13]; exact parseMeshKind_code input.mesh_kind)
    (by rw [h5]; exact hT)
    (by rw [h14]; exact unpackDTypeEndian_pack input.dtype input.endianness)
    (by rw [h15]; exact parseCompression_code compression)
    (by rw [h16, h20, h24]; push_neg; omega)
    (by rw [h25, h26]
        exact decodeNoDataField_encodeNoDataField input.dtype
          (input.endianness = Endianness.little) noData ndK ndB hNdEnc
          (fun v hv => hnd_fin v (by rw [← hnd_eq]; exact hv))
          (fun v hv => hreprnd v (by rw [← hnd_eq]; exact hv)))
    (by rw [h42]; exact u64ToSafeNumber_intro hcl_msi)
    (by rw [h34]; exact u64ToSafeNumber_intro hul_msi)
    (by rw [show FIXED_HEADER_LENGTH = 58 from rfl]; omega)
  rw [h4, h5, h16, h20, h24, h50, h54] at hinspect
  have hinfo : inspectTile result.bytes = .ok ⟨result.header, FIXED_HEADER_LENGTH,
      FIXED_HEADER_LENGTH, compressedPayload.length, crc32 B⟩ := by
    rw [hres_hdr]
    exact hinspect
  have hslice : readBytes result.bytes 58 compressedPayload.length =
      compressedPayload := by
    rw [hbytes, readBytes,
      List.drop_left' (show ((B ++ C) : List Nat).length = 58 by
        rw [List.length_append, hbaseLen, hCLen]),
      List.take_of_length_le (le_refl _)]
  have hdecomp : decompressPayload rt compression compressedPayload =
      .ok rawPayload := by
    cases compression with
    | none =>
      rw [compressPayload] at hCompP
      have hcp : compressedPayload = rawPayload := (Except.ok.inj hCompP).symm
      rw [hcp, decompressPayload]
    | deflateRaw =>
      rw [compressPayload] at hCompP
      split at hCompP
      · exact Except.noConfusion hCompP
      · rename_i hsup
        have hcp : compressedPayload = rt.deflate rawPayload :=
          (Except.ok.inj hCompP).symm
        rw [decompressPayload, if_neg hsup, hcp, hinfl rawPayload]
  have hdata : decodeValues input.dtype rawPayload
      (input.endianness = Endianness.little) = .ok input.data :=
    (decodeValues_encodeValues input.dtype _ input.data rawPayload elementCount
      hRaw hrepr).1
  have hdec := decodeTile_ok_intro (b := result.bytes)
    ⟨result.header, FIXED_HEADER_LENGTH, FIXED_HEADER_LENGTH,
      compressedPayload.length, crc32 B⟩
    rawPayload elementCount input.data
    hinfo
    (by rw [hres_hdr]; exact hcomp_supp)
    (by rw [show FIXED_HEADER_LENGTH = 58 from rfl]
        rw [hslice])
    (by rw [show FIXED_HEADER_LENGTH = 58 from rfl, hslice, hres_hdr]
        exact hdecomp)
    (by rw [hres_hdr])
    (by rw [hres_hdr])
    (by rw [hres_hdr]; exact hCount)
    (by rw [hres_hdr]; exact hLen)
    (by rw [hres_hdr]; exact hdata)
  refine ⟨rawPayload, hdec, ?_⟩
  rw [hres_hdr]

end MeshDataTile

namespace MeshDataTile

/-- Claim C1 (amended): for every successful encode whose runtime DEFLATE
codec is lossless, whose data and no-data values are exactly representable in
the target dtype, and whose stored length fields are safe integers, decoding
the produced bytes succeeds with element-wise equal data; the decoded header
equals the result header, and its fields equal the input fields with a
missing compression defaulting to `none` and `no_data` preserved. -/
theorem encode_decode_roundtrip
    {rt : Runtime} {input : TileEncodeInput} {result : EncodeResult}
    (henc : encodeTile rt input = .ok result)
    (hinfl : ∀ xs, rt.inflate (rt.deflate xs) = some xs)
    (hrepr : ∀ v ∈ input.data, scalarOfBits input.dtype (scalarToBits input.dtype v) = v)
    (hreprnd : ∀ v, input.no_data = some v →
      scalarOfBits input.dtype (scalarToBits input.dtype v) = v)
    (hclen : result.header.payload.compressed_bytes ≤ MAX_SAFE_INTEGER)
    (hulen : result.header.payload.uncompressed_bytes ≤ MAX_SAFE_INTEGER) :
    ∃ t, decodeTile rt result.bytes = .ok t ∧
      t.data = input.data ∧
      t.header = result.header ∧
      t.header.mesh_kind = input.mesh_kind ∧
      t.header.dtype = input.dtype ∧
      t.header.endianness = input.endianness ∧
      t.header.compression = input.compression.getD CompressionMode.none ∧
      t.header.no_data = input.no_data := by
  obtain ⟨raw, hdec, hrawlen⟩ :=
    decodeTile_encodeTile henc hinfl hrepr hreprnd hclen hulen
  obtain ⟨tileId, t, rows, cols, bands, compression, noData, elementCount,
    rawPayload, compressedPayload, headerBytes, hTid, hT, hRows, hCols, hBands,
    hComp, hNd, hCount, hRaw, hLen, hCompP, hHdr, hres⟩ := encodeTile_ok_inv henc
  obtain ⟨hnd_eq, _⟩ := validateNoData_ok hNd
  obtain ⟨hcomp_eq, _⟩ := normalizeCompression_ok hComp
  refine ⟨⟨result.header, input.data, raw⟩, hdec, rfl, rfl, ?_, ?_, ?_, ?_, ?_⟩
  · rw [hres]
  · rw [hres]
  · rw [hres]
  · rw [hres]
    exact hcomp_eq
  · rw [hres]
    exact hnd_eq

theorem Rat_floor_eq_intFloor (q : ℚ) : q.floor = ⌊q⌋ := rfl

theorem floatMagBits_c1 : floatMagBits 24 8 (33554433 : ℚ) = 1275068416 := by
  simp only [floatMagBits]
  split_ifs with h1
  · exfalso
    rw [show (((24 : Nat) : Int) - 1 - (1 - (2 ^ (8 - 1) - 1))) = ((149 : Nat) : Int)
        by norm_num, zpow_natCast] at h1
    norm_num at h1
  · have ht : ((33554433 : ℚ) * (2 : ℚ) ^ (-(1 - ((2 : Int) ^ (8 - 1) - 1)))).floor.toNat
        = 33554433 * 2 ^ 126 := by
      rw [show (-(1 - ((2 : Int) ^ (8 - 1) - 1))) = ((126 : Nat) : Int) by norm_num,
        zpow_natCast,
        show (33554433 : ℚ) * 2 ^ (126 : Nat) = ((33554433 * 2 ^ 126 : ℕ) : ℚ)
          by push_cast; ring,
        Rat_floor_eq_intFloor, Int.floor_natCast]
      rfl
    rw [ht]
    have hlog : Nat.log2 (33554433 * 2 ^ 126) = 151 := by
      rw [Nat.log2_eq_log_two]
      exact Nat.log_eq_of_pow_le_of_lt_pow (by norm_num) (by norm_num)
    rw [hlog]
    have hround : roundHalfEven ((33554433 : ℚ) *
        (2 : ℚ) ^ (((24 : Nat) : Int) - 1 - (((151 : Nat) : Int) +
          (1 - (2 ^ (8 - 1) - 1))))) = 8388608 := by
      rw [show (((24 : Nat) : Int) - 1 - (((151 : Nat) : Int) +
          (1 - (2 ^ (8 - 1) - 1)))) = (-2 : Int) by norm_num]
      have hx : (33554433 : ℚ) * (2 : ℚ) ^ (-2 : Int) = 33554433 / 4 := by
        rw [show (-2 : Int) = -((2 : Nat) : Int) by norm_num, zpow_neg, zpow_natCast]
        norm_num
      rw [hx]
      have hfl : ((33554433 : ℚ) / 4).floor = 8388608 := by
        rw [Rat_floor_eq_intFloor, Int.floor_eq_iff]
        constructor
        · norm_num
        · norm_num
      simp only [roundHalfEven, hfl]
      norm_num
      decide
    rw [hround]
    decide

theorem jsNumToBits_c1 : jsNumToBits 24 8 (.finite 33554433) = 1275068416 := by
  simp only [jsNumToBits]
  rw [if_neg (by norm_num : ¬((33554433 : ℚ) < 0))]
  exact floatMagBits_c1

theorem bitsToJSNum_c1 : bitsToJSNum 24 8 1275068416 = .finite 33554432 := by
  have hsign : 1275068416 >>> (8 + 24 - 1) = 0 := by decide
  have hE : (1275068416 >>> (24 - 1)) &&& (2 ^ 8 - 1) = 152 := by decide
  have hf : 1275068416 &&& (2 ^ (24 - 1) - 1) = 0 := by decide
  simp only [bitsToJSNum, hsign, hE, hf,
    if_neg (by norm_num : ¬((152 : Nat) = 2 ^ 8 - 1)),
    if_neg (by norm_num : ¬((152 : Nat) = 0)),
    if_neg (by norm_num : ¬((0 : Nat) = 1))]
  congr 1
  rw [show (((152 : Nat) : Int) - (2 ^ (8 - 1) - 1) - (((24 : Nat) : Int) - 1)) =
      ((2 : Nat) : Int) by norm_num, zpow_natCast]
  push_cast
  norm_num

/-- C1 counterexample: the float32 scalar pipeline is lossy.  The value
33554433 = 2 ^ 25 + 1 passes per-scalar validation, `encodeValues` stores it
as the float32 bytes `00 00 00 4c`, and `decodeValues` reads those bytes back
as 33554432, a different number. -/
theorem float32_roundtrip_not_exact :
    validateScalar .float32 (.finite 33554433) = none ∧
    encodeValues .float32 [.finite 33554433] 1 true = .ok [0, 0, 0, 76] ∧
    decodeValues .float32 [0, 0, 0, 76] true = .ok [.finite 33554432] ∧
    JSNum.finite 33554432 ≠ JSNum.finite 33554433 := by
  have hval : validateScalar .float32 (.finite 33554433) = none := by decide
  have hbits : scalarToBits .float32 (.finite 33554433) = 1275068416 := jsNumToBits_c1
  have hw : writeScalarBytes .float32 (.finite 33554433) true = [0, 0, 0, 76] := by
    rw [writeScalarBytes, hbits]
    decide
  have hread : readScalarBytes .float32 [0, 0, 0, 76] true = .finite 33554432 := by
    rw [readScalarBytes,
      show bytesToNatLE (if (true : Bool) then ([0, 0, 0, 76] : List Nat)
        else ([0, 0, 0, 76] : List Nat).reverse) = 1275068416 by decide]
    exact bitsToJSNum_c1
  refine ⟨hval, ?_, ?_, by decide⟩
  · rw [encodeValues, if_neg (by norm_num)]
    simp only [encodeValuesLoop, hval, hw]
    rw [List.append_nil]
  · have hloop : decodeValuesLoop .float32 true 1 [0, 0, 0, 76] =
        [JSNum.finite 33554432] := by
      simp only [decodeValuesLoop]
      rw [show List.take (byteLengthForDType DType.float32) ([0, 0, 0, 76] : List Nat) =
        [0, 0, 0, 76] from rfl, hread]
    rw [decodeValues, if_neg (by decide),
      show ([0, 0, 0, 76] : List Nat).length / byteLengthForDType DType.float32 = 1
        from rfl, hloop]

set_option maxRecDepth 100000 in
/-- Witness for C1: the roundtrip theorem applied to the S1 sample tile, with
every hypothesis discharged by evaluation. -/
theorem encode_decode_roundtrip_witness :
    ∃ t, decodeTile idRuntime c1WitnessResult.bytes = .ok t ∧
      t.data = c1WitnessInput.data ∧
      t.header = c1WitnessResult.header ∧
      t.header.mesh_kind = c1WitnessInput.mesh_kind ∧
      t.header.dtype = c1WitnessInput.dtype ∧
      t.header.endianness = c1WitnessInput.endianness ∧
      t.header.compression = c1WitnessInput.compression.getD CompressionMode.none ∧
      t.header.no_data = c1WitnessInput.no_data :=
  encode_decode_roundtrip (by decide) (fun xs => rfl) (by decide) (by decide)
    (by decide) (by decide)

end MeshDataTile
